import Mathlib

/-!
# ArtofCinema: scoring and tagging services

A shallow embedding of the pure scoring functions of the backend
(`backend/services/*.js`) and of the discovery handlers
(`backend/controllers/discoveryController.js`), together with the properties
stated about them.

Conventions of the embedding.

* A JavaScript object field that may be missing (`undefined`) is an `Option`.
* Numbers read from a film record are finite and are modelled by `ℚ`
  (exact arithmetic); integers computed by the code are `Int`. A `NaN` read
  from a record compares false with every bound, as a missing field does
  where the code compares it directly. Where a statement depends on the
  rounding of the doubles of the source, the definitions `Rounded.f` of the
  section on double-precision arithmetic make that rounding explicit.
* A value that a computation can produce and that is not a finite number is
  kept apart in `JSValue`: `NaN`, and the non-numeric values (a function or
  object found on the prototype chain, or the string obtained by `+` with
  one).
* A JavaScript object literal used as a lookup table is an association list
  of its own properties; property access `table[key]` also finds the
  properties every object literal inherits from `Object.prototype`.
-/

namespace ArtofCinema

/-! ## JavaScript values and property lookup -/

/-- The values the arthouse scorer can produce: a finite integer-valued
number, `NaN`, or a non-numeric value (an inherited function or object, or a
string built by concatenating with one); `ToNumber` of the last kind is
`NaN`. -/
inductive JSValue where
  | num (z : Int)
  | nan
  | obj
  deriving DecidableEq, Repr

namespace JSValue

/-- The binary `+` of JavaScript on the values of the model: numeric addition
on two numbers (with `NaN` absorbing), string concatenation as soon as one
operand is not a number. -/
def add : JSValue → JSValue → JSValue
  | num a, num b => num (a + b)
  | obj, _ => obj
  | _, obj => obj
  | _, _ => nan

/-- The call `Math.min(c, v)` for a numeric constant `c`: `ToNumber` is
applied to `v`, and `NaN` is returned when it is not a number. -/
def mathMin (c : Int) : JSValue → JSValue
  | num a => num (min c a)
  | _ => nan

/-- The call `Math.max(c, v)` for a numeric constant `c`. -/
def mathMax (c : Int) : JSValue → JSValue
  | num a => num (max c a)
  | _ => nan

/-- The binary `-`: `ToNumber` is applied to both operands. -/
def sub : JSValue → JSValue → JSValue
  | num a, num b => num (a - b)
  | _, _ => nan

/-- Truthiness of a value: a number is truthy unless it is zero, `NaN` is
falsy, a function, object or non-empty string is truthy. -/
def truthy : JSValue → Bool
  | num a => a != 0
  | nan => false
  | obj => true

end JSValue

/-- The names of the properties that every object literal inherits from
`Object.prototype`; each of them holds a function or an object. -/
def OBJECT_PROTOTYPE_KEYS : List String :=
  ["constructor", "__proto__", "hasOwnProperty", "isPrototypeOf",
   "propertyIsEnumerable", "toString", "toLocaleString", "valueOf",
   "__defineGetter__", "__defineSetter__", "__lookupGetter__", "__lookupSetter__"]

/-- Property access `table[key]` on an object literal whose own properties
are the pairs of `table`: the own property when there is one, otherwise the
inherited function or object for a name of `Object.prototype`, otherwise
`undefined` (`none`). -/
def getProp (table : List (String × Int)) (key : String) : Option JSValue :=
  match table.lookup key with
  | some v => some (JSValue.num v)
  | none => if key ∈ OBJECT_PROTOTYPE_KEYS then some JSValue.obj else none

/-- The test `if (table[key])`. -/
def hasTruthyProp (table : List (String × Int)) (key : String) : Bool :=
  match getProp table key with
  | some v => v.truthy
  | none => false

/-! ## The film record -/

/-- The value of the field `moods` of a film record: a `Map` (as a Mongoose
document holds it) or a plain object, each given by its entries in insertion
order. -/
inductive FilmMoods where
  | map (entries : List (String × ℚ))
  | object (entries : List (String × ℚ))

/-- The fields of a film record read by the scoring services. A field that
is missing on the record is `none`. -/
structure Film where
  popularity : Option ℚ := none
  vote_average : Option ℚ := none
  vote_count : Option ℚ := none
  genres : Option (List String) := none
  derivedTags : Option (List String) := none
  country : Option String := none
  year : Option Int := none
  tier : Option Int := none
  directors : Option (List String) := none
  festivalWins : Option (List String) := none
  formalInnovation : Option ℚ := none
  culturalInfluence : Option ℚ := none
  _id : String := ""
  baseCanonScore : Option ℚ := none
  showCount : Option ℚ := none
  depthScore : Option ℚ := none
  moods : Option FilmMoods := none
  movements : Option (List String) := none
  decade : Option Int := none

/-! ## Arthouse scoring (`backend/services/arthouseScoring.js`) -/

def ARTHOUSE_COUNTRIES : List (String × Int) :=
  [("France", 15), ("Italy", 15), ("Japan", 15), ("Iran", 15), ("South Korea", 15),
   ("Germany", 12), ("Russia", 12), ("Sweden", 12), ("Poland", 12),
   ("United Kingdom", 8), ("Spain", 10), ("Taiwan", 12), ("China", 10),
   ("India", 8), ("Brazil", 10), ("Mexico", 10), ("Argentina", 10)]

def ARTHOUSE_GENRES : List (String × Int) :=
  [("Drama", 10), ("Documentary", 8), ("History", 8), ("War", 6), ("Music", 6),
   ("Romance", 4)]

def MAINSTREAM_GENRES : List (String × Int) :=
  [("Action", -10), ("Adventure", -10), ("Science Fiction", -10), ("Fantasy", -8),
   ("Animation", -5), ("Comedy", -3)]

/-- The per-tag bonus table `ARTHOUSE_TAGS` of `arthouseScoring.js`; the
tagging service has a constant of the same name in its own module, the tag
vocabulary `ARTHOUSE_TAGS` below. -/
def arthouseScoring.ARTHOUSE_TAGS : List (String × Int) :=
  [("contemplative", 5), ("existential", 5), ("slow", 5), ("austere", 5),
   ("dreamlike", 3), ("surreal", 3), ("enigmatic", 3), ("psychological", 2),
   ("intimate", 2), ("melancholic", 2), ("poetic", 4), ("minimalist", 4),
   ("lyrical", 3), ("fragmented", 3)]

/-- The statement `if (table[key]) acc += table[key]`. -/
def addIfTruthy (table : List (String × Int)) (acc : JSValue) (key : String) : JSValue :=
  match getProp table key with
  | some v => if v.truthy then acc.add v else acc
  | none => acc

/-- The function `calculateArthouseScore`. The running `score` is a number
(possibly `NaN`) until the country branch; `movie.popularity < 20` is false
for a missing popularity, and the destructuring gives a missing
`vote_average` or `vote_count` the default `0`. -/
def calculateArthouseScore (movie : Film) : JSValue :=
  let score := JSValue.num 0
  -- 1. popularity
  let score :=
    match movie.popularity with
    | none => score
    | some popularity =>
      if popularity < 20 then score.add (JSValue.num 25)
      else if popularity < 50 then score.add (JSValue.num 15)
      else if popularity < 100 then score.add (JSValue.num 5)
      else score
  -- 2. vote pattern
  let vote_average := movie.vote_average.getD 0
  let vote_count := movie.vote_count.getD 0
  let score :=
    if vote_average ≥ 7.5 ∧ vote_count < 5000 then score.add (JSValue.num 20)
    else if vote_average ≥ 7.0 ∧ vote_count < 10000 then score.add (JSValue.num 15)
    else if vote_average ≥ 6.5 then score.add (JSValue.num 10)
    else if vote_average ≥ 6.0 then score.add (JSValue.num 5)
    else score
  -- 3. genres
  let genres := movie.genres.getD []
  let genreScore := genres.foldl
    (fun genreScore genre =>
      addIfTruthy MAINSTREAM_GENRES (addIfTruthy ARTHOUSE_GENRES genreScore genre) genre)
    (JSValue.num 0)
  let score := score.add (JSValue.mathMax (-10) (JSValue.mathMin 20 genreScore))
  -- 4. tags
  let tags := movie.derivedTags.getD []
  let tagScore := tags.foldl (addIfTruthy arthouseScoring.ARTHOUSE_TAGS) (JSValue.num 0)
  let score := score.add (JSValue.mathMin 20 tagScore)
  -- 5. country
  let country := movie.country.getD ""
  let score :=
    if country = "United States of America" ∨ country = "USA" then score.sub (JSValue.num 10)
    else if hasTruthyProp ARTHOUSE_COUNTRIES country then
      score.add ((getProp ARTHOUSE_COUNTRIES country).getD JSValue.nan)
    else if country ≠ "" then score.add (JSValue.num 8)
    else score
  JSValue.mathMax 0 (JSValue.mathMin 100 score)

/-- The record returned by `getScoreBreakdown`. -/
structure ScoreBreakdown where
  popularity : JSValue
  votePattern : JSValue
  genre : JSValue
  tags : JSValue
  country : JSValue
  total : JSValue
  deriving DecidableEq, Repr

/-- The function `getScoreBreakdown`: it computes the five components with
its own copy of the rules and calls `calculateArthouseScore` for the total. -/
def getScoreBreakdown (movie : Film) : ScoreBreakdown :=
  let popularity : JSValue :=
    match movie.popularity with
    | none => JSValue.num 0
    | some popularity =>
      if popularity < 20 then JSValue.num 25
      else if popularity < 50 then JSValue.num 15
      else if popularity < 100 then JSValue.num 5
      else JSValue.num 0
  let vote_average := movie.vote_average.getD 0
  let vote_count := movie.vote_count.getD 0
  let votePattern : JSValue :=
    if vote_average ≥ 7.5 ∧ vote_count < 5000 then JSValue.num 20
    else if vote_average ≥ 7.0 ∧ vote_count < 10000 then JSValue.num 15
    else if vote_average ≥ 6.5 then JSValue.num 10
    else if vote_average ≥ 6.0 then JSValue.num 5
    else JSValue.num 0
  let genres := movie.genres.getD []
  let genreScore := genres.foldl
    (fun genreScore genre =>
      addIfTruthy MAINSTREAM_GENRES (addIfTruthy ARTHOUSE_GENRES genreScore genre) genre)
    (JSValue.num 0)
  let genre := JSValue.mathMax (-10) (JSValue.mathMin 20 genreScore)
  let tags := movie.derivedTags.getD []
  let tagScore := tags.foldl (addIfTruthy arthouseScoring.ARTHOUSE_TAGS) (JSValue.num 0)
  let tagsTerm := JSValue.mathMin 20 tagScore
  let country := movie.country.getD ""
  let countryTerm : JSValue :=
    if country = "United States of America" ∨ country = "USA" then JSValue.num (-10)
    else if hasTruthyProp ARTHOUSE_COUNTRIES country then
      (getProp ARTHOUSE_COUNTRIES country).getD JSValue.nan
    else if country ≠ "" then JSValue.num 8
    else JSValue.num 0
  { popularity := popularity
    votePattern := votePattern
    genre := genre
    tags := tagsTerm
    country := countryTerm
    total := calculateArthouseScore movie }

/-- The five components of a breakdown summed with `+` from left to right
and clamped by `Math.max(0, Math.min(100, ·))`. -/
def clampedComponentSum (breakdown : ScoreBreakdown) : JSValue :=
  JSValue.mathMax 0 (JSValue.mathMin 100
    ((((breakdown.popularity.add breakdown.votePattern).add breakdown.genre).add
      breakdown.tags).add breakdown.country))

/-- No genre, derived tag or country of the film is the name of a property
inherited from `Object.prototype`. -/
def OwnKeysOnly (movie : Film) : Prop :=
  (∀ g ∈ movie.genres.getD [], g ∉ OBJECT_PROTOTYPE_KEYS) ∧
  (∀ t ∈ movie.derivedTags.getD [], t ∉ OBJECT_PROTOTYPE_KEYS) ∧
  movie.country.getD "" ∉ OBJECT_PROTOTYPE_KEYS

instance (movie : Film) : Decidable (OwnKeysOnly movie) := by
  unfold OwnKeysOnly; infer_instance

/-! ### The arthouse formula as the specification words it

The definitions `spec…` below follow the text of the specification, not the
code: a table contributes the bonus it lists for a name and nothing for any
other name. They are compared with `calculateArthouseScore` in the theorems. -/

/-- The bonus a table lists for a name, `0` for a name it does not list. -/
def tableValue (table : List (String × Int)) (key : String) : Int :=
  (table.lookup key).getD 0

/-- Term P: 25 / 15 / 5 / 0 for popularity `< 20` / `< 50` / `< 100` /
otherwise. -/
def specPopularity (movie : Film) : Int :=
  match movie.popularity with
  | some p => if p < 20 then 25 else if p < 50 then 15 else if p < 100 then 5 else 0
  | none => 0

/-- Term V: the first matching row of the vote-pattern table, absent numeric
fields read as `0`. -/
def specVotePattern (movie : Film) : Int :=
  let va := movie.vote_average.getD 0
  let vc := movie.vote_count.getD 0
  if va ≥ 7.5 ∧ vc < 5000 then 20
  else if va ≥ 7.0 ∧ vc < 10000 then 15
  else if va ≥ 6.5 then 10
  else if va ≥ 6.0 then 5
  else 0

/-- Term G: the sum over the genre list of the bonus and the penalty table,
clamped to `[-10, 20]`. -/
def specGenre (movie : Film) : Int :=
  max (-10) (min 20
    (((movie.genres.getD []).map
      (fun g => tableValue ARTHOUSE_GENRES g + tableValue MAINSTREAM_GENRES g)).sum))

/-- Term T: the sum of the per-tag table over the derived tags, capped at 20. -/
def specTags (movie : Film) : Int :=
  min 20 (((movie.derivedTags.getD []).map (tableValue arthouseScoring.ARTHOUSE_TAGS)).sum)

/-- Term C: `-10` for the USA, the table bonus for a listed country, `8` for
any other non-empty country and `0` for an empty country. -/
def specCountry (movie : Film) : Int :=
  let country := movie.country.getD ""
  if country = "USA" ∨ country = "United States of America" then -10
  else match ARTHOUSE_COUNTRIES.lookup country with
    | some bonus => bonus
    | none => if country = "" then 0 else 8

/-- The formula `clamp(P + V + G + T + C, 0, 100)`. -/
def specArthouseScore (movie : Film) : Int :=
  max 0 (min 100
    (specPopularity movie + specVotePattern movie + specGenre movie + specTags movie
      + specCountry movie))

/-- The French example of the specification. -/
def frenchExample : Film :=
  { popularity := some 8, vote_average := some 7.8, vote_count := some 3000,
    genres := some ["Drama"], derivedTags := some ["contemplative", "slow"],
    country := some "France" }

/-- The US example of the specification. -/
def usExample : Film :=
  { popularity := some 150, vote_average := some 5.8, vote_count := some 200000,
    genres := some ["Action"], country := some "USA" }

/-- A film record with numeric fields whose genre list holds a name that
object literals inherit from `Object.prototype`. -/
def inheritedGenreFilm : Film :=
  { popularity := some 8, vote_average := some 7.8, vote_count := some 3000,
    genres := some ["Drama", "constructor"], derivedTags := some [],
    country := some "France" }

/-- A film record whose country is a name that object literals inherit from
`Object.prototype`. -/
def inheritedCountryFilm : Film :=
  { popularity := some 8, vote_average := some 7.8, vote_count := some 3000,
    genres := some ["Drama"], derivedTags := some ["contemplative", "slow"],
    country := some "constructor" }

/-! ## Base canon score (`backend/services/baseCanonScoring.js`) -/

def MASTER_AUTEURS : List String :=
  ["Robert Bresson", "Andrei Tarkovsky", "Carl Theodor Dreyer", "Yasujirō Ozu",
   "Ingmar Bergman", "Akira Kurosawa", "Jean-Luc Godard", "François Truffaut",
   "Michelangelo Antonioni", "Federico Fellini", "Luis Buñuel", "Orson Welles",
   "Stanley Kubrick", "Terrence Malick", "Andrei Tarkovsky", "Béla Tarr",
   "Abbas Kiarostami", "Wong Kar-wai", "Edward Yang", "Hou Hsiao-hsien",
   "Krzysztof Kieślowski", "Jean-Pierre Melville", "Chris Marker", "Chantal Akerman"]

def ESTABLISHED_AUTEURS : List String :=
  ["David Lynch", "Pedro Almodóvar", "Wes Anderson", "Paul Thomas Anderson",
   "Dardenne", "Michael Haneke", "Claire Denis", "Apichatpong Weerasethakul",
   "Jafar Panahi", "Kelly Reichardt", "Carlos Reygadas", "Lucrecia Martel",
   "Pedro Costa", "Tsai Ming-liang", "Nuri Bilge Ceylan", "Aki Kaurismäki"]

/-- The method `haystack.includes(needle)` on strings: `needle` occurs in
`haystack` as a contiguous run of characters. -/
def stringIncludes (haystack needle : String) : Bool :=
  haystack.toList.tails.any (fun rest => needle.toList.isPrefixOf rest)

/-- The function `Math.round`: the nearest integer, a half rounded up. -/
def mathRound (x : ℚ) : Int := ⌊x + 1 / 2⌋

/-- The function `calculateCriticalConsensus`. The division
`film.vote_count / 5000` is `NaN` (`none`) when the vote count is missing. -/
def calculateCriticalConsensus (film : Film) : Option ℚ :=
  let voteScore := film.vote_average.getD 0 * 10
  match film.vote_count with
  | none => none
  | some vote_count =>
    let countWeight := min (vote_count / 5000) 1
    some (voteScore * (0.7 + 0.3 * countWeight))

/-- The function `calculateHistoricalImportance`; with a missing year the age
`2025 - film.year` is `NaN` and compares false with every bound. -/
def calculateHistoricalImportance (film : Film) : Int :=
  let score : Int := if film.tier = some 1 then 70 else if film.tier = some 2 then 50 else 30
  let score := score +
    (match film.year with
     | some year =>
       let age := 2025 - year
       if age > 70 then 20 else if age > 50 then 15 else if age > 30 then 10
       else if age > 10 then 5 else 0
     | none => 0)
  let score := score +
    (match film.festivalWins with
     | some wins => if wins.length > 0 then min ((wins.length : Int) * 5) 10 else 0
     | none => 0)
  min score 100

/-- The function `calculateAuteurImportance`. -/
def calculateAuteurImportance (film : Film) : Int :=
  match film.directors with
  | none => 25
  | some [] => 25
  | some (director :: _) =>
    if MASTER_AUTEURS.any (fun master => stringIncludes director master) then 100
    else if ESTABLISHED_AUTEURS.any (fun established => stringIncludes director established)
    then 75
    else 50

def innovativeTags : List String :=
  ["surreal", "enigmatic", "fragmented", "dreamlike", "minimalist"]

/-- The comparison `film.year < bound`, false for a missing year. -/
def yearBelow (film : Film) (bound : Int) : Bool :=
  match film.year with
  | some year => year < bound
  | none => false

/-- The comparison `film.year > bound`, false for a missing year. -/
def yearAbove (film : Film) (bound : Int) : Bool :=
  match film.year with
  | some year => year > bound
  | none => false

/-- The comparison `film.vote_average > bound`, false for a missing vote
average. -/
def voteAverageAbove (film : Film) (bound : ℚ) : Bool :=
  match film.vote_average with
  | some average => average > bound
  | none => false

/-- The function `calculateFormalInnovation`. -/
def calculateFormalInnovation (film : Film) : Int :=
  let matchedTags := (film.derivedTags.getD []).filter (fun tag => innovativeTags.contains tag)
  let score : Int := (matchedTags.length : Int) * 15
  let score := if yearBelow film 1940 then score + 20 else score
  let score :=
    if (film.genres.getD []).contains "Documentary" ∧ yearAbove film 1960 then score + 10
    else score
  min score 100

/-- The function `calculateCulturalInfluence`; a missing vote count compares
false with every bound. -/
def calculateCulturalInfluence (film : Film) : Int :=
  let score : Int :=
    match film.vote_count with
    | some c => if c > 10000 then 30 else if c > 5000 then 20 else if c > 1000 then 10 else 0
    | none => 0
  let score := score + (if film.tier = some 1 then 40 else if film.tier = some 2 then 20 else 0)
  let score := if yearAbove film 2010 ∧ voteAverageAbove film 7.5 then score + 20 else score
  let score := if yearBelow film 1980 ∧ voteAverageAbove film 7.0 then score + 30 else score
  min score 100

/-- The expression `stored || computed`: the stored number when it is present
and not zero, otherwise the heuristic. -/
def storedOr (stored : Option ℚ) (computed : Int) : ℚ :=
  match stored with
  | some v => if v = 0 then (computed : ℚ) else v
  | none => (computed : ℚ)

/-- The function `calculateBaseCanonScore`; `none` is `NaN`, returned when
the critical consensus is `NaN`. -/
def calculateBaseCanonScore (film : Film) : Option Int :=
  match calculateCriticalConsensus film with
  | none => none
  | some criticalConsensus =>
    let historicalImportance : ℚ := calculateHistoricalImportance film
    let auteurImportance : ℚ := calculateAuteurImportance film
    let formalInnovation := storedOr film.formalInnovation (calculateFormalInnovation film)
    let culturalInfluence := storedOr film.culturalInfluence (calculateCulturalInfluence film)
    let baseScore := 0.35 * criticalConsensus + 0.25 * historicalImportance
      + 0.20 * auteurImportance + 0.10 * formalInnovation + 0.10 * culturalInfluence
    some (mathRound (min baseScore 100))

/-- A film record within the data-model ranges. -/
def canonWitnessFilm : Film :=
  { vote_average := some 8, vote_count := some 2500, year := some 1966, tier := some 1,
    directors := some ["Andrei Tarkovsky"], derivedTags := some ["enigmatic", "slow"],
    festivalWins := some ["Cannes"] }

/-! ## Tagging service (`backend/services/taggingService.js`) -/

/-- The fixed vocabulary `ARTHOUSE_TAGS` of the tagging service. -/
def ARTHOUSE_TAGS : List String :=
  ["slow", "dreamlike", "melancholic", "intimate", "existential", "minimalist",
   "bleak", "poetic", "psychological", "fragmented", "contemplative", "surreal",
   "austere", "lyrical", "enigmatic"]

def TAG_KEYWORDS : List (String × List String) :=
  [("slow", ["slow", "meditative", "paced", "deliberate", "contemplation", "quiet",
      "stillness"]),
   ("dreamlike", ["dream", "surreal", "ethereal", "hypnotic", "trance", "fantastical",
      "otherworldly"]),
   ("melancholic", ["melancholy", "sad", "grief", "loss", "sorrow", "tragic", "despair",
      "longing"]),
   ("intimate", ["intimate", "personal", "close", "private", "confessional", "relationship",
      "character study"]),
   ("existential", ["existential", "meaning", "existence", "philosophy", "identity", "absurd",
      "alienation"]),
   ("minimalist", ["minimal", "sparse", "simple", "austere", "stripped", "bare", "essential"]),
   ("bleak", ["bleak", "dark", "harsh", "grim", "desolate", "hopeless", "stark"]),
   ("poetic", ["poetic", "lyrical", "visual poetry", "artistic", "metaphor", "symbolic",
      "imagery"]),
   ("psychological", ["psychological", "mind", "mental", "psyche", "inner", "subconscious",
      "memory"]),
   ("fragmented", ["fragmented", "nonlinear", "disjointed", "experimental", "abstract",
      "unconventional"]),
   ("contemplative", ["contemplative", "reflective", "thoughtful", "introspective",
      "meditation"]),
   ("surreal", ["surreal", "bizarre", "strange", "weird", "uncanny", "dreamscape"]),
   ("austere", ["austere", "severe", "rigorous", "restrained", "disciplined", "stark"]),
   ("lyrical", ["lyrical", "musical", "rhythmic", "flowing", "graceful", "elegant"]),
   ("enigmatic", ["enigmatic", "mysterious", "ambiguous", "cryptic", "puzzling", "obscure"])]

/-- The argument of `generateTags`; a missing field is `none` and takes its
destructuring default. -/
structure MovieData where
  synopsis : Option String := none
  keywords : Option (List String) := none
  genres : Option (List String) := none

/-- Lower-casing of one character as far as the ASCII keyword stems can see
it: ASCII capitals, and the two non-ASCII characters whose lower case
contains an ASCII letter (U+212A KELVIN SIGN gives `k`, U+0130 gives `i`
followed by U+0307). Any other non-ASCII letter is left as it is: its lower
case is again a non-ASCII, non-word character, which no stem and no `\b`
distinguishes from the original. -/
def lowerChar (c : Char) : List Char :=
  if c.toNat = 0x212A then ['k']
  else if c.toNat = 0x130 then ['i', Char.ofNat 0x307]
  else [c.toLower]

/-- The method `toLowerCase`, up to the remark at `lowerChar`. -/
def toLowerCase (s : String) : String :=
  String.mk (s.toList.flatMap lowerChar)

/-- Word characters of a regular expression without the `u` flag:
`[A-Za-z0-9_]`. -/
def isWordChar (c : Char) : Bool :=
  c.isAlphanum || c == '_'

/-- The assertion `\b` between the character before the position (`none` at
the start of the text) and the character at the position (`none` at the
end). -/
def wordBoundary (before after : Option Char) : Bool :=
  before.any isWordChar != after.any isWordChar

/-- A pattern character against a text character under the flag `i`. -/
def charMatches (pattern text : Char) : Bool :=
  pattern.toLower == text.toLower

/-- The literal characters of a keyword match the start of `text`. -/
def literalMatch : List Char → List Char → Bool
  | [], _ => true
  | _ :: _, [] => false
  | k :: ks, c :: cs => charMatches k c && literalMatch ks cs

/-- The pattern `\b` followed by the keyword matches at the position whose
preceding character is `before` and whose remaining text is `text`. -/
def matchesAt (keyword : List Char) (before : Option Char) (text : List Char) : Bool :=
  wordBoundary before text.head? && literalMatch keyword text

/-- The number of matches found by the global search: the text is scanned
from the left, and after a match the search resumes behind it (`skip`
characters of the match are still to be passed over). -/
def countMatchesFrom (keyword : List Char) : Nat → Option Char → List Char → Nat
  | _, _, [] => 0
  | skip + 1, _, c :: cs => countMatchesFrom keyword skip (some c) cs
  | 0, before, c :: cs =>
    if matchesAt keyword before (c :: cs) then
      1 + countMatchesFrom keyword (keyword.length - 1) (some c) cs
    else countMatchesFrom keyword 0 (some c) cs

/-- The length of `combinedText.match(new RegExp('\\b' + keyword, 'gi'))`, `0`
when there is no match. -/
def countMatches (keyword text : String) : Nat :=
  countMatchesFrom keyword.toList 0 none text.toList

/-- The string `combinedText`. -/
def combinedText (movieData : MovieData) : String :=
  toLowerCase (String.intercalate " "
    [movieData.synopsis.getD "",
     String.intercalate " " (movieData.keywords.getD []),
     String.intercalate " " (movieData.genres.getD [])])

/-- The score of one tag: the matches of all its keywords in the text. -/
def tagMatchCount (text : String) (tag : String) : Nat :=
  (((TAG_KEYWORDS.lookup tag).getD []).map (fun keyword => countMatches keyword text)).sum

/-- The entries of the object `tagScores`, in insertion order. -/
def tagScores (text : String) : List (String × Nat) :=
  ARTHOUSE_TAGS.map (fun tag => (tag, tagMatchCount text tag))

/-- The chain `filter(score > 0).sort((a, b) => b - a).slice(0, 5).map(tag)`.
`Array.prototype.sort` is stable, and the result of a stable sort is fixed by
the comparator, so that insertion sort stands for it. -/
def sortedTags (scores : List (String × Nat)) : List String :=
  (((scores.filter (fun entry => entry.2 > 0)).insertionSort
      (fun a b => a.2 ≥ b.2)).take 5).map Prod.fst

/-- The default tags pushed when no tag matched. -/
def fallbackTags (genres : List String) : List String :=
  let genreStr := toLowerCase (String.intercalate " " genres)
  let tags : List String := []
  let tags := if stringIncludes genreStr "drama" then tags ++ ["contemplative"] else tags
  let tags :=
    if stringIncludes genreStr "thriller" ∨ stringIncludes genreStr "horror" then
      tags ++ ["psychological"]
    else tags
  let tags := if stringIncludes genreStr "romance" then tags ++ ["intimate"] else tags
  if tags.length = 0 then tags ++ ["contemplative"] else tags

/-- The function `generateTags`. -/
def generateTags (movieData : MovieData) : List String :=
  let sorted := sortedTags (tagScores (combinedText movieData))
  let sorted := if sorted.length = 0 then fallbackTags (movieData.genres.getD []) else sorted
  sorted.take 5

/-! ## Mood service (`backend/services/moodService.js`) -/

/-- The mood taxonomy `MOODS`. -/
def MOODS : List String :=
  ["contemplative", "melancholic", "dreamlike", "surreal", "intimate",
   "existential", "psychological", "minimalist", "slow", "austere",
   "poetic", "lyrical", "enigmatic", "fragmented", "bleak"]

def TAG_TO_MOOD_MAPPING : List (String × List (String × ℚ)) :=
  [("contemplative", [("contemplative", 0.9), ("slow", 0.5), ("existential", 0.3)]),
   ("melancholic", [("melancholic", 0.9), ("intimate", 0.4), ("bleak", 0.3)]),
   ("dreamlike", [("dreamlike", 0.9), ("surreal", 0.6), ("enigmatic", 0.5), ("poetic", 0.4)]),
   ("surreal", [("surreal", 0.9), ("dreamlike", 0.6), ("enigmatic", 0.5)]),
   ("intimate", [("intimate", 0.9), ("psychological", 0.5), ("melancholic", 0.3)]),
   ("existential", [("existential", 0.9), ("contemplative", 0.6), ("bleak", 0.4)]),
   ("psychological", [("psychological", 0.9), ("intimate", 0.5), ("enigmatic", 0.3)]),
   ("minimalist", [("minimalist", 0.9), ("austere", 0.7), ("slow", 0.5)]),
   ("slow", [("slow", 0.9), ("contemplative", 0.6), ("minimalist", 0.4)]),
   ("austere", [("austere", 0.9), ("minimalist", 0.7), ("bleak", 0.4)]),
   ("poetic", [("poetic", 0.9), ("lyrical", 0.7), ("dreamlike", 0.5)]),
   ("lyrical", [("lyrical", 0.9), ("poetic", 0.7), ("intimate", 0.4)]),
   ("enigmatic", [("enigmatic", 0.9), ("surreal", 0.6), ("dreamlike", 0.5)]),
   ("fragmented", [("fragmented", 0.9), ("enigmatic", 0.6), ("psychological", 0.4)]),
   ("bleak", [("bleak", 0.9), ("melancholic", 0.5), ("austere", 0.4)])]

/-- A mood object: its own properties in insertion order, one entry per key. -/
abbrev MoodMap := List (String × ℚ)

/-- The read `moodsMap[mood]`, `none` when the object has no such key. -/
def getWeight (moodsMap : MoodMap) (mood : String) : Option ℚ :=
  moodsMap.lookup mood

/-- The assignment `moodsMap[mood] = weight`: an existing key keeps its place,
a new key is appended. -/
def setWeight : MoodMap → String → ℚ → MoodMap
  | [], mood, weight => [(mood, weight)]
  | (key, value) :: rest, mood, weight =>
    if key = mood then (key, weight) :: rest
    else (key, value) :: setWeight rest mood weight

/-- The entries `Object.entries(TAG_TO_MOOD_MAPPING[tag])` visited for one
tag: those of its mapping, none for a tag without a mapping. (For a name
inherited from `Object.prototype` the looked-up value is truthy, but it is a
function or object without enumerable own properties, so that nothing is
visited either.) -/
def moodEntries (tag : String) : List (String × ℚ) :=
  (TAG_TO_MOOD_MAPPING.lookup tag).getD []

/-- One step of the inner loop:
`moodsMap[mood] = Math.min((moodsMap[mood] || 0) + weight, 1.0)`. -/
def accumulateEntry (moodsMap : MoodMap) (entry : String × ℚ) : MoodMap :=
  setWeight moodsMap entry.1 (min ((getWeight moodsMap entry.1).getD 0 + entry.2) 1)

/-- The mood object after the `forEach` over the derived tags. -/
def accumulateMoods (derivedTags : List String) : MoodMap :=
  derivedTags.foldl (fun moodsMap tag => (moodEntries tag).foldl accumulateEntry moodsMap) []

/-- The divisor `Math.max(...Object.values(moodsMap), 1)`. -/
def maxWeight (moodsMap : MoodMap) : ℚ :=
  (moodsMap.map Prod.snd).foldl max 1

/-- The normalisation loop: every weight becomes
`Math.min(weight / maxWeight, 1.0)`. -/
def normalizeMoods (moodsMap : MoodMap) : MoodMap :=
  moodsMap.map (fun entry => (entry.1, min (entry.2 / maxWeight moodsMap) 1))

/-- The function `assignMoods`. -/
def assignMoods (film : Film) : MoodMap :=
  match film.derivedTags with
  | none => [("contemplative", 0.5)]
  | some [] => [("contemplative", 0.5)]
  | some (tag :: tags) => normalizeMoods (accumulateMoods (tag :: tags))

/-- The weight the table `TAG_TO_MOOD_MAPPING` gives to a mood under a tag,
`0` when the tag has no mapping or its mapping does not list the mood. -/
def tagMoodWeight (tag mood : String) : ℚ :=
  ((moodEntries tag).lookup mood).getD 0

/-- The sum over the listed tags of the weight of each for the mood. -/
def totalMoodWeight (derivedTags : List String) (mood : String) : ℚ :=
  (derivedTags.map (fun tag => tagMoodWeight tag mood)).sum

/-- The outcome of the read `filmMoods[mood]` on a plain object: the weight
held by an own property, the function or object inherited from
`Object.prototype`, or `undefined`. -/
inductive MoodRead where
  | weight (w : ℚ)
  | inherited
  | missing

/-- The read `filmMoods[mood]`. -/
def readMood (filmMoods : MoodMap) (mood : String) : MoodRead :=
  match filmMoods.lookup mood with
  | some w => MoodRead.weight w
  | none => if mood ∈ OBJECT_PROTOTYPE_KEYS then MoodRead.inherited else MoodRead.missing

/-- One step of the loop of `getMoodMatch`:
`totalMatch += filmMoods[mood] || 0`. The accumulator is a number, or `none`
once `+=` with an inherited function or object has made it a string (from
then on `+=` concatenates). A weight `0` is falsy and contributes the `0` of
`|| 0`. -/
def addMoodWeight (filmMoods : MoodMap) (totalMatch : Option ℚ) (mood : String) : Option ℚ :=
  match totalMatch, readMood filmMoods mood with
  | some total, MoodRead.weight w => some (total + w)
  | some total, MoodRead.missing => some (total + 0)
  | _, _ => none

/-- The function `getMoodMatch`; the result `none` is `NaN`, the quotient of
a string that is not numeric. `Object.keys(filmMoods).length` is the number
of entries. -/
def getMoodMatch (filmMoods : Option MoodMap) (selectedMoods : Option (List String)) :
    Option ℚ :=
  match filmMoods with
  | none => some 0
  | some filmMoods =>
    if filmMoods.length = 0 then some 0
    else
      match selectedMoods with
      | none => some 0
      | some selectedMoods =>
        if selectedMoods.length = 0 then some 0
        else
          let totalWeight : ℚ := selectedMoods.length
          let totalMatch := selectedMoods.foldl (addMoodWeight filmMoods) (some 0)
          totalMatch.map (fun total => total / totalWeight)

/-! ## Discovery engine (`backend/services/discoveryEngine.js`)

The engine calls two functions that are not code of the repository: the
package `seedrandom` and the built-in `Math.log`. Both are parameters of the
definitions below: `seedrandom seed` is the first number drawn from the
generator seeded with `seed`, and `log` is the logarithm. The definitions are
written over any ordered field `K`, so that the theorems can take `K = ℝ` and
`log = Real.log` (exact arithmetic) while the definitions stay executable
over `ℚ`. A result `none` is `NaN`. -/

/-- The function `getRotationNoise` for an explicit seed. (The default seed
`getTodayString()` reads the clock; the callers pass the seed.) -/
def getRotationNoise {K : Type} [LinearOrderedField K] (seedrandom : String → K)
    (seed : String) : K :=
  seedrandom seed * 6 - 3

/-- The function `calculateRecencyBoost`. -/
def calculateRecencyBoost {K : Type} [LinearOrderedField K] (year : K) : K :=
  let score := 100 * (year - 2015) / (2025 - 2015)
  max 0 (min 100 score)

/-- The function `calculateRarityBoost`. The show count is a counter that
starts at 0, so that the logarithm is taken of a number of at least 2; at a
show count of `-1` or below `Math.log` returns `0`, `-Infinity` or `NaN`,
which this definition does not represent. -/
def calculateRarityBoost {K : Type} [LinearOrderedField K] (log : K → K) (showCount : K) : K :=
  let score := 100 / log (showCount + 2)
  max 0 (min 100 score)

/-- The function `calculateExploreScore` for an explicit date seed; with a
missing year the recency boost and the score are `NaN`. -/
def calculateExploreScore {K : Type} [LinearOrderedField K] (seedrandom : String → K)
    (log : K → K) (film : Film) (seed : String) : Option K :=
  let base : K := ((film.baseCanonScore.getD 0 : ℚ) : K)
  match film.year with
  | none => none
  | some year =>
    let recency : K := calculateRecencyBoost ((year : ℚ) : K)
    let rarity := calculateRarityBoost log ((film.showCount.getD 0 : ℚ) : K)
    let rotation := getRotationNoise seedrandom (seed ++ film._id)
    some (0.60 * base + 0.20 * recency + 0.10 * rarity + 0.10 * rotation)

/-- The divisor `Math.max(...decadeScores, 1)` of `calculateDecadeScore`. -/
def maxInDecade (decadeFilms : List Film) : ℚ :=
  (decadeFilms.map (fun f => f.baseCanonScore.getD 0)).foldl max 1

/-- The local `influenceWithinDecade` of `calculateDecadeScore`. -/
def influenceWithinDecade (film : Film) (decadeFilms : List Film) : ℚ :=
  let base := film.baseCanonScore.getD 0
  base / maxInDecade decadeFilms * 100

/-- The local `movementBonus` of `calculateDecadeScore`. -/
def movementBonus (film : Film) : ℚ :=
  match film.movements with
  | some movements => if movements.length > 0 then 100 else 50
  | none => 50

/-- The function `calculateDecadeScore`. -/
def calculateDecadeScore (film : Film) (decadeFilms : List Film) : ℚ :=
  let base := film.baseCanonScore.getD 0
  0.70 * base + 0.20 * influenceWithinDecade film decadeFilms + 0.10 * movementBonus film

/-- The call `Object.fromEntries(entries)`: the entries are assigned in
order, a repeated key overwriting the value of its first occurrence. -/
def objectFromEntries (entries : List (String × ℚ)) : MoodMap :=
  entries.foldl (fun object entry => setWeight object entry.1 entry.2) []

/-- The expression
`film.moods instanceof Map ? Object.fromEntries(film.moods) : (film.moods || {})`. -/
def plainMoods (film : Film) : MoodMap :=
  match film.moods with
  | some (FilmMoods.map entries) => objectFromEntries entries
  | some (FilmMoods.object entries) => entries
  | none => []

/-- The expression `film.depthScore || 50`: the stored depth score unless it
is missing or zero. -/
def depthOrDefault (film : Film) : ℚ :=
  match film.depthScore with
  | some depth => if depth = 0 then 50 else depth
  | none => 50

/-- The function `calculateMoodScore`; it is `NaN` when the mood match is. -/
def calculateMoodScore {K : Type} [LinearOrderedField K] (log : K → K) (film : Film)
    (selectedMoods : Option (List String)) : Option K :=
  let filmMoods := plainMoods film
  let moodMatch := getMoodMatch (some filmMoods) selectedMoods
  let base : K := ((film.baseCanonScore.getD 0 : ℚ) : K)
  let depth : K := ((depthOrDefault film : ℚ) : K)
  let exploration := calculateRarityBoost log ((film.showCount.getD 0 : ℚ) : K)
  moodMatch.map (fun moodMatch =>
    0.50 * (((moodMatch : ℚ) : K) * 100) + 0.30 * base + 0.10 * depth + 0.10 * exploration)

/-- The local `periodAuth` of `calculateCombinedScore`:
`Math.floor(film.year / 10) * 10 === decade ? 100 : 50`, the comparison being
false for a missing year. -/
def periodAuth (film : Film) (decade : Int) : ℚ :=
  match film.year with
  | some year => if ⌊(year : ℚ) / 10⌋ * 10 = decade then 100 else 50
  | none => 50

/-- The function `calculateCombinedScore`. -/
def calculateCombinedScore {K : Type} [LinearOrderedField K] (log : K → K) (film : Film)
    (selectedMoods : Option (List String)) (decade : Int) : Option K :=
  let filmMoods := plainMoods film
  let moodMatch := getMoodMatch (some filmMoods) selectedMoods
  let base : K := ((film.baseCanonScore.getD 0 : ℚ) : K)
  let rarity := calculateRarityBoost log ((film.showCount.getD 0 : ℚ) : K)
  moodMatch.map (fun moodMatch =>
    0.40 * (((moodMatch : ℚ) : K) * 100) + 0.40 * base + 0.10 * ((periodAuth film decade : ℚ) : K)
      + 0.10 * rarity)

/-- The keywords of the constant `SORT_OPTIONS`. -/
def SORT_OPTIONS.CURATED : String := "curated"

def SORT_OPTIONS.INFLUENCE : String := "influence"

def SORT_OPTIONS.HIDDEN_GEMS : String := "gems"

def SORT_OPTIONS.NEW_NOTABLE : String := "new"

/-- The difference `b - a` of two numbers either of which may be `NaN`. -/
def subNumbers {K : Type} [LinearOrderedField K] (b a : Option K) : Option K :=
  match b, a with
  | some b, some a => some (b - a)
  | _, _ => none

/-- How `Array.prototype.sort` reads the result of `compareFn(a, b)`: `a` is
not moved behind `b` when the result is negative or zero, and a `NaN` result
is read as zero. -/
def notAfter {K : Type} [LinearOrderedField K] (result : Option K) : Bool :=
  match result with
  | some v => decide (v ≤ 0)
  | none => true

/-- The call `items.sort(compareFn)`. The sort is stable; when the comparator
is a consistent ordering of the items its result is fixed by the comparator,
and insertion sort stands for it. For a comparator that is not (one that
returns `NaN`) the language leaves the order to the implementation, and this
definition is one admissible outcome. -/
def arraySort {α K : Type} [LinearOrderedField K] (compareFn : α → α → Option K)
    (items : List α) : List α :=
  items.insertionSort (fun a b => notAfter (compareFn a b) = true)

/-- The function `applySortOption`; `today` is the default seed
`getTodayString()` of the calls `calculateExploreScore(a)`. In the case
`'new'` the score of a film without a year is `NaN`, as
`calculateRecencyBoost(undefined)` is. -/
def applySortOption {K : Type} [LinearOrderedField K] (seedrandom : String → K)
    (log : K → K) (today : String) (films : List Film) (sortBy : String) : List Film :=
  if sortBy = SORT_OPTIONS.INFLUENCE then
    arraySort (fun a b =>
      some (((b.baseCanonScore.getD 0 : ℚ) : K) - ((a.baseCanonScore.getD 0 : ℚ) : K))) films
  else if sortBy = SORT_OPTIONS.HIDDEN_GEMS then
    arraySort (fun a b =>
      let rarityA := calculateRarityBoost log ((a.showCount.getD 0 : ℚ) : K)
      let rarityB := calculateRarityBoost log ((b.showCount.getD 0 : ℚ) : K)
      some (rarityB - rarityA)) films
  else if sortBy = SORT_OPTIONS.NEW_NOTABLE then
    arraySort (fun a b =>
      let scoreA : Option K := a.year.map (fun (year : Int) =>
        calculateRecencyBoost ((year : ℚ) : K) + (((a.festivalWins.getD []).length : ℚ) : K) * 5)
      let scoreB : Option K := b.year.map (fun (year : Int) =>
        calculateRecencyBoost ((year : ℚ) : K) + (((b.festivalWins.getD []).length : ℚ) : K) * 5)
      subNumbers scoreB scoreA) films
  else
    arraySort (fun a b =>
      let scoreA := calculateExploreScore seedrandom log a today
      let scoreB := calculateExploreScore seedrandom log b today
      subNumbers scoreB scoreA) films

/-! ## Discovery controller (`backend/controllers/discoveryController.js`)

The pure part of the mood and combined endpoints, between the fetch of the
candidate films and the pagination. -/

/-- The step `films.filter(f => f.score >= 30)` on films paired with their
score: a `NaN` score compares false and is dropped, so that every entry kept
carries a number. -/
def keepAboveThreshold {K : Type} [LinearOrderedField K] (scored : List (Film × Option K)) :
    List (Film × K) :=
  scored.filterMap (fun entry =>
    match entry.2 with
    | some score => if 30 ≤ score then some (entry.1, score) else none
    | none => none)

/-- The step `films.sort((a, b) => b.score - a.score)`; the sort is stable. -/
def sortByScore {K : Type} [LinearOrderedField K] (scored : List (Film × K)) : List (Film × K) :=
  scored.insertionSort (fun a b => b.2 ≤ a.2)

/-- The film `filmWithMoods` of `getMoodFilms`: the record with its moods
converted to a plain object. -/
def filmWithMoods (film : Film) : Film :=
  { film with moods := some (FilmMoods.object (plainMoods film)) }

/-- The list `films` of `getMoodFilms` before pagination, each film with its
`_moodScore`; `films.length` is the reported `total`. -/
def moodRanking {K : Type} [LinearOrderedField K] (log : K → K) (films : List Film)
    (selectedMoods : List String) : List (Film × K) :=
  let scored := films.map (fun film =>
    (filmWithMoods film, calculateMoodScore log (filmWithMoods film) (some selectedMoods)))
  sortByScore (keepAboveThreshold scored)

/-- The list `films` of `getCombinedFilms` before pagination, each film with
its `_combinedScore`; `films.length` is the reported `total`. -/
def combinedRanking {K : Type} [LinearOrderedField K] (log : K → K) (films : List Film)
    (selectedMoods : List String) (decadeNum : Int) : List (Film × K) :=
  let scored := films.map (fun film =>
    (film, calculateCombinedScore log film (some selectedMoods) decadeNum))
  sortByScore (keepAboveThreshold scored)

/-! ### The handlers

The handlers `getMoodFilms` and `getCombinedFilms` from the query parameters
to the reply, with the calls of `Movie.find` they issue. -/

/-- A value of `req.query`: a string (`?moods=a,b`), an array of strings
(`?moods=a&moods=b`) or a nested object (`?moods[a]=b`). A parameter that the
request does not carry is `none` (`undefined`). -/
inductive QueryValue where
  | str (s : String)
  | arr (items : List String)
  | obj
  deriving DecidableEq, Repr

/-- The test `!value` on a query parameter: true for `undefined` and for the
empty string, false for every other string, for an array and for an object. -/
def isFalsy (value : Option QueryValue) : Bool :=
  match value with
  | none => true
  | some (QueryValue.str s) => decide (s = "")
  | some _ => false

/-- The expression `Array.isArray(moods) ? moods : moods.split(',')`; on a
nested object and on `undefined` the call `moods.split` throws (`none`). -/
def selectedMoodsOf (moods : Option QueryValue) : Option (List String) :=
  match moods with
  | some (QueryValue.arr items) => some items
  | some (QueryValue.str s) => some (s.splitOn ",")
  | some QueryValue.obj => none
  | none => none

/-- A call of `Movie.find`: with the filter `{}` or with the filter
`{ decade: decadeNum }`, where `decadeNum` is `none` when it is `NaN`. -/
inductive Fetch where
  | all
  | byDecade (decadeNum : Option Int)
  deriving DecidableEq, Repr

/-- The call `Movie.find(filter).lean()` on a collection holding the films
`stored`: every stored film for the filter `{}`, those whose field `decade`
equals the number for the filter `{ decade: decadeNum }`. The model `Movie`
is code of the package `mongoose`, which refuses to cast `NaN` to the schema
type `Number`: that query is rejected (`none`). A failure of the database
itself is not modelled. -/
def Movie.find (stored : List Film) (filter : Fetch) : Option (List Film) :=
  match filter with
  | Fetch.all => some stored
  | Fetch.byDecade (some decadeNum) =>
    some (stored.filter (fun film => film.decade = some decadeNum))
  | Fetch.byDecade none => none

/-- The reply of a handler: `res.json(...)` with the list `films` after the
threshold and the sort, of which the body carries one page and the length as
`total`; `res.status(400).json({ message })`; or the reply
`res.status(500)` of the `catch` block. -/
inductive Reply (K : Type) where
  | json (films : List (Film × K)) (selectedMoods : List String)
  | badRequest (message : String)
  | serverError

/-- The status code of a reply. -/
def Reply.status {K : Type} (reply : Reply K) : Nat :=
  match reply with
  | Reply.json _ _ => 200
  | Reply.badRequest _ => 400
  | Reply.serverError => 500

/-- What a handler did: its reply and the calls of `Movie.find` it issued,
in order. -/
structure Outcome (K : Type) where
  reply : Reply K
  fetches : List Fetch

/-- The handler `getMoodFilms` on the query parameter `moods` and a
collection holding the films `stored`, up to the pagination. -/
def getMoodFilms {K : Type} [LinearOrderedField K] (log : K → K) (stored : List Film)
    (moods : Option QueryValue) : Outcome K :=
  if isFalsy moods then
    { reply := Reply.badRequest "Moods parameter required", fetches := [] }
  else
    match selectedMoodsOf moods with
    | none => { reply := Reply.serverError, fetches := [] }
    | some selectedMoods =>
      match Movie.find stored Fetch.all with
      | none => { reply := Reply.serverError, fetches := [Fetch.all] }
      | some films =>
        { reply := Reply.json (moodRanking log films selectedMoods) selectedMoods,
          fetches := [Fetch.all] }

/-- The handler `getCombinedFilms` on the query parameters `decade` and
`moods` and a collection holding the films `stored`, up to the pagination.
`parseInt` is the built-in of that name on a query value, `none` for `NaN`. -/
def getCombinedFilms {K : Type} [LinearOrderedField K] (log : K → K)
    (parseInt : Option QueryValue → Option Int) (stored : List Film)
    (decade moods : Option QueryValue) : Outcome K :=
  if isFalsy decade ∨ isFalsy moods then
    { reply := Reply.badRequest "Both decade and moods parameters required", fetches := [] }
  else
    let decadeNum := parseInt decade
    match selectedMoodsOf moods with
    | none => { reply := Reply.serverError, fetches := [] }
    | some selectedMoods =>
      match Movie.find stored (Fetch.byDecade decadeNum), decadeNum with
      | some films, some decadeNum =>
        { reply := Reply.json (combinedRanking log films selectedMoods decadeNum) selectedMoods,
          fetches := [Fetch.byDecade (some decadeNum)] }
      | _, _ => { reply := Reply.serverError, fetches := [Fetch.byDecade decadeNum] }

/-! ## Double-precision arithmetic

The source computes with IEEE 754 doubles: every number of a record, every
decimal literal and the result of every sum, product and quotient is the
double nearest to the exact value. The definitions `Rounded.f` below are the
functions `f` of the source with that rounding made explicit as a parameter
`rnd`, applied to the numbers read from the record, to each literal that is
not an integer and to the result of each operation, in the order in which
the source evaluates them. With `rnd = binary64` they compute what the source
computes on the record written with the numbers of the film; with `rnd = id`
they are the definitions in exact arithmetic given above. `Math.min`,
`Math.max`, `Math.round` and the comparisons are exact on doubles. -/

/-- The integer nearest to a rational, a half going to the even neighbour. -/
def roundHalfEven (q : ℚ) : Int :=
  let below := ⌊q⌋
  let rest := q - below
  if rest < 1 / 2 then below
  else if 1 / 2 < rest then below + 1
  else if below % 2 = 0 then below
  else below + 1

/-- The double nearest to a rational (round to nearest, ties to even, 53
significant bits). The exponent is not bounded: overflow and gradual
underflow, which no score of the source reaches, are not represented. -/
def binary64 (x : ℚ) : ℚ :=
  if x = 0 then 0
  else
    let exponent := Int.log 2 |x| - 52
    (roundHalfEven (x / (2 : ℚ) ^ exponent) : ℚ) * (2 : ℚ) ^ exponent

/-- The relative accuracy of a double: `2 ^ (-53)`. -/
def unitRoundoff : ℚ := 1 / 2 ^ 53

/-- A rounding that moves no number by more than the relative accuracy of a
double. -/
def RoundsToNearest (rnd : ℚ → ℚ) : Prop :=
  ∀ x, |rnd x - x| ≤ unitRoundoff * |x|

/-- The record as the source holds it: each number of a field rounded by
`rnd`. (The weights of the moods are rounded where they are read, in
`Rounded.addMoodWeight`.) -/
def Rounded.record (rnd : ℚ → ℚ) (film : Film) : Film :=
  { film with
    popularity := film.popularity.map rnd
    vote_average := film.vote_average.map rnd
    vote_count := film.vote_count.map rnd
    formalInnovation := film.formalInnovation.map rnd
    culturalInfluence := film.culturalInfluence.map rnd
    baseCanonScore := film.baseCanonScore.map rnd
    showCount := film.showCount.map rnd
    depthScore := film.depthScore.map rnd }

/-- The function `calculateCriticalConsensus` with the rounding `rnd`. -/
def Rounded.calculateCriticalConsensus (rnd : ℚ → ℚ) (film : Film) : Option ℚ :=
  let film := Rounded.record rnd film
  let voteScore := rnd (film.vote_average.getD 0 * 10)
  match film.vote_count with
  | none => none
  | some vote_count =>
    let countWeight := min (rnd (vote_count / 5000)) 1
    some (rnd (voteScore * rnd (rnd 0.7 + rnd (rnd 0.3 * countWeight))))

/-- The function `calculateBaseCanonScore` with the rounding `rnd`; the sum
is evaluated from left to right. -/
def Rounded.calculateBaseCanonScore (rnd : ℚ → ℚ) (film : Film) : Option Int :=
  match Rounded.calculateCriticalConsensus rnd film with
  | none => none
  | some criticalConsensus =>
    let film := Rounded.record rnd film
    let historicalImportance : ℚ := calculateHistoricalImportance film
    let auteurImportance : ℚ := calculateAuteurImportance film
    let formalInnovation := storedOr film.formalInnovation (calculateFormalInnovation film)
    let culturalInfluence := storedOr film.culturalInfluence (calculateCulturalInfluence film)
    let baseScore :=
      rnd (rnd (rnd (rnd (rnd (rnd 0.35 * criticalConsensus)
        + rnd (rnd 0.25 * historicalImportance))
        + rnd (rnd 0.20 * auteurImportance))
        + rnd (rnd 0.10 * formalInnovation))
        + rnd (rnd 0.10 * culturalInfluence))
    some (mathRound (min baseScore 100))

/-- One step of the loop of `getMoodMatch` with the rounding `rnd`. -/
def Rounded.addMoodWeight (rnd : ℚ → ℚ) (filmMoods : MoodMap) (totalMatch : Option ℚ)
    (mood : String) : Option ℚ :=
  match totalMatch, readMood filmMoods mood with
  | some total, MoodRead.weight w => some (rnd (total + rnd w))
  | some total, MoodRead.missing => some (rnd (total + 0))
  | _, _ => none

/-- The function `getMoodMatch` with the rounding `rnd`. -/
def Rounded.getMoodMatch (rnd : ℚ → ℚ) (filmMoods : Option MoodMap)
    (selectedMoods : Option (List String)) : Option ℚ :=
  match filmMoods with
  | none => some 0
  | some filmMoods =>
    if filmMoods.length = 0 then some 0
    else
      match selectedMoods with
      | none => some 0
      | some selectedMoods =>
        if selectedMoods.length = 0 then some 0
        else
          let totalWeight : ℚ := selectedMoods.length
          let totalMatch := selectedMoods.foldl (Rounded.addMoodWeight rnd filmMoods) (some 0)
          totalMatch.map (fun total => rnd (total / totalWeight))

/-- The function `calculateRarityBoost` with the rounding `rnd`; `log` is
`Math.log`, from doubles to doubles. -/
def Rounded.calculateRarityBoost (rnd : ℚ → ℚ) (log : ℚ → ℚ) (showCount : ℚ) : ℚ :=
  let score := rnd (100 / log (rnd (showCount + 2)))
  max 0 (min 100 score)

/-- The function `calculateMoodScore` with the rounding `rnd`; the sum is
evaluated from left to right. -/
def Rounded.calculateMoodScore (rnd : ℚ → ℚ) (log : ℚ → ℚ) (film : Film)
    (selectedMoods : Option (List String)) : Option ℚ :=
  let film := Rounded.record rnd film
  let filmMoods := plainMoods film
  let moodMatch := Rounded.getMoodMatch rnd (some filmMoods) selectedMoods
  let base := film.baseCanonScore.getD 0
  let depth := depthOrDefault film
  let exploration := Rounded.calculateRarityBoost rnd log (film.showCount.getD 0)
  moodMatch.map (fun moodMatch =>
    rnd (rnd (rnd (rnd (rnd 0.50 * rnd (moodMatch * 100)) + rnd (rnd 0.30 * base))
      + rnd (rnd 0.10 * depth))
      + rnd (rnd 0.10 * exploration)))

/-- The function `calculateCombinedScore` with the rounding `rnd`. -/
def Rounded.calculateCombinedScore (rnd : ℚ → ℚ) (log : ℚ → ℚ) (film : Film)
    (selectedMoods : Option (List String)) (decade : Int) : Option ℚ :=
  let film := Rounded.record rnd film
  let filmMoods := plainMoods film
  let moodMatch := Rounded.getMoodMatch rnd (some filmMoods) selectedMoods
  let base := film.baseCanonScore.getD 0
  let rarity := Rounded.calculateRarityBoost rnd log (film.showCount.getD 0)
  moodMatch.map (fun moodMatch =>
    rnd (rnd (rnd (rnd (rnd 0.40 * rnd (moodMatch * 100)) + rnd (rnd 0.40 * base))
      + rnd (rnd 0.10 * periodAuth film decade))
      + rnd (rnd 0.10 * rarity)))

/-- The list `films` of `getMoodFilms` before pagination, scored with the
rounding `rnd`. -/
def Rounded.moodRanking (rnd : ℚ → ℚ) (log : ℚ → ℚ) (films : List Film)
    (selectedMoods : List String) : List (Film × ℚ) :=
  let scored := films.map (fun film =>
    (filmWithMoods film,
      Rounded.calculateMoodScore rnd log (filmWithMoods film) (some selectedMoods)))
  sortByScore (keepAboveThreshold scored)

/-- The list `films` of `getCombinedFilms` before pagination, scored with the
rounding `rnd`. -/
def Rounded.combinedRanking (rnd : ℚ → ℚ) (log : ℚ → ℚ) (films : List Film)
    (selectedMoods : List String) (decadeNum : Int) : List (Film × ℚ) :=
  let scored := films.map (fun film =>
    (film, Rounded.calculateCombinedScore rnd log film (some selectedMoods) decadeNum))
  sortByScore (keepAboveThreshold scored)

/-! ## Auxiliary definitions of the statements -/

/-- The ranking order on tags for a text: more matches first, and among tags
with the same number of matches the one declared earlier in `ARTHOUSE_TAGS`
first. -/
def tagPrecedes (text : String) (a b : String) : Prop :=
  tagMatchCount text b < tagMatchCount text a ∨
    (tagMatchCount text a = tagMatchCount text b ∧
      ARTHOUSE_TAGS.indexOf a < ARTHOUSE_TAGS.indexOf b)

/-- An input in which three tags match. -/
def rankingWitnessData : MovieData :=
  { synopsis := some "A slow dream", keywords := some ["grief"], genres := some ["Drama"] }

/-- The summed weight of the entries of an update list that bear a key. -/
def contribution (entries : List (String × ℚ)) (mood : String) : ℚ :=
  ((entries.filter (fun entry => entry.1 = mood)).map Prod.snd).sum

/-- The invariant of the accumulation loop on the entries of the mood object:
distinct keys, all of them moods, and weights in `(0, 1]`. -/
def WellFormedMoods (m : MoodMap) : Prop :=
  (m.map Prod.fst).Nodup ∧ ∀ e ∈ m, e.1 ∈ MOODS ∧ 0 < e.2 ∧ e.2 ≤ 1

/-- A film with a single derived tag. -/
def singleTagFilm : Film := { derivedTags := some ["contemplative"] }

/-- A film with two derived tags. -/
def twoTagFilm : Film := { derivedTags := some ["contemplative", "slow"] }

/-- The film's weight for a mood, `0` when the mood is absent. -/
def moodWeightOrZero (filmMoods : MoodMap) (mood : String) : ℚ :=
  (filmMoods.lookup mood).getD 0

/-- The quotient named by the specification: the sum over the selected moods
of the film's weight for the mood (`0` if absent), divided by their number. -/
def specMoodMatch (filmMoods : MoodMap) (selectedMoods : List String) : ℚ :=
  (selectedMoods.map (moodWeightOrZero filmMoods)).sum / (selectedMoods.length : ℚ)

/-- The mood object of the failing call of `getMoodMatch`. -/
def inheritedMoodObject : MoodMap := [("contemplative", 0.9)]

/-- The part of the explore score that does not depend on the seed. -/
def exploreBase {K : Type} [LinearOrderedField K] (log : K → K) (film : Film) (year : Int) : K :=
  0.60 * ((film.baseCanonScore.getD 0 : ℚ) : K)
    + 0.20 * calculateRecencyBoost (((year : ℚ)) : K)
    + 0.10 * calculateRarityBoost log ((film.showCount.getD 0 : ℚ) : K)

/-- A generator that always draws one half. -/
def constantGenerator (_seed : String) : ℚ := 1 / 2

/-- A film whose base canon score is zero. -/
def zeroScoreFilm : Film := { baseCanonScore := some 0 }

/-- A film with a positive base canon score. -/
def canonicalFilm : Film := { baseCanonScore := some 80, movements := some ["New Wave"] }

/-- The comparison `score >= 30`, false for `NaN`. -/
def passesThreshold {K : Type} [LinearOrderedField K] (score : Option K) : Bool :=
  match score with
  | some value => decide (30 ≤ value)
  | none => false

/-- Two candidate films for the mood ranking. -/
def rankingCandidates : List Film :=
  [{ _id := "a", baseCanonScore := some 90, moods := some (FilmMoods.map [("slow", 0.8)]) },
   { _id := "b", baseCanonScore := some 10 }]

/-- The critical-consensus formula of the specification for a vote average
and a vote count. -/
def specCriticalConsensus (voteAverage voteCount : ℚ) : ℚ :=
  voteAverage * 10 * (0.7 + 0.3 * min (voteCount / 5000) 1)

/-- The tier base of the specification: 70 for tier 1, 50 for tier 2,
otherwise 30. -/
def specTierBase (film : Film) : Int :=
  if film.tier = some 1 then 70 else if film.tier = some 2 then 50 else 30

/-- The age bonus of the specification against the year 2025; no bonus when
the film has no year. -/
def specAgeBonus (film : Film) : Int :=
  match film.year with
  | some year =>
    if 2025 - year > 70 then 20 else if 2025 - year > 50 then 15
    else if 2025 - year > 30 then 10 else if 2025 - year > 10 then 5 else 0
  | none => 0

/-- The historical-importance formula of the specification. -/
def specHistoricalImportance (film : Film) : Int :=
  min 100 (specTierBase film + specAgeBonus film
    + min (5 * ((film.festivalWins.getD []).length : Int)) 10)

/-- The auteur importance as the specification words it. -/
def specAuteurImportance (film : Film) : Int :=
  match film.directors with
  | none => 25
  | some [] => 25
  | some (first :: _) =>
    if ∃ master ∈ MASTER_AUTEURS, List.IsInfix master.toList first.toList then 100
    else if ∃ established ∈ ESTABLISHED_AUTEURS,
        List.IsInfix established.toList first.toList then 75
    else 50

/-- A film with all the fields read by the base canon score. -/
def formulaWitnessFilm : Film :=
  { vote_average := some 8, vote_count := some 5000, year := some 1966, tier := some 1,
    derivedTags := some ["surreal", "enigmatic", "fragmented", "dreamlike"],
    formalInnovation := some 40, culturalInfluence := some 50 }

/-- The same film with a stored formal innovation of zero. -/
def zeroInnovationFilm : Film :=
  { vote_average := some 8, vote_count := some 5000, year := some 1966, tier := some 1,
    derivedTags := some ["surreal", "enigmatic", "fragmented", "dreamlike"],
    formalInnovation := some 0, culturalInfluence := some 50 }

/-- A film directed by a master auteur, with a second director. -/
def masterAuteurFilm : Film :=
  { directors := some ["Andrei Tarkovsky", "David Lynch"] }

/-- The entries of the moods of a film, none when the field is missing. -/
def moodEntriesOf (film : Film) : List (String × ℚ) :=
  match film.moods with
  | some (FilmMoods.map entries) => entries
  | some (FilmMoods.object entries) => entries
  | none => []

/-- The mood score as the specification words it: the depth score is the
film's own, `50` only when the field is absent; an absent base canon score or
show count is `0`, absent moods are empty. -/
def specMoodScore {K : Type} [LinearOrderedField K] (log : K → K) (film : Film)
    (selectedMoods : Option (List String)) : Option K :=
  (getMoodMatch (some (moodEntriesOf film)) selectedMoods).map (fun moodMatch =>
    0.50 * (100 * ((moodMatch : ℚ) : K)) + 0.30 * ((film.baseCanonScore.getD 0 : ℚ) : K)
      + 0.10 * ((film.depthScore.getD 50 : ℚ) : K)
      + 0.10 * calculateRarityBoost log ((film.showCount.getD 0 : ℚ) : K))

/-- A film whose stored depth score is zero. -/
def zeroDepthFilm : Film :=
  { baseCanonScore := some 50, showCount := some 0, depthScore := some 0,
    moods := some (FilmMoods.object [("contemplative", 0.9)]) }

/-- The sort key the specification names for a keyword; it is a number when
the film has a year (`none` stands for `NaN`). -/
def specSortKey {K : Type} [LinearOrderedField K] (seedrandom : String → K) (log : K → K)
    (today : String) (sortBy : String) (film : Film) : Option K :=
  if sortBy = "influence" then some ((film.baseCanonScore.getD 0 : ℚ) : K)
  else if sortBy = "gems" then some (calculateRarityBoost log ((film.showCount.getD 0 : ℚ) : K))
  else if sortBy = "new" then
    film.year.map (fun (year : Int) =>
      calculateRecencyBoost ((year : ℚ) : K) + 5 * (((film.festivalWins.getD []).length : ℚ) : K))
  else
    film.year.map (fun (year : Int) =>
      0.60 * ((film.baseCanonScore.getD 0 : ℚ) : K)
        + 0.20 * calculateRecencyBoost ((year : ℚ) : K)
        + 0.10 * calculateRarityBoost log ((film.showCount.getD 0 : ℚ) : K)
        + 0.10 * getRotationNoise seedrandom (today ++ film._id))

/-- Both keys are numbers and the first is at least the second. -/
def keyNotBelow {α K : Type} [LinearOrderedField K] (key : α → Option K) (a b : α) : Prop :=
  ∃ ka kb, key a = some ka ∧ key b = some kb ∧ kb ≤ ka

/-- Three films to sort. -/
def sortCandidates : List Film :=
  [{ _id := "a", year := some 2010, baseCanonScore := some 40 },
   { _id := "b", year := some 2022, baseCanonScore := some 90, festivalWins := some ["Cannes"] },
   { _id := "c", year := some 2018, showCount := some 3 }]

/-- The unclamped sum of the genre tables over the genres of a film. -/
def rawGenreSum (movie : Film) : Int :=
  ((movie.genres.getD []).map
    (fun g => tableValue ARTHOUSE_GENRES g + tableValue MAINSTREAM_GENRES g)).sum

/-- The unclamped sum of the tag table over the derived tags of a film. -/
def rawTagSum (movie : Film) : Int :=
  ((movie.derivedTags.getD []).map (tableValue arthouseScoring.ARTHOUSE_TAGS)).sum

/-- Term P for a popularity: 25 / 15 / 5 / 0 for a popularity `< 20` /
`< 50` / `< 100` / otherwise. -/
def popularityPoints (popularity : ℚ) : Int :=
  if popularity < 20 then 25 else if popularity < 50 then 15
  else if popularity < 100 then 5 else 0

/-- The formula `clamp(P + V + rawGenreSum + rawTagSum + C, 0, 100)` of the
specification, for a film that has a popularity. -/
def unclampedArthouseScore (movie : Film) : Option Int :=
  movie.popularity.map (fun popularity =>
    max 0 (min 100
      (popularityPoints popularity + specVotePattern movie + rawGenreSum movie
        + rawTagSum movie + specCountry movie)))

/-- A film of three arthouse genres, whose table values sum to 26. -/
def threeGenreFilm : Film :=
  { popularity := some 150, genres := some ["Drama", "Documentary", "History"] }

/-- A record that has only a popularity of zero. -/
def zeroPopularityFilm : Film := { popularity := some 0 }

/-- A canonical film none of whose moods is selected. -/
def unmatchedMoodFilm : Film :=
  { baseCanonScore := some 100, showCount := some 0,
    moods := some (FilmMoods.object [("slow", 0.5)]) }

/-- An input whose only text is the genre `Horror`. -/
def horrorData : MovieData := { genres := some ["Horror"] }

/-- A recent film with a high base canon score. -/
def acclaimedFilm : Film := { _id := "a", year := some 2020, baseCanonScore := some 90 }

/-- A recent film with a low base canon score. -/
def minorFilm : Film := { _id := "b", year := some 2020, baseCanonScore := some 10 }

/-- The film has at least one movement. -/
def hasMovements (film : Film) : Bool :=
  match film.movements with
  | some (_ :: _) => true
  | _ => false

/-- Two stored films of the 1960s and one of the 1970s. -/
def storedDecades : List Film :=
  [{ _id := "a", year := some 1966, decade := some 1960, baseCanonScore := some 80,
     moods := some (FilmMoods.object [("slow", 0.5)]) },
   { _id := "b", year := some 1960, decade := some 1960 },
   { _id := "c", year := some 1975, decade := some 1970 }]

/-- A reading of `parseInt` on the decimal strings of three decades. -/
def parseDecade (value : Option QueryValue) : Option Int :=
  match value with
  | some (QueryValue.str "1960") => some 1960
  | some (QueryValue.str "1970") => some 1970
  | some (QueryValue.str "2000") => some 2000
  | _ => none

/-- A film whose weighted sum is exactly 53.5. -/
def roundingFilm : Film :=
  { vote_average := some 6, vote_count := some 2500, tier := some 1,
    year := some 1966, directors := some ["Jane Doe"], formalInnovation := some 4,
    culturalInfluence := some 40 }

/-- A film without moods whose mood score is exactly 30. -/
def thresholdFilm : Film :=
  { baseCanonScore := some 62, depthScore := some 14, showCount := some 0,
    moods := some (FilmMoods.object []) }

/-- The critical-consensus formula of the specification with the rounding
`rnd`. -/
def specCriticalConsensusRounded (rnd : ℚ → ℚ) (voteAverage voteCount : ℚ) : ℚ :=
  rnd (rnd (voteAverage * 10) * rnd (rnd 0.7 + rnd (rnd 0.3 * min (rnd (voteCount / 5000)) 1)))

/-- The weighted sum `0.35*CC + 0.25*HI + 0.20*AI + 0.10*FI + 0.10*CI` with
the rounding `rnd`, summed from left to right. -/
def specWeightedSum (rnd : ℚ → ℚ) (cc hi ai fi ci : ℚ) : ℚ :=
  rnd (rnd (rnd (rnd (rnd (rnd 0.35 * cc) + rnd (rnd 0.25 * hi)) + rnd (rnd 0.20 * ai))
    + rnd (rnd 0.10 * fi)) + rnd (rnd 0.10 * ci))

/-! # Theorems -/

/-! ## Arthouse scoring -/

/-- A value found by `lookup` is one of the values of the table. -/
theorem lookup_mem_values {β : Type} (table : List (String × β)) (key : String) (v : β)
    (h : table.lookup key = some v) : v ∈ table.map Prod.snd := by
  induction table with
  | nil => simp at h
  | cons p rest ih =>
    obtain ⟨k, w⟩ := p
    by_cases hk : key = k
    · subst hk
      simp [List.lookup] at h
      simp [h]
    · have hne : (key == k) = false := by simpa using hk
      rw [List.lookup, hne] at h
      simp only [List.map_cons, List.mem_cons]
      exact Or.inr (ih h)

/-- For a name that is not inherited, property access is the own-property
lookup. -/
theorem getProp_of_not_inherited (table : List (String × Int)) (key : String)
    (h : key ∉ OBJECT_PROTOTYPE_KEYS) :
    getProp table key = (table.lookup key).map JSValue.num := by
  unfold getProp
  cases table.lookup key <;> simp [h]

theorem addIfTruthy_num (table : List (String × Int)) (a : Int) (key : String)
    (h : key ∉ OBJECT_PROTOTYPE_KEYS) :
    addIfTruthy table (JSValue.num a) key = JSValue.num (a + tableValue table key) := by
  unfold addIfTruthy tableValue
  rw [getProp_of_not_inherited table key h]
  cases hl : table.lookup key with
  | none => simp
  | some v =>
    by_cases hv : v = 0
    · simp [JSValue.truthy, hv]
    · simp [JSValue.truthy, hv, JSValue.add]

theorem foldl_addIfTruthy_num (table : List (String × Int)) (keys : List String)
    (h : ∀ k ∈ keys, k ∉ OBJECT_PROTOTYPE_KEYS) (a : Int) :
    keys.foldl (addIfTruthy table) (JSValue.num a)
      = JSValue.num (a + (keys.map (tableValue table)).sum) := by
  induction keys generalizing a with
  | nil => simp
  | cons k rest ih =>
    have hk := h k (List.mem_cons_self k rest)
    have hrest : ∀ x ∈ rest, x ∉ OBJECT_PROTOTYPE_KEYS :=
      fun x hx => h x (List.mem_cons_of_mem k hx)
    simp only [List.foldl_cons, List.map_cons, List.sum_cons]
    rw [addIfTruthy_num table a k hk, ih hrest]
    congr 1
    ring

theorem foldl_genres_num (keys : List String)
    (h : ∀ k ∈ keys, k ∉ OBJECT_PROTOTYPE_KEYS) (a : Int) :
    keys.foldl
      (fun genreScore genre =>
        addIfTruthy MAINSTREAM_GENRES (addIfTruthy ARTHOUSE_GENRES genreScore genre) genre)
      (JSValue.num a)
      = JSValue.num (a + (keys.map
          (fun g => tableValue ARTHOUSE_GENRES g + tableValue MAINSTREAM_GENRES g)).sum) := by
  induction keys generalizing a with
  | nil => simp
  | cons k rest ih =>
    have hk := h k (List.mem_cons_self k rest)
    have hrest : ∀ x ∈ rest, x ∉ OBJECT_PROTOTYPE_KEYS :=
      fun x hx => h x (List.mem_cons_of_mem k hx)
    simp only [List.foldl_cons, List.map_cons, List.sum_cons]
    rw [addIfTruthy_num _ a k hk, addIfTruthy_num _ _ k hk, ih hrest]
    congr 1
    ring

theorem country_bonus_ne_zero (c : String) (v : Int)
    (h : ARTHOUSE_COUNTRIES.lookup c = some v) : v ≠ 0 := by
  have hall : ∀ w ∈ ARTHOUSE_COUNTRIES.map Prod.snd, w ≠ 0 := by decide
  exact hall v (lookup_mem_values ARTHOUSE_COUNTRIES c v h)

/-- On a film without inherited property names the scorer computes the
formula of the specification. -/
theorem calculateArthouseScore_of_own_keys (movie : Film) (h : OwnKeysOnly movie) :
    calculateArthouseScore movie = JSValue.num (specArthouseScore movie) := by
  obtain ⟨hg, ht, hc⟩ := h
  unfold calculateArthouseScore
  lift_lets
  extract_lets s0 s1 va vc s2 genres gs s3 tags ts s4 country s5
  have h1 : s1 = JSValue.num (specPopularity movie) := by
    simp only [s1, s0, specPopularity]
    cases movie.popularity with
    | none => rfl
    | some p => simp only [JSValue.add]; split_ifs <;> rfl
  have h2 : s2 = JSValue.num (specPopularity movie + specVotePattern movie) := by
    simp only [s2, h1, specVotePattern, JSValue.add]
    split_ifs <;> simp
  have h3 : s3 = JSValue.num (specPopularity movie + specVotePattern movie + specGenre movie) := by
    simp only [s3, h2, gs, genres, foldl_genres_num _ hg 0, JSValue.mathMin, JSValue.mathMax,
      JSValue.add, specGenre, zero_add]
  have h4 : s4 = JSValue.num
      (specPopularity movie + specVotePattern movie + specGenre movie + specTags movie) := by
    simp only [s4, h3, ts, tags, foldl_addIfTruthy_num _ _ ht 0, JSValue.mathMin, JSValue.add,
      specTags, zero_add]
  have h5 : s5 = JSValue.num
      (specPopularity movie + specVotePattern movie + specGenre movie + specTags movie
        + specCountry movie) := by
    simp only [s5, h4, specCountry, hasTruthyProp, country]
    rw [getProp_of_not_inherited _ _ hc]
    generalize movie.country.getD "" = c
    by_cases hus : c = "United States of America" ∨ c = "USA"
    · rw [if_pos hus, if_pos (Or.symm hus)]
      simp only [JSValue.sub]
      rfl
    · rw [if_neg hus, if_neg (fun hh => hus (Or.symm hh))]
      cases hl : ARTHOUSE_COUNTRIES.lookup c with
      | none => by_cases hc0 : c = "" <;> simp [hc0, JSValue.add]
      | some v =>
        have hv : v ≠ 0 := country_bonus_ne_zero c v hl
        simp [JSValue.truthy, hv, JSValue.add]
  rw [h5]
  rfl

/-- On a film without inherited property names the score is an integer
between 0 and 100. -/
theorem calculateArthouseScore_range_of_own_keys (movie : Film) (h : OwnKeysOnly movie) :
    ∃ z : Int, calculateArthouseScore movie = JSValue.num z ∧ 0 ≤ z ∧ z ≤ 100 := by
  refine ⟨specArthouseScore movie, calculateArthouseScore_of_own_keys movie h, ?_, ?_⟩
  · exact le_max_left _ _
  · unfold specArthouseScore
    exact max_le (by norm_num) (min_le_left _ _)

/-- Claim C3: for every film the `total` of `getScoreBreakdown` is the value
of `calculateArthouseScore`, and it is the value obtained from the five
components reported in the same breakdown by summing them with `+` and
clamping with `Math.max(0, Math.min(100, ·))`. Equality is identity of the
resulting JavaScript value. -/
theorem getScoreBreakdown_total (movie : Film) :
    (getScoreBreakdown movie).total = calculateArthouseScore movie ∧
    (getScoreBreakdown movie).total = clampedComponentSum (getScoreBreakdown movie) := by
  refine ⟨rfl, ?_⟩
  unfold getScoreBreakdown clampedComponentSum calculateArthouseScore
  lift_lets
  extract_lets bp va vc bv genres gs bg tags ts bt country bc s0 s1 s2 s3 s4 s5
  show JSValue.mathMax 0 (JSValue.mathMin 100 s5)
    = JSValue.mathMax 0 (JSValue.mathMin 100 ((((bp.add bv).add bg).add bt).add bc))
  obtain ⟨P, hP⟩ : ∃ P : Int, bp = JSValue.num P := by
    simp only [bp]
    cases movie.popularity with
    | none => exact ⟨_, rfl⟩
    | some p => simp only []; split_ifs <;> exact ⟨_, rfl⟩
  obtain ⟨V, hV⟩ : ∃ V : Int, bv = JSValue.num V := by
    simp only [bv]
    split_ifs <;> exact ⟨_, rfl⟩
  have h1 : s1 = bp := by
    simp only [s1, s0, bp]
    cases movie.popularity with
    | none => rfl
    | some p => simp only [JSValue.add]; split_ifs <;> rfl
  have h2 : s2 = bp.add bv := by
    simp only [s2, h1, bv, hP, JSValue.add]
    split_ifs <;> simp
  have h4 : s4 = ((bp.add bv).add bg).add bt := by
    simp only [s4, s3, h2, bg, bt]
  have hbg : bg = JSValue.nan ∨ ∃ G : Int, bg = JSValue.num G := by
    simp only [bg]
    cases gs <;> simp [JSValue.mathMin, JSValue.mathMax]
  have hbt : bt = JSValue.nan ∨ ∃ T : Int, bt = JSValue.num T := by
    simp only [bt]
    cases ts <;> simp [JSValue.mathMin]
  simp only [s5, h4, bc]
  generalize (getProp ARTHOUSE_COUNTRIES country).getD JSValue.nan = cv
  rw [hP, hV]
  rcases hbg with hG | ⟨G, hG⟩ <;> rcases hbt with hT | ⟨T, hT⟩ <;> rw [hG, hT] <;>
    split_ifs <;> cases cv <;>
    simp [JSValue.add, JSValue.sub, JSValue.mathMin, JSValue.mathMax, sub_eq_add_neg]


/-- Claim C1, evaluated at a film with numeric popularity, vote average and
vote count whose genre list contains the string `constructor`: the lookup
`ARTHOUSE_GENRES[genre]` finds the inherited constructor function, `+=`
turns `genreScore` into a string, and the value returned is `NaN`, not an
integer between 0 and 100. -/
theorem calculateArthouseScore_inherited_genre :
    calculateArthouseScore inheritedGenreFilm = JSValue.nan := by
  simp [calculateArthouseScore, inheritedGenreFilm]
  norm_num
  decide

/-- Claim C4, evaluated at a film whose country is the string `constructor`:
the formula of the claim gives `25 + 20 + 10 + 10 + 8 = 73`, while
`ARTHOUSE_COUNTRIES[country]` finds the inherited constructor function and
the value returned is `NaN`. -/
theorem calculateArthouseScore_inherited_country :
    specArthouseScore inheritedCountryFilm = 73 ∧
    calculateArthouseScore inheritedCountryFilm = JSValue.nan := by
  constructor
  · simp [specArthouseScore, specPopularity, specVotePattern, specGenre, specTags, specCountry,
      inheritedCountryFilm]
    norm_num
    decide
  · simp [calculateArthouseScore, inheritedCountryFilm]
    norm_num
    decide

/-- The two worked examples of the specification: the French film scores 80
and the US film scores 0. -/
theorem calculateArthouseScore_examples :
    calculateArthouseScore frenchExample = JSValue.num 80 ∧
    calculateArthouseScore usExample = JSValue.num 0 := by
  constructor
  · simp [calculateArthouseScore, frenchExample]
    norm_num
    decide
  · simp [calculateArthouseScore, usExample]
    norm_num
    decide

/-! ## Base canon score -/

theorem calculateHistoricalImportance_bounds (film : Film) :
    0 ≤ calculateHistoricalImportance film ∧ calculateHistoricalImportance film ≤ 100 := by
  unfold calculateHistoricalImportance
  refine ⟨?_, min_le_right _ _⟩
  apply le_min _ (by norm_num)
  cases film.festivalWins <;> cases film.year <;> dsimp only <;> split_ifs <;> omega

theorem calculateAuteurImportance_bounds (film : Film) :
    0 ≤ calculateAuteurImportance film ∧ calculateAuteurImportance film ≤ 100 := by
  unfold calculateAuteurImportance
  split
  · norm_num
  · norm_num
  · split_ifs <;> norm_num

theorem calculateFormalInnovation_bounds (film : Film) :
    0 ≤ calculateFormalInnovation film ∧ calculateFormalInnovation film ≤ 100 := by
  unfold calculateFormalInnovation
  refine ⟨?_, min_le_right _ _⟩
  apply le_min _ (by norm_num)
  dsimp only
  split_ifs <;> omega

theorem calculateCulturalInfluence_bounds (film : Film) :
    0 ≤ calculateCulturalInfluence film ∧ calculateCulturalInfluence film ≤ 100 := by
  unfold calculateCulturalInfluence
  refine ⟨?_, min_le_right _ _⟩
  apply le_min _ (by norm_num)
  cases film.vote_count with
  | none => dsimp only; split_ifs <;> omega
  | some c => dsimp only; split_ifs <;> omega

theorem storedOr_bounds (stored : Option ℚ) (computed : Int)
    (hs : ∀ v, stored = some v → 0 ≤ v ∧ v ≤ 100) (hc : 0 ≤ computed ∧ computed ≤ 100) :
    0 ≤ storedOr stored computed ∧ storedOr stored computed ≤ 100 := by
  have hq : (0 : ℚ) ≤ (computed : ℚ) ∧ (computed : ℚ) ≤ 100 := by
    exact ⟨by exact_mod_cast hc.1, by exact_mod_cast hc.2⟩
  unfold storedOr
  cases stored with
  | none => exact hq
  | some v =>
    dsimp only
    split_ifs
    · exact hq
    · exact hs v rfl

theorem calculateCriticalConsensus_bounds (film : Film) (c : ℚ)
    (hva : ∀ a, film.vote_average = some a → 0 ≤ a ∧ a ≤ 10)
    (hvc : film.vote_count = some c) (hc : 0 ≤ c) :
    ∃ cc, calculateCriticalConsensus film = some cc ∧ 0 ≤ cc ∧ cc ≤ 100 := by
  unfold calculateCriticalConsensus
  rw [hvc]
  refine ⟨_, rfl, ?_, ?_⟩
  all_goals
    have ha : 0 ≤ film.vote_average.getD 0 ∧ film.vote_average.getD 0 ≤ 10 := by
      cases hv : film.vote_average with
      | none => simp
      | some a => simpa using hva a hv
    have hw0 : 0 ≤ min (c / 5000) 1 := le_min (by positivity) (by norm_num)
    have hw1 : min (c / 5000) 1 ≤ 1 := min_le_right _ _
    generalize film.vote_average.getD 0 = a at ha
    generalize min (c / 5000) 1 = w at hw0 hw1
    obtain ⟨ha0, ha1⟩ := ha
  · have : 0 ≤ a * 10 := by positivity
    have : (0 : ℚ) ≤ 0.7 + 0.3 * w := by norm_num; positivity
    positivity
  · have h1 : a * 10 ≤ 100 := by linarith
    have h2 : (0.7 : ℚ) + 0.3 * w ≤ 1 := by norm_num; linarith
    have h3 : (0 : ℚ) ≤ 0.7 + 0.3 * w := by norm_num; positivity
    calc a * 10 * (0.7 + 0.3 * w) ≤ 100 * 1 := by
          apply mul_le_mul h1 h2 h3 (by norm_num)
      _ = 100 := by norm_num

/-- Rounding keeps a value of `[0, 100]` in `[0, 100]`. -/
theorem mathRound_bounds (x : ℚ) (h0 : 0 ≤ x) (h1 : x ≤ 100) :
    0 ≤ mathRound x ∧ mathRound x ≤ 100 := by
  unfold mathRound
  constructor
  · exact Int.floor_nonneg.mpr (by linarith)
  · have : ⌊x + 1 / 2⌋ < 101 := by
      rw [Int.floor_lt]
      push_cast
      linarith
    omega

/-- Claim C2: for every film whose vote average lies in `[0, 10]` (or is
missing, which the code reads as `0`), whose vote count is present and
non-negative and whose stored formal innovation and cultural influence are
absent or in `[0, 100]`, whatever its tier, year, directors, genres, derived
tags and festival wins, `calculateBaseCanonScore` returns an integer between
0 and 100. -/
theorem calculateBaseCanonScore_range (film : Film)
    (hva : ∀ a, film.vote_average = some a → 0 ≤ a ∧ a ≤ 10)
    (hvc : ∃ c, film.vote_count = some c ∧ 0 ≤ c)
    (hfi : ∀ v, film.formalInnovation = some v → 0 ≤ v ∧ v ≤ 100)
    (hci : ∀ v, film.culturalInfluence = some v → 0 ≤ v ∧ v ≤ 100) :
    ∃ score : Int, calculateBaseCanonScore film = some score ∧ 0 ≤ score ∧ score ≤ 100 := by
  obtain ⟨c, hc, hc0⟩ := hvc
  obtain ⟨cc, hcc, hcc0, hcc1⟩ := calculateCriticalConsensus_bounds film c hva hc hc0
  unfold calculateBaseCanonScore
  rw [hcc]
  refine ⟨_, rfl, ?_⟩
  have hh := calculateHistoricalImportance_bounds film
  have ha := calculateAuteurImportance_bounds film
  have hf := storedOr_bounds film.formalInnovation _ hfi (calculateFormalInnovation_bounds film)
  have hcu := storedOr_bounds film.culturalInfluence _ hci (calculateCulturalInfluence_bounds film)
  have hhq : (0 : ℚ) ≤ (calculateHistoricalImportance film : ℚ) ∧
      (calculateHistoricalImportance film : ℚ) ≤ 100 :=
    ⟨by exact_mod_cast hh.1, by exact_mod_cast hh.2⟩
  have haq : (0 : ℚ) ≤ (calculateAuteurImportance film : ℚ) ∧
      (calculateAuteurImportance film : ℚ) ≤ 100 :=
    ⟨by exact_mod_cast ha.1, by exact_mod_cast ha.2⟩
  apply mathRound_bounds
  · apply le_min _ (by norm_num)
    norm_num
    linarith [hhq.1, haq.1, hf.1, hcu.1]
  · exact min_le_right _ _


/-- Witness of claim C2 on a tier-1 film of 1966. -/
theorem calculateBaseCanonScore_range_witness :
    ∃ score : Int, calculateBaseCanonScore canonWitnessFilm = some score ∧ 0 ≤ score ∧ score ≤ 100 :=
  calculateBaseCanonScore_range canonWitnessFilm
    (by intro a h; simp [canonWitnessFilm] at h; subst h; norm_num)
    ⟨2500, rfl, by norm_num⟩
    (by intro v h; simp [canonWitnessFilm] at h)
    (by intro v h; simp [canonWitnessFilm] at h)


/-! ## Tagging service -/

theorem ARTHOUSE_TAGS_nodup : ARTHOUSE_TAGS.Nodup := by decide

theorem tagScores_keys (text : String) : (tagScores text).map Prod.fst = ARTHOUSE_TAGS := by
  unfold tagScores
  rw [List.map_map]
  exact List.map_id _

/-- The tags kept by `sortedTags` form, up to order, a sublist of the keys. -/
theorem sortedTags_perm_sublist (scores : List (String × Nat)) :
    ∃ kept, kept.Perm
      (((scores.filter (fun entry => entry.2 > 0)).insertionSort (fun a b => a.2 ≥ b.2)).map
        Prod.fst) ∧ List.Sublist kept (scores.map Prod.fst) :=
  ⟨(scores.filter (fun entry => entry.2 > 0)).map Prod.fst,
    ((List.perm_insertionSort _ _).map _).symm, List.Sublist.map _ (List.filter_sublist _)⟩

theorem sortedTags_length (scores : List (String × Nat)) : (sortedTags scores).length ≤ 5 := by
  unfold sortedTags
  rw [List.length_map, List.length_take]
  exact Nat.min_le_left _ _

theorem sortedTags_nodup (scores : List (String × Nat)) (h : (scores.map Prod.fst).Nodup) :
    (sortedTags scores).Nodup := by
  obtain ⟨kept, hperm, hsub⟩ := sortedTags_perm_sublist scores
  have hfull : (((scores.filter (fun entry => entry.2 > 0)).insertionSort
      (fun a b => a.2 ≥ b.2)).map Prod.fst).Nodup :=
    hperm.nodup_iff.mp (hsub.nodup h)
  unfold sortedTags
  exact ((List.take_sublist _ _).map _).nodup hfull

theorem sortedTags_subset (scores : List (String × Nat)) (tag : String)
    (h : tag ∈ sortedTags scores) : tag ∈ scores.map Prod.fst := by
  obtain ⟨kept, hperm, hsub⟩ := sortedTags_perm_sublist scores
  unfold sortedTags at h
  have h1 := ((List.take_sublist _ _).map Prod.fst).subset h
  exact hsub.subset (hperm.symm.subset h1)

/-- The default tags are one of seven lists. -/
theorem fallbackTags_cases (genres : List String) :
    fallbackTags genres ∈
      [["contemplative"], ["psychological"], ["intimate"],
       ["contemplative", "psychological"], ["contemplative", "intimate"],
       ["psychological", "intimate"], ["contemplative", "psychological", "intimate"]] := by
  unfold fallbackTags
  dsimp only
  split_ifs <;> simp_all

/-- Claim C5: for every input, `generateTags` returns between 1 and 5 tags,
no tag twice, and every returned tag belongs to `ARTHOUSE_TAGS`. -/
theorem generateTags_spec (movieData : MovieData) :
    1 ≤ (generateTags movieData).length ∧ (generateTags movieData).length ≤ 5 ∧
    (generateTags movieData).Nodup ∧ ∀ tag ∈ generateTags movieData, tag ∈ ARTHOUSE_TAGS := by
  unfold generateTags
  dsimp only
  split_ifs with h0
  · have hc := fallbackTags_cases (movieData.genres.getD [])
    generalize fallbackTags (movieData.genres.getD []) = fb at hc
    simp only [List.mem_cons, List.mem_singleton, List.not_mem_nil, or_false] at hc
    rcases hc with h | h | h | h | h | h | h <;> subst h <;> decide
  · have hlen := sortedTags_length (tagScores (combinedText movieData))
    have hnd := sortedTags_nodup (tagScores (combinedText movieData))
      (by rw [tagScores_keys]; exact ARTHOUSE_TAGS_nodup)
    have hsub := sortedTags_subset (tagScores (combinedText movieData))
    rw [tagScores_keys] at hsub
    rw [List.take_of_length_le hlen]
    exact ⟨by omega, hlen, hnd, hsub⟩

/-- Claim C6: when the synopsis is missing or empty, the keywords are missing
or empty and the genres are missing or empty, `generateTags` returns exactly
`["contemplative"]` (the function is total: it returns on every input). -/
theorem generateTags_empty (movieData : MovieData)
    (hs : movieData.synopsis = none ∨ movieData.synopsis = some "")
    (hk : movieData.keywords = none ∨ movieData.keywords = some [])
    (hg : movieData.genres = none ∨ movieData.genres = some []) :
    generateTags movieData = ["contemplative"] := by
  obtain ⟨s, k, g⟩ := movieData
  dsimp only at hs hk hg
  rcases hs with hs | hs <;> rcases hk with hk | hk <;> rcases hg with hg | hg <;>
    subst hs <;> subst hk <;> subst hg <;> decide

/-- Witness of claim C6 on an input mixing missing and empty fields. -/
theorem generateTags_empty_witness :
    generateTags { synopsis := some "", keywords := none, genres := some [] } = ["contemplative"] :=
  generateTags_empty { synopsis := some "", keywords := none, genres := some [] }
    (Or.inr rfl) (Or.inl rfl) (Or.inr rfl)


/-- Inserting an entry that stands before every entry of a list ranked by
(score descending, then `before`) keeps the list ranked. -/
theorem orderedInsert_ranked {α : Type} (score : α → Nat) (before : α → α → Prop)
    (a : α) (l : List α)
    (hl : l.Pairwise (fun x y => score y < score x ∨ (score x = score y ∧ before x y)))
    (ha : ∀ b ∈ l, before a b) :
    (l.orderedInsert (fun x y => score x ≥ score y) a).Pairwise
      (fun x y => score y < score x ∨ (score x = score y ∧ before x y)) := by
  induction l with
  | nil => simp
  | cons b rest ih =>
    obtain ⟨hb, hrest⟩ := List.pairwise_cons.mp hl
    rw [List.orderedInsert]
    split_ifs with hab
    · refine List.pairwise_cons.mpr ⟨?_, hl⟩
      intro c hc
      have hbc : score c ≤ score b := by
        rcases List.mem_cons.mp hc with h | h
        · rw [h]
        · rcases hb c h with h' | h'
          · exact Nat.le_of_lt h'
          · exact Nat.le_of_eq h'.1.symm
      rcases Nat.lt_or_eq_of_le (Nat.le_trans hbc hab) with h | h
      · exact Or.inl h
      · exact Or.inr ⟨h.symm, ha c hc⟩
    · refine List.pairwise_cons.mpr ⟨?_, ih hrest (fun c hc => ha c (List.mem_cons_of_mem b hc))⟩
      intro c hc
      rcases (List.mem_orderedInsert _).mp hc with h | h
      · rw [h]
        exact Or.inl (Nat.lt_of_not_le hab)
      · exact hb c h

/-- A stable sort by descending score of a list ordered by `before` is ranked
by (score descending, then `before`). -/
theorem insertionSort_ranked {α : Type} (score : α → Nat) (before : α → α → Prop)
    (l : List α) (hl : l.Pairwise before) :
    (l.insertionSort (fun x y => score x ≥ score y)).Pairwise
      (fun x y => score y < score x ∨ (score x = score y ∧ before x y)) := by
  induction l with
  | nil => simp
  | cons a rest ih =>
    obtain ⟨ha, hrest⟩ := List.pairwise_cons.mp hl
    rw [List.insertionSort]
    exact orderedInsert_ranked score before a _ (ih hrest)
      (fun b hb => ha b ((List.mem_insertionSort _).mp hb))

theorem ARTHOUSE_TAGS_ordered :
    ARTHOUSE_TAGS.Pairwise (fun a b => ARTHOUSE_TAGS.indexOf a < ARTHOUSE_TAGS.indexOf b) := by
  decide

/-- An entry of `tagScores` pairs a vocabulary tag with its match count. -/
theorem mem_tagScores (text : String) (entry : String × Nat) (h : entry ∈ tagScores text) :
    entry.1 ∈ ARTHOUSE_TAGS ∧ entry.2 = tagMatchCount text entry.1 := by
  unfold tagScores at h
  obtain ⟨tag, htag, rfl⟩ := List.mem_map.mp h
  exact ⟨htag, rfl⟩

/-- Claim C7: when some vocabulary tag has a positive match count in the
combined lower-cased text, `generateTags` returns the first five (or fewer)
elements of the list `ranked` that holds exactly the tags with a positive
match count, each once, ordered by descending match count with ties in the
order of declaration in `ARTHOUSE_TAGS`; so no tag without a match is
returned. -/
theorem generateTags_ranking (movieData : MovieData)
    (h : ∃ tag ∈ ARTHOUSE_TAGS, 0 < tagMatchCount (combinedText movieData) tag) :
    ∃ ranked : List String,
      ranked.Perm (ARTHOUSE_TAGS.filter
        (fun tag => 0 < tagMatchCount (combinedText movieData) tag)) ∧
      ranked.Pairwise (tagPrecedes (combinedText movieData)) ∧
      generateTags movieData = ranked.take 5 := by
  obtain ⟨tag, htag, hpos⟩ := h
  have hkept : ((tagScores (combinedText movieData)).filter (fun entry => entry.2 > 0)).map
      Prod.fst = ARTHOUSE_TAGS.filter
        (fun tag => 0 < tagMatchCount (combinedText movieData) tag) := by
    unfold tagScores
    rw [List.filter_map, List.map_map]
    exact List.map_id _
  have hordered : ((tagScores (combinedText movieData)).filter
      (fun entry => entry.2 > 0)).Pairwise
      (fun x y => ARTHOUSE_TAGS.indexOf x.1 < ARTHOUSE_TAGS.indexOf y.1) := by
    apply List.Pairwise.filter
    unfold tagScores
    rw [List.pairwise_map]
    exact ARTHOUSE_TAGS_ordered
  have hsorted := insertionSort_ranked (fun entry : String × Nat => entry.2)
    (fun x y => ARTHOUSE_TAGS.indexOf x.1 < ARTHOUSE_TAGS.indexOf y.1) _ hordered
  refine ⟨(((tagScores (combinedText movieData)).filter
    (fun entry => entry.2 > 0)).insertionSort (fun a b => a.2 ≥ b.2)).map Prod.fst, ?_, ?_, ?_⟩
  · rw [← hkept]
    exact (List.perm_insertionSort _ _).map _
  · rw [List.pairwise_map]
    refine List.Pairwise.imp_of_mem ?_ hsorted
    intro x y hx hy hxy
    have hx' := mem_tagScores _ x (List.mem_of_mem_filter ((List.mem_insertionSort _).mp hx))
    have hy' := mem_tagScores _ y (List.mem_of_mem_filter ((List.mem_insertionSort _).mp hy))
    unfold tagPrecedes
    rw [← hx'.2, ← hy'.2]
    exact hxy
  · have hmem : (tag, tagMatchCount (combinedText movieData) tag) ∈
        ((tagScores (combinedText movieData)).filter (fun entry => entry.2 > 0)) := by
      apply List.mem_filter.mpr
      refine ⟨List.mem_map.mpr ⟨tag, htag, rfl⟩, ?_⟩
      simpa using hpos
    have hlen : 0 < (((tagScores (combinedText movieData)).filter
        (fun entry => entry.2 > 0)).insertionSort (fun a b => a.2 ≥ b.2)).length := by
      rw [List.length_insertionSort]
      exact List.length_pos_of_mem hmem
    unfold generateTags sortedTags
    dsimp only
    rw [if_neg, List.map_take, List.take_take]
    · simp
    · rw [List.length_map, List.length_take]
      omega

/-- Witness of claim C7 on an input in which three tags match. -/
theorem generateTags_ranking_witness :
    ∃ ranked : List String,
      ranked.Perm (ARTHOUSE_TAGS.filter
        (fun tag => 0 < tagMatchCount (combinedText rankingWitnessData) tag)) ∧
      ranked.Pairwise (tagPrecedes (combinedText rankingWitnessData)) ∧
      generateTags rankingWitnessData = ranked.take 5 :=
  generateTags_ranking rankingWitnessData ⟨"slow", by decide, by decide⟩

/-! ## Mood service -/

theorem getWeight_setWeight_same (m : MoodMap) (k : String) (v : ℚ) :
    getWeight (setWeight m k v) k = some v := by
  induction m with
  | nil => simp [setWeight, getWeight, List.lookup]
  | cons e rest ih =>
    obtain ⟨k', v'⟩ := e
    unfold setWeight
    by_cases h : k' = k
    · rw [if_pos h]
      simp [getWeight, List.lookup, h]
    · rw [if_neg h]
      have hne : (k == k') = false := by simpa using fun hh => h hh.symm
      unfold getWeight at ih ⊢
      rw [List.lookup, hne]
      exact ih

theorem getWeight_setWeight_other (m : MoodMap) (k k' : String) (v : ℚ) (h : k' ≠ k) :
    getWeight (setWeight m k v) k' = getWeight m k' := by
  induction m with
  | nil =>
    have hne : (k' == k) = false := by simpa using h
    simp [setWeight, getWeight, List.lookup, hne]
  | cons e rest ih =>
    obtain ⟨k₀, v₀⟩ := e
    unfold setWeight
    by_cases h0 : k₀ = k
    · rw [if_pos h0]
      have hne : (k' == k₀) = false := by simpa [h0] using h
      simp [getWeight, List.lookup, hne]
    · rw [if_neg h0]
      unfold getWeight at ih ⊢
      by_cases h1 : k' = k₀
      · simp [List.lookup, h1]
      · have hne : (k' == k₀) = false := by simpa using h1
        rw [List.lookup, hne, List.lookup, hne]
        exact ih

theorem keys_setWeight (m : MoodMap) (k : String) (v : ℚ) :
    (setWeight m k v).map Prod.fst
      = if k ∈ m.map Prod.fst then m.map Prod.fst else m.map Prod.fst ++ [k] := by
  induction m with
  | nil => simp [setWeight]
  | cons e rest ih =>
    obtain ⟨k₀, v₀⟩ := e
    unfold setWeight
    by_cases h0 : k₀ = k
    · rw [if_pos h0]
      simp [h0]
    · rw [if_neg h0]
      have h0' : ¬ k = k₀ := fun hh => h0 hh.symm
      simp only [List.map_cons, List.mem_cons, h0', false_or, ih]
      split_ifs <;> simp

theorem mem_setWeight (m : MoodMap) (k : String) (v : ℚ) (e : String × ℚ)
    (h : e ∈ setWeight m k v) : e ∈ m ∨ e = (k, v) := by
  induction m with
  | nil => simpa [setWeight] using h
  | cons e₀ rest ih =>
    obtain ⟨k₀, v₀⟩ := e₀
    unfold setWeight at h
    by_cases h0 : k₀ = k
    · rw [if_pos h0] at h
      rcases List.mem_cons.mp h with h | h
      · right; rw [h, h0]
      · left; exact List.mem_cons_of_mem _ h
    · rw [if_neg h0] at h
      rcases List.mem_cons.mp h with h | h
      · left; rw [h]; exact List.mem_cons_self _ _
      · rcases ih h with h | h
        · left; exact List.mem_cons_of_mem _ h
        · right; exact h

theorem contribution_cons (e : String × ℚ) (rest : List (String × ℚ)) (mood : String) :
    contribution (e :: rest) mood
      = (if e.1 = mood then e.2 else 0) + contribution rest mood := by
  unfold contribution
  by_cases h : e.1 = mood <;> simp [List.filter_cons, h]

theorem contribution_nonneg (entries : List (String × ℚ)) (mood : String)
    (h : ∀ e ∈ entries, 0 < e.2) : 0 ≤ contribution entries mood := by
  induction entries with
  | nil => simp [contribution]
  | cons e rest ih =>
    rw [contribution_cons]
    have h1 := h e (List.mem_cons_self _ _)
    have h2 := ih (fun x hx => h x (List.mem_cons_of_mem _ hx))
    split_ifs <;> linarith

theorem min_add_min (s w : ℚ) (hw : 0 ≤ w) : min (min s 1 + w) 1 = min (s + w) 1 := by
  rcases le_total s 1 with h | h
  · rw [min_eq_left h]
  · rw [min_eq_right h, min_eq_right (by linarith), min_eq_right (by linarith)]

/-- The accumulation loop, stated for any run of updates with positive
weights: a key is present exactly when it received an update, and it holds
the sum of its updates capped at 1. -/
theorem foldl_accumulateEntry_getWeight (entries : List (String × ℚ))
    (hpos : ∀ e ∈ entries, 0 < e.2) (m : MoodMap) (s : String → ℚ)
    (hs : ∀ k, 0 ≤ s k)
    (hm : ∀ k, getWeight m k = if s k = 0 then none else some (min (s k) 1)) (k : String) :
    getWeight (entries.foldl accumulateEntry m) k
      = if s k + contribution entries k = 0 then none
        else some (min (s k + contribution entries k) 1) := by
  induction entries generalizing m s with
  | nil => simpa [contribution] using hm k
  | cons e rest ih =>
    have he := hpos e (List.mem_cons_self _ _)
    have hrest : ∀ x ∈ rest, 0 < x.2 := fun x hx => hpos x (List.mem_cons_of_mem _ hx)
    rw [List.foldl_cons, contribution_cons, ← add_assoc]
    refine ih hrest (accumulateEntry m e) (fun k => s k + if e.1 = k then e.2 else 0) ?_ ?_
    · intro k'
      have := hs k'
      dsimp only
      split_ifs <;> linarith
    · intro k'
      unfold accumulateEntry
      dsimp only
      by_cases hk : e.1 = k'
      · subst hk
        have h0 := hs e.1
        have hne : s e.1 + e.2 ≠ 0 := ne_of_gt (by linarith)
        rw [getWeight_setWeight_same, if_pos rfl, if_neg hne, hm e.1]
        congr 1
        by_cases hz : s e.1 = 0
        · simp [hz]
        · rw [if_neg hz, Option.getD_some, min_add_min _ _ (le_of_lt he)]
      · rw [getWeight_setWeight_other _ _ _ _ (fun hh => hk hh.symm), if_neg hk, add_zero]
        exact hm k'


theorem moodEntries_mem_table (tag : String) :
    moodEntries tag = [] ∨ moodEntries tag ∈ TAG_TO_MOOD_MAPPING.map Prod.snd := by
  unfold moodEntries
  cases h : TAG_TO_MOOD_MAPPING.lookup tag with
  | none => exact Or.inl rfl
  | some l => exact Or.inr (lookup_mem_values _ _ _ h)

theorem moodEntries_pos (tag : String) : ∀ e ∈ moodEntries tag, 0 < e.2 := by
  have hall : ∀ l ∈ TAG_TO_MOOD_MAPPING.map Prod.snd, ∀ e ∈ l, (0 : ℚ) < e.2 := by
    simp only [TAG_TO_MOOD_MAPPING, List.map_cons, List.map_nil, List.mem_cons,
      List.mem_singleton, List.not_mem_nil, or_false, forall_eq_or_imp, forall_eq]
    norm_num
  rcases moodEntries_mem_table tag with h | h
  · rw [h]; simp
  · exact hall _ h

theorem moodEntries_keys_nodup (tag : String) : ((moodEntries tag).map Prod.fst).Nodup := by
  have hall : ∀ l ∈ TAG_TO_MOOD_MAPPING.map Prod.snd, (l.map Prod.fst).Nodup := by decide
  rcases moodEntries_mem_table tag with h | h
  · rw [h]; simp
  · exact hall _ h

theorem moodEntries_keys_moods (tag : String) : ∀ e ∈ moodEntries tag, e.1 ∈ MOODS := by
  have hall : ∀ l ∈ TAG_TO_MOOD_MAPPING.map Prod.snd, ∀ k ∈ l.map Prod.fst, k ∈ MOODS := by
    decide
  rcases moodEntries_mem_table tag with h | h
  · rw [h]; simp
  · intro e he
    exact hall _ h e.1 (List.mem_map_of_mem _ he)

theorem accumulateMoods_eq_foldl (derivedTags : List String) :
    accumulateMoods derivedTags = (derivedTags.flatMap moodEntries).foldl accumulateEntry [] := by
  unfold accumulateMoods
  generalize ([] : MoodMap) = m
  induction derivedTags generalizing m with
  | nil => rfl
  | cons tag rest ih => simp [List.flatMap_cons, List.foldl_append, ih]

theorem contribution_append (l₁ l₂ : List (String × ℚ)) (mood : String) :
    contribution (l₁ ++ l₂) mood = contribution l₁ mood + contribution l₂ mood := by
  simp [contribution]

theorem contribution_eq_lookup (entries : List (String × ℚ)) (mood : String)
    (h : (entries.map Prod.fst).Nodup) :
    contribution entries mood = (entries.lookup mood).getD 0 := by
  induction entries with
  | nil => simp [contribution]
  | cons e rest ih =>
    obtain ⟨k, v⟩ := e
    rw [List.map_cons, List.nodup_cons] at h
    rw [contribution_cons, ih h.2]
    by_cases hk : k = mood
    · subst hk
      have hnone : rest.lookup k = none := by
        cases hl : rest.lookup k with
        | none => rfl
        | some w =>
          exfalso
          apply h.1
          clear ih h
          induction rest with
          | nil => simp at hl
          | cons e' rest' ih' =>
            obtain ⟨k', v'⟩ := e'
            by_cases hkk : k = k'
            · simp [hkk]
            · have hne : (k == k') = false := by simpa using hkk
              rw [List.lookup, hne] at hl
              simp only [List.map_cons, List.mem_cons]
              exact Or.inr (ih' hl)
      simp [List.lookup, hnone]
    · have hne : (mood == k) = false := by simpa using fun hh => hk hh.symm
      simp [List.lookup, hne, hk]

theorem contribution_flatMap (derivedTags : List String) (mood : String) :
    contribution (derivedTags.flatMap moodEntries) mood = totalMoodWeight derivedTags mood := by
  unfold totalMoodWeight
  induction derivedTags with
  | nil => simp [contribution]
  | cons tag rest ih =>
    rw [List.flatMap_cons, contribution_append, ih, List.map_cons, List.sum_cons]
    congr 1
    exact contribution_eq_lookup _ _ (moodEntries_keys_nodup tag)

theorem flatMap_moodEntries_pos (derivedTags : List String) :
    ∀ e ∈ derivedTags.flatMap moodEntries, 0 < e.2 := by
  intro e he
  obtain ⟨tag, _, hmem⟩ := List.mem_flatMap.mp he
  exact moodEntries_pos tag e hmem

/-- The mood object after the accumulation loop: a mood is a key exactly when
the tags give it a positive total weight, and it holds that total capped
at 1. -/
theorem accumulateMoods_getWeight (derivedTags : List String) (mood : String) :
    getWeight (accumulateMoods derivedTags) mood
      = if totalMoodWeight derivedTags mood = 0 then none
        else some (min (totalMoodWeight derivedTags mood) 1) := by
  rw [accumulateMoods_eq_foldl]
  have h := foldl_accumulateEntry_getWeight (derivedTags.flatMap moodEntries)
    (flatMap_moodEntries_pos derivedTags) [] (fun _ => 0) (fun _ => le_refl _)
    (fun k => by simp [getWeight]) mood
  simpa [contribution_flatMap] using h

theorem totalMoodWeight_nonneg (derivedTags : List String) (mood : String) :
    0 ≤ totalMoodWeight derivedTags mood := by
  rw [← contribution_flatMap]
  exact contribution_nonneg _ _ (flatMap_moodEntries_pos derivedTags)


theorem wellFormed_accumulateEntry (m : MoodMap) (e : String × ℚ) (hm : WellFormedMoods m)
    (hk : e.1 ∈ MOODS) (hw : 0 < e.2) : WellFormedMoods (accumulateEntry m e) := by
  obtain ⟨hnd, hall⟩ := hm
  unfold accumulateEntry
  constructor
  · rw [keys_setWeight]
    split_ifs with hmem
    · exact hnd
    · exact List.Nodup.append hnd (List.nodup_singleton _) (by simpa using hmem)
  · intro x hx
    rcases mem_setWeight _ _ _ _ hx with h | h
    · exact hall x h
    · rw [h]
      have hget : 0 ≤ (getWeight m e.1).getD 0 := by
        unfold getWeight
        cases hl : m.lookup e.1 with
        | none => simp
        | some v =>
          obtain ⟨x', hx', hv⟩ := List.mem_map.mp (lookup_mem_values m e.1 v hl)
          rw [Option.getD_some, ← hv]
          exact le_of_lt (hall x' hx').2.1
      exact ⟨hk, lt_min (by linarith) (by norm_num), min_le_right _ _⟩

theorem wellFormed_foldl (entries : List (String × ℚ)) (m : MoodMap) (hm : WellFormedMoods m)
    (h : ∀ e ∈ entries, e.1 ∈ MOODS ∧ 0 < e.2) :
    WellFormedMoods (entries.foldl accumulateEntry m) := by
  induction entries generalizing m with
  | nil => exact hm
  | cons e rest ih =>
    rw [List.foldl_cons]
    have he := h e (List.mem_cons_self _ _)
    exact ih _ (wellFormed_accumulateEntry m e hm he.1 he.2)
      (fun x hx => h x (List.mem_cons_of_mem _ hx))

theorem wellFormed_accumulateMoods (derivedTags : List String) :
    WellFormedMoods (accumulateMoods derivedTags) := by
  rw [accumulateMoods_eq_foldl]
  apply wellFormed_foldl
  · exact ⟨List.nodup_nil, fun e he => absurd he (List.not_mem_nil e)⟩
  · intro e he
    obtain ⟨tag, _, hmem⟩ := List.mem_flatMap.mp he
    exact ⟨moodEntries_keys_moods tag e hmem, moodEntries_pos tag e hmem⟩

theorem foldl_max_eq (values : List ℚ) (a : ℚ) (h : ∀ v ∈ values, v ≤ a) :
    values.foldl max a = a := by
  induction values with
  | nil => rfl
  | cons v rest ih =>
    rw [List.foldl_cons, max_eq_left (h v (List.mem_cons_self _ _))]
    exact ih (fun x hx => h x (List.mem_cons_of_mem _ hx))

theorem maxWeight_of_wellFormed (m : MoodMap) (hm : WellFormedMoods m) : maxWeight m = 1 := by
  unfold maxWeight
  apply foldl_max_eq
  intro v hv
  obtain ⟨e, he, rfl⟩ := List.mem_map.mp hv
  exact (hm.2 e he).2.2

theorem normalizeMoods_of_wellFormed (m : MoodMap) (hm : WellFormedMoods m) :
    normalizeMoods m = m := by
  unfold normalizeMoods
  rw [maxWeight_of_wellFormed m hm]
  conv_rhs => rw [← List.map_id m]
  apply List.map_congr_left
  intro e he
  rw [div_one, min_eq_left (hm.2 e he).2.2]
  rfl

theorem mem_iff_getWeight (m : MoodMap) (hnd : (m.map Prod.fst).Nodup) (k : String) (v : ℚ) :
    (k, v) ∈ m ↔ getWeight m k = some v := by
  unfold getWeight
  induction m with
  | nil => simp
  | cons e rest ih =>
    obtain ⟨k₀, v₀⟩ := e
    rw [List.map_cons, List.nodup_cons] at hnd
    by_cases hk : k = k₀
    · subst hk
      simp only [List.lookup, beq_self_eq_true, List.mem_cons, Prod.mk.injEq, true_and,
        Option.some.injEq]
      constructor
      · rintro (h | h)
        · exact h.symm
        · exact absurd (List.mem_map_of_mem Prod.fst h) hnd.1
      · intro h
        exact Or.inl h.symm
    · have hne : (k == k₀) = false := by simpa using hk
      rw [List.lookup, hne, ← ih hnd.2]
      simp [hk]


/-- On a non-empty tag list `assignMoods` returns the accumulated object. -/
theorem assignMoods_of_tags (film : Film) (tags : List String)
    (h : film.derivedTags = some tags) (hne : tags ≠ []) :
    assignMoods film = accumulateMoods tags := by
  unfold assignMoods
  rw [h]
  cases tags with
  | nil => exact absurd rfl hne
  | cons tag rest => exact normalizeMoods_of_wellFormed _ (wellFormed_accumulateMoods _)

/-- Claim C8 as amended: for every film with a non-empty `derivedTags` list,
every mood weight returned by `assignMoods` lies in `[0, 1]`, and some
returned mood has weight exactly 1 if and only if the table weights of the
film's tags sum to at least 1 for some mood. -/
theorem assignMoods_weights (film : Film) (tags : List String)
    (h : film.derivedTags = some tags) (hne : tags ≠ []) :
    (∀ entry ∈ assignMoods film, 0 ≤ entry.2 ∧ entry.2 ≤ 1) ∧
    ((∃ entry ∈ assignMoods film, entry.2 = 1) ↔ ∃ mood, 1 ≤ totalMoodWeight tags mood) := by
  rw [assignMoods_of_tags film tags h hne]
  have hwf := wellFormed_accumulateMoods tags
  refine ⟨fun e he => ⟨le_of_lt (hwf.2 e he).2.1, (hwf.2 e he).2.2⟩, ?_, ?_⟩
  · rintro ⟨⟨k, v⟩, he, hv⟩
    have hv' : v = 1 := hv
    subst hv'
    have hget := (mem_iff_getWeight _ hwf.1 k 1).mp he
    rw [accumulateMoods_getWeight] at hget
    refine ⟨k, ?_⟩
    split_ifs at hget with h0
    have hmin : min (totalMoodWeight tags k) 1 = 1 := Option.some.inj hget
    by_contra hlt
    rw [min_eq_left (le_of_lt (not_le.mp hlt))] at hmin
    exact hlt (le_of_eq hmin.symm)
  · rintro ⟨mood, hmood⟩
    refine ⟨(mood, 1), ?_, rfl⟩
    rw [mem_iff_getWeight _ hwf.1, accumulateMoods_getWeight,
      if_neg (ne_of_gt (by linarith)), min_eq_right hmood]

/-- Witness of the amended claim C8 on a film with two tags. -/
theorem assignMoods_weights_witness :
    (∀ entry ∈ assignMoods twoTagFilm, 0 ≤ entry.2 ∧ entry.2 ≤ 1) ∧
    ((∃ entry ∈ assignMoods twoTagFilm, entry.2 = 1) ↔
      ∃ mood, 1 ≤ totalMoodWeight ["contemplative", "slow"] mood) :=
  assignMoods_weights twoTagFilm ["contemplative", "slow"] rfl (by simp)

/-- Claim C8 fails as stated: the film whose only tag is `contemplative` has
a non-empty tag list, and no mood returned by `assignMoods` has weight 1 (the
weights are 0.9, 0.5 and 0.3). -/
theorem assignMoods_single_tag :
    singleTagFilm.derivedTags = some ["contemplative"] ∧
    ¬ ∃ entry ∈ assignMoods singleTagFilm, entry.2 = 1 := by
  refine ⟨rfl, ?_⟩
  have hval : assignMoods singleTagFilm
      = [("contemplative", 0.9), ("slow", 0.5), ("existential", 0.3)] := by
    simp [assignMoods, singleTagFilm, normalizeMoods, accumulateMoods, moodEntries,
      TAG_TO_MOOD_MAPPING, accumulateEntry, setWeight, getWeight, maxWeight, List.lookup]
    norm_num
  rw [hval]
  simp
  norm_num

/-- Claim C9: `assignMoods` returns `{contemplative: 0.5}` when `derivedTags`
is absent or empty. For a non-empty tag list, a mood is a key of the result
exactly when the tags give it a non-zero total weight, its value is
`min(1, total)` (so that reading any mood, `0` when absent, gives
`min(1, total)`), every key is one of `MOODS` and no key occurs twice; the
result is the normalisation of the accumulated object, whose divisor
`maxWeight` is exactly 1 and which the normalisation leaves unchanged. -/
theorem assignMoods_spec (film : Film) :
    ((film.derivedTags = none ∨ film.derivedTags = some []) →
      assignMoods film = [("contemplative", 0.5)]) ∧
    (∀ tags, film.derivedTags = some tags → tags ≠ [] →
      (∀ mood, getWeight (assignMoods film) mood
          = if totalMoodWeight tags mood = 0 then none
            else some (min 1 (totalMoodWeight tags mood))) ∧
      (∀ mood, (getWeight (assignMoods film) mood).getD 0 = min 1 (totalMoodWeight tags mood)) ∧
      (∀ entry ∈ assignMoods film, entry.1 ∈ MOODS) ∧
      ((assignMoods film).map Prod.fst).Nodup ∧
      assignMoods film = normalizeMoods (accumulateMoods tags) ∧
      maxWeight (accumulateMoods tags) = 1 ∧
      normalizeMoods (accumulateMoods tags) = accumulateMoods tags) := by
  constructor
  · rintro (h | h) <;> simp [assignMoods, h]
  · intro tags h hne
    have hwf := wellFormed_accumulateMoods tags
    have heq := assignMoods_of_tags film tags h hne
    have hnorm := normalizeMoods_of_wellFormed _ hwf
    have hget : ∀ mood, getWeight (assignMoods film) mood
        = if totalMoodWeight tags mood = 0 then none
          else some (min 1 (totalMoodWeight tags mood)) := by
      intro mood
      rw [heq, accumulateMoods_getWeight, min_comm]
    refine ⟨hget, ?_, ?_, ?_, ?_, maxWeight_of_wellFormed _ hwf, hnorm⟩
    · intro mood
      rw [hget mood]
      split_ifs with h0
      · simp [h0]
      · rfl
    · rw [heq]
      exact fun e he => (hwf.2 e he).1
    · rw [heq]
      exact hwf.1
    · rw [hnorm, heq]

/-- Witness of claim C9 on a film with two tags. -/
theorem assignMoods_spec_witness :
    (∀ mood, getWeight (assignMoods twoTagFilm) mood
        = if totalMoodWeight ["contemplative", "slow"] mood = 0 then none
          else some (min 1 (totalMoodWeight ["contemplative", "slow"] mood))) ∧
    maxWeight (accumulateMoods ["contemplative", "slow"]) = 1 :=
  have h := (assignMoods_spec twoTagFilm).2 ["contemplative", "slow"] rfl (by simp)
  ⟨h.1, h.2.2.2.2.2.1⟩

/-- Claim C10: for a tag list `t` and a permutation `t'` of it,
`assignMoods({derivedTags: t})` and `assignMoods({derivedTags: t'})` are the
same mapping: every mood reads the same weight in both, and they have the
same entries. -/
theorem assignMoods_order_independent (t t' : List String) (h : t.Perm t') :
    (∀ mood, getWeight (assignMoods { derivedTags := some t }) mood
      = getWeight (assignMoods { derivedTags := some t' }) mood) ∧
    (∀ entry, entry ∈ assignMoods { derivedTags := some t }
      ↔ entry ∈ assignMoods { derivedTags := some t' }) := by
  have hlookup : ∀ mood, getWeight (assignMoods { derivedTags := some t }) mood
      = getWeight (assignMoods { derivedTags := some t' }) mood := by
    intro mood
    by_cases hne : t = []
    · subst hne
      rw [List.nil_perm.mp h]
    · have hne' : t' ≠ [] := fun h' => hne (List.perm_nil.mp (h' ▸ h))
      rw [assignMoods_of_tags _ t rfl hne, assignMoods_of_tags _ t' rfl hne',
        accumulateMoods_getWeight, accumulateMoods_getWeight]
      have hsum : totalMoodWeight t mood = totalMoodWeight t' mood :=
        (h.map _).sum_eq
      rw [hsum]
  have hnd : ∀ tags : List String,
      ((assignMoods { derivedTags := some tags }).map Prod.fst).Nodup := by
    intro tags
    by_cases hne : tags = []
    · subst hne
      simp [assignMoods]
    · rw [assignMoods_of_tags _ tags rfl hne]
      exact (wellFormed_accumulateMoods tags).1
  refine ⟨hlookup, ?_⟩
  rintro ⟨k, v⟩
  rw [mem_iff_getWeight _ (hnd t), mem_iff_getWeight _ (hnd t'), hlookup k]

/-- Witness of claim C10 on two tags and their swap. -/
theorem assignMoods_order_independent_witness :
    (∀ mood, getWeight (assignMoods { derivedTags := some ["contemplative", "slow"] }) mood
      = getWeight (assignMoods { derivedTags := some ["slow", "contemplative"] }) mood) ∧
    (∀ entry, entry ∈ assignMoods { derivedTags := some ["contemplative", "slow"] }
      ↔ entry ∈ assignMoods { derivedTags := some ["slow", "contemplative"] }) :=
  assignMoods_order_independent ["contemplative", "slow"] ["slow", "contemplative"]
    (List.Perm.swap _ _ _)

/-! ## Mood match (`getMoodMatch`) -/

/-- The early returns of `getMoodMatch`: the result is `0` when the film moods
are absent or have no key, or when the selected moods are absent or empty. -/
theorem getMoodMatch_zero_cases (filmMoods : Option MoodMap)
    (selectedMoods : Option (List String))
    (h : filmMoods = none ∨ filmMoods = some [] ∨ selectedMoods = none ∨ selectedMoods = some []) :
    getMoodMatch filmMoods selectedMoods = some 0 := by
  unfold getMoodMatch
  rcases h with h | h | h | h
  · rw [h]
  · rw [h]; rfl
  · rw [h]
    cases filmMoods with
    | none => rfl
    | some m => dsimp only; split_ifs <;> rfl
  · rw [h]
    cases filmMoods with
    | none => rfl
    | some m => simp

/-- A selected mood that is not the name of an inherited property adds the
film's weight for it, `0` when it is absent. -/
theorem addMoodWeight_of_not_inherited (filmMoods : MoodMap) (total : ℚ) (mood : String)
    (h : mood ∉ OBJECT_PROTOTYPE_KEYS) :
    addMoodWeight filmMoods (some total) mood
      = some (total + moodWeightOrZero filmMoods mood) := by
  unfold addMoodWeight readMood moodWeightOrZero
  cases filmMoods.lookup mood with
  | none => simp [h]
  | some w => simp

theorem foldl_addMoodWeight (filmMoods : MoodMap) (selectedMoods : List String)
    (h : ∀ mood ∈ selectedMoods, mood ∉ OBJECT_PROTOTYPE_KEYS) (total : ℚ) :
    selectedMoods.foldl (addMoodWeight filmMoods) (some total)
      = some (total + (selectedMoods.map (moodWeightOrZero filmMoods)).sum) := by
  induction selectedMoods generalizing total with
  | nil => simp
  | cons mood rest ih =>
    rw [List.foldl_cons, addMoodWeight_of_not_inherited _ _ _ (h mood (List.mem_cons_self _ _)),
      ih (fun m hm => h m (List.mem_cons_of_mem _ hm)), List.map_cons, List.sum_cons, add_assoc]

/-- When no selected mood is the name of an inherited property, and neither
side is empty, `getMoodMatch` is the quotient of the specification. -/
theorem getMoodMatch_of_own_moods (filmMoods : MoodMap) (selectedMoods : List String)
    (hf : filmMoods ≠ []) (hs : selectedMoods ≠ [])
    (h : ∀ mood ∈ selectedMoods, mood ∉ OBJECT_PROTOTYPE_KEYS) :
    getMoodMatch (some filmMoods) (some selectedMoods)
      = some (specMoodMatch filmMoods selectedMoods) := by
  unfold getMoodMatch specMoodMatch
  have hf' : ¬ filmMoods.length = 0 := fun h0 => hf (List.length_eq_zero.mp h0)
  have hs' : ¬ selectedMoods.length = 0 := fun h0 => hs (List.length_eq_zero.mp h0)
  simp only [hf', hs', if_false]
  rw [foldl_addMoodWeight _ _ h 0]
  simp

/-- When every film weight lies in `[0, 1]`, so does the quotient of the
specification. -/
theorem specMoodMatch_range (filmMoods : MoodMap) (selectedMoods : List String)
    (hw : ∀ entry ∈ filmMoods, 0 ≤ entry.2 ∧ entry.2 ≤ 1) :
    0 ≤ specMoodMatch filmMoods selectedMoods ∧ specMoodMatch filmMoods selectedMoods ≤ 1 := by
  have hone : ∀ mood, 0 ≤ moodWeightOrZero filmMoods mood ∧ moodWeightOrZero filmMoods mood ≤ 1 := by
    intro mood
    unfold moodWeightOrZero
    cases hl : filmMoods.lookup mood with
    | none => simp
    | some w =>
      obtain ⟨e, he, hew⟩ := List.mem_map.mp (lookup_mem_values filmMoods mood w hl)
      rw [Option.getD_some, ← hew]
      exact hw e he
  have hsum : 0 ≤ (selectedMoods.map (moodWeightOrZero filmMoods)).sum ∧
      (selectedMoods.map (moodWeightOrZero filmMoods)).sum ≤ (selectedMoods.length : ℚ) := by
    induction selectedMoods with
    | nil => simp
    | cons mood rest ih =>
      have h1 := hone mood
      simp only [List.map_cons, List.sum_cons, List.length_cons, Nat.cast_add, Nat.cast_one]
      constructor <;> linarith [ih.1, ih.2, h1.1, h1.2]
  unfold specMoodMatch
  rcases Nat.eq_zero_or_pos selectedMoods.length with h0 | hpos
  · rw [h0]; simp
  · have hq : (0 : ℚ) < (selectedMoods.length : ℚ) := by exact_mod_cast hpos
    exact ⟨div_nonneg hsum.1 (le_of_lt hq), (div_le_one hq).mpr hsum.2⟩

/-- Claim C11, evaluated at the call
`getMoodMatch({contemplative: 0.9}, ['constructor'])`: the film moods have one
key and their weights lie in `[0, 1]`, the film has no weight for the
selected mood, so that the claim gives `0 / 1 = 0`; the read
`filmMoods['constructor']` finds the inherited constructor function, `+=`
turns `totalMatch` into a string, and the result is `NaN`. -/
theorem getMoodMatch_inherited_mood :
    inheritedMoodObject.length = 1 ∧
    (∀ entry ∈ inheritedMoodObject, 0 ≤ entry.2 ∧ entry.2 ≤ 1) ∧
    specMoodMatch inheritedMoodObject ["constructor"] = 0 ∧
    getMoodMatch (some inheritedMoodObject) (some ["constructor"]) = none := by
  refine ⟨rfl, ?_, ?_, ?_⟩
  · intro entry he
    simp only [inheritedMoodObject, List.mem_singleton] at he
    subst he
    norm_num
  · simp [specMoodMatch, moodWeightOrZero, inheritedMoodObject, List.lookup]
  · decide


/-! ## Discovery engine: noise, decade influence, recency -/

/-- Claim C12: for a seeded generator whose first output lies in `[0, 1)`,
`getRotationNoise(s)` is `6 * rng(s) - 3`, the same for the same seed, and
lies in `[-3, 3]`; `calculateExploreScore` adds a tenth of the noise of the
seed `date + film._id` to a part that does not depend on the seed, and for a
fixed date two films with the same id have the same noise. -/
theorem getRotationNoise_spec {K : Type} [LinearOrderedField K] (seedrandom : String → K)
    (hrange : ∀ seed, 0 ≤ seedrandom seed ∧ seedrandom seed < 1) (log : K → K) :
    (∀ seed, getRotationNoise seedrandom seed = 6 * seedrandom seed - 3) ∧
    (∀ seed seed', seed = seed' →
      getRotationNoise seedrandom seed = getRotationNoise seedrandom seed') ∧
    (∀ seed, -3 ≤ getRotationNoise seedrandom seed ∧ getRotationNoise seedrandom seed ≤ 3) ∧
    (∀ (film : Film) (date : String) (year : Int), film.year = some year →
      calculateExploreScore seedrandom log film date
        = some (exploreBase log film year
            + 0.10 * getRotationNoise seedrandom (date ++ film._id))) ∧
    (∀ (film film' : Film) (date : String), film._id = film'._id →
      getRotationNoise seedrandom (date ++ film._id)
        = getRotationNoise seedrandom (date ++ film'._id)) := by
  refine ⟨fun seed => ?_, fun seed seed' h => by rw [h], fun seed => ?_, ?_, ?_⟩
  · unfold getRotationNoise
    ring
  · unfold getRotationNoise
    have h := hrange seed
    constructor <;> linarith [h.1, h.2]
  · intro film date year hy
    unfold calculateExploreScore exploreBase
    rw [hy]
  · intro film film' date h
    rw [h]

/-- Witness of claim C12 for a generator that always draws one half. -/
theorem getRotationNoise_spec_witness :
    (∀ seed, -3 ≤ getRotationNoise constantGenerator seed ∧
      getRotationNoise constantGenerator seed ≤ 3) ∧
    (∀ (film film' : Film) (date : String), film._id = film'._id →
      getRotationNoise constantGenerator (date ++ film._id)
        = getRotationNoise constantGenerator (date ++ film'._id)) :=
  have h := getRotationNoise_spec constantGenerator
    (fun _ => by unfold constantGenerator; norm_num) (fun x => x / 2)
  ⟨h.2.2.1, h.2.2.2.2⟩

/-- A maximum that is attained in the list and dominates the start value is
the result of the fold. -/
theorem foldl_max_attained (values : List ℚ) (a b : ℚ) (hb : b ∈ values)
    (hall : ∀ v ∈ values, v ≤ b) (ha : a ≤ b) : values.foldl max a = b := by
  induction values generalizing a with
  | nil => exact absurd hb (List.not_mem_nil b)
  | cons v rest ih =>
    rw [List.foldl_cons]
    have hv := hall v (List.mem_cons_self _ _)
    have hrest : ∀ x ∈ rest, x ≤ b := fun x hx => hall x (List.mem_cons_of_mem _ hx)
    rcases List.mem_cons.mp hb with h | h
    · rw [← h, max_eq_right (h ▸ ha)]
      exact foldl_max_eq rest b (fun x hx => hrest x hx)
    · exact ih (max a v) h hrest (max_le ha hv)

theorem maxInDecade_of_max (film : Film) (decadeFilms : List Film) (hmem : film ∈ decadeFilms)
    (hmax : ∀ other ∈ decadeFilms,
      other.baseCanonScore.getD 0 ≤ film.baseCanonScore.getD 0)
    (h1 : 1 ≤ film.baseCanonScore.getD 0) :
    maxInDecade decadeFilms = film.baseCanonScore.getD 0 := by
  unfold maxInDecade
  apply foldl_max_attained
  · exact List.mem_map.mpr ⟨film, hmem, rfl⟩
  · intro v hv
    obtain ⟨other, hother, rfl⟩ := List.mem_map.mp hv
    exact hmax other hother
  · exact h1

theorem maxInDecade_of_small (decadeFilms : List Film)
    (hsmall : ∀ other ∈ decadeFilms, other.baseCanonScore.getD 0 ≤ 1) :
    maxInDecade decadeFilms = 1 := by
  unfold maxInDecade
  apply foldl_max_eq
  intro v hv
  obtain ⟨other, hother, rfl⟩ := List.mem_map.mp hv
  exact hsmall other hother

/-- Claim C13 as amended: for a film of a decade set whose base canon score is
the maximum of the set, `influenceWithinDecade` is 100, and the decade score
is `0.70 * baseCanonScore + 20 + 0.10 * movementBonus`, provided the maximum
is at least 1; when the maximum is at most 1 the divisor is the guard value 1
and `influenceWithinDecade` is `100 * baseCanonScore`. -/
theorem influenceWithinDecade_of_max (film : Film) (decadeFilms : List Film)
    (hmem : film ∈ decadeFilms)
    (hmax : ∀ other ∈ decadeFilms,
      other.baseCanonScore.getD 0 ≤ film.baseCanonScore.getD 0) :
    (1 ≤ film.baseCanonScore.getD 0 →
      influenceWithinDecade film decadeFilms = 100 ∧
      calculateDecadeScore film decadeFilms
        = 0.70 * film.baseCanonScore.getD 0 + 20 + 0.10 * movementBonus film) ∧
    (film.baseCanonScore.getD 0 ≤ 1 →
      influenceWithinDecade film decadeFilms = 100 * film.baseCanonScore.getD 0) := by
  constructor
  · intro h1
    have hdiv : influenceWithinDecade film decadeFilms = 100 := by
      unfold influenceWithinDecade
      rw [maxInDecade_of_max film decadeFilms hmem hmax h1]
      have hne : film.baseCanonScore.getD 0 ≠ 0 := ne_of_gt (by linarith)
      simp [div_self hne]
    refine ⟨hdiv, ?_⟩
    unfold calculateDecadeScore
    rw [hdiv]
    norm_num
  · intro h1
    unfold influenceWithinDecade
    rw [maxInDecade_of_small decadeFilms (fun other ho => le_trans (hmax other ho) h1)]
    simp
    ring

/-- Witness of the amended claim C13 on a decade set of two films. -/
theorem influenceWithinDecade_of_max_witness :
    influenceWithinDecade canonicalFilm [zeroScoreFilm, canonicalFilm] = 100 ∧
    calculateDecadeScore canonicalFilm [zeroScoreFilm, canonicalFilm]
      = 0.70 * canonicalFilm.baseCanonScore.getD 0 + 20 + 0.10 * movementBonus canonicalFilm :=
  (influenceWithinDecade_of_max canonicalFilm [zeroScoreFilm, canonicalFilm] (by simp)
    (by
      intro other ho
      simp only [List.mem_cons, List.mem_singleton, List.not_mem_nil, or_false] at ho
      rcases ho with h | h <;> subst h <;> simp [zeroScoreFilm, canonicalFilm])).1
    (by simp [canonicalFilm])

/-- Claim C13 fails as stated: in the decade set made of one film whose base
canon score is 0, that film has the maximum score of the set and its
`influenceWithinDecade` is 0, not 100. -/
theorem influenceWithinDecade_zero_scores :
    zeroScoreFilm ∈ [zeroScoreFilm] ∧
    (∀ other ∈ [zeroScoreFilm],
      other.baseCanonScore.getD 0 ≤ zeroScoreFilm.baseCanonScore.getD 0) ∧
    influenceWithinDecade zeroScoreFilm [zeroScoreFilm] = 0 := by
  refine ⟨List.mem_singleton.mpr rfl, ?_, ?_⟩
  · intro other ho
    rw [List.mem_singleton.mp ho]
  · simp [influenceWithinDecade, zeroScoreFilm]

/-- Claim C15: for every year `y`, `calculateRecencyBoost(y)` is
`clamp(100 * (y - 2015) / 10, 0, 100)`; it is 0 for `y ≤ 2015`, 100 for
`y ≥ 2025`, `10 * (y - 2015)` in between, 50 at 2020, and it is non-decreasing
in `y`. -/
theorem calculateRecencyBoost_spec {K : Type} [LinearOrderedField K] (y : K) :
    calculateRecencyBoost y = max 0 (min 100 (100 * (y - 2015) / 10)) ∧
    (y ≤ 2015 → calculateRecencyBoost y = 0) ∧
    (2025 ≤ y → calculateRecencyBoost y = 100) ∧
    (2015 ≤ y → y ≤ 2025 → calculateRecencyBoost y = 10 * (y - 2015)) ∧
    calculateRecencyBoost (2020 : K) = 50 ∧
    (∀ y' : K, y ≤ y' → calculateRecencyBoost y ≤ calculateRecencyBoost y') := by
  have hform : ∀ z : K, calculateRecencyBoost z = max 0 (min 100 (10 * (z - 2015))) := by
    intro z
    unfold calculateRecencyBoost
    have : (100 : K) * (z - 2015) / (2025 - 2015) = 10 * (z - 2015) := by
      norm_num
      ring
    simp only [this]
  refine ⟨?_, ?_, ?_, ?_, ?_, ?_⟩
  · rw [hform]
    congr 2
    ring
  · intro h
    rw [hform]
    exact max_eq_left (le_trans (min_le_right _ _) (by linarith))
  · intro h
    rw [hform, min_eq_left (by linarith)]
    exact max_eq_right (by norm_num)
  · intro h1 h2
    rw [hform, min_eq_right (by linarith)]
    exact max_eq_right (by linarith)
  · rw [hform]
    norm_num
  · intro y' h
    rw [hform, hform]
    exact max_le_max (le_refl _) (min_le_min (le_refl _) (by linarith))

/-- Witness of claim C15 at the year 2022. -/
theorem calculateRecencyBoost_spec_witness :
    calculateRecencyBoost (2022 : ℚ) = 10 * (2022 - 2015) :=
  (calculateRecencyBoost_spec (2022 : ℚ)).2.2.2.1 (by norm_num) (by norm_num)


/-! ## Discovery engine: rarity boost -/

/-- The rarity boost without its local definition. -/
theorem calculateRarityBoost_eq {K : Type} [LinearOrderedField K] (log : K → K) (x : K) :
    calculateRarityBoost log x = max 0 (min 100 (100 / log (x + 2))) := rfl

theorem log_two_pos_lt_one : 0 < Real.log 2 ∧ Real.log 2 < 1 := by
  constructor
  · exact Real.log_pos (by norm_num)
  · have := Real.log_two_lt_d9
    linarith

theorem one_lt_log_of_three_le (x : ℝ) (h : 3 ≤ x) : 1 < Real.log x := by
  have hpos : (0 : ℝ) < x := by linarith
  rw [Real.lt_log_iff_exp_lt hpos]
  have := Real.exp_one_lt_d9
  linarith

/-- With the real logarithm, the rarity boost of a count of at least 1 is the
unclamped quotient, below 100. -/
theorem calculateRarityBoost_of_one_le (x : ℝ) (h : 1 ≤ x) :
    calculateRarityBoost Real.log x = 100 / Real.log (x + 2) ∧
    calculateRarityBoost Real.log x < 100 := by
  have hlog := one_lt_log_of_three_le (x + 2) (by linarith)
  have hlt : 100 / Real.log (x + 2) < 100 := by
    rw [div_lt_iff₀ (by linarith)]
    linarith
  have hpos : 0 < 100 / Real.log (x + 2) := div_pos (by norm_num) (by linarith)
  have heq : calculateRarityBoost Real.log x = 100 / Real.log (x + 2) := by
    rw [calculateRarityBoost_eq, min_eq_right (le_of_lt hlt), max_eq_right (le_of_lt hpos)]
  exact ⟨heq, heq ▸ hlt⟩

/-- With the real logarithm, the rarity boost of a film never shown is 100. -/
theorem calculateRarityBoost_zero : calculateRarityBoost Real.log 0 = 100 := by
  rw [calculateRarityBoost_eq]
  have h := log_two_pos_lt_one
  have hge : (100 : ℝ) ≤ 100 / Real.log (0 + 2) := by
    rw [zero_add, le_div_iff₀ h.1]
    linarith [h.2]
  rw [min_eq_left hge]
  exact max_eq_right (by norm_num)

/-- Claim C16, with the real logarithm: for every show count `≥ 0`,
`calculateRarityBoost(showCount)` is `clamp(100 / ln(showCount + 2), 0, 100)`
and lies in `(0, 100]`; it is 100 at 0; and over the non-negative integers a
larger show count gives a strictly smaller boost. -/
theorem calculateRarityBoost_spec (showCount : ℝ) (h : 0 ≤ showCount) :
    calculateRarityBoost Real.log showCount
      = max 0 (min 100 (100 / Real.log (showCount + 2))) ∧
    0 < calculateRarityBoost Real.log showCount ∧
    calculateRarityBoost Real.log showCount ≤ 100 ∧
    calculateRarityBoost Real.log 0 = 100 ∧
    (∀ n m : ℕ, n < m →
      calculateRarityBoost Real.log (m : ℝ) < calculateRarityBoost Real.log (n : ℝ)) := by
  refine ⟨rfl, ?_, ?_, calculateRarityBoost_zero, ?_⟩
  · rw [calculateRarityBoost_eq]
    have hlog : 0 < Real.log (showCount + 2) := Real.log_pos (by linarith)
    have hq : 0 < 100 / Real.log (showCount + 2) := div_pos (by norm_num) hlog
    exact lt_max_of_lt_right (lt_min (by norm_num) hq)
  · rw [calculateRarityBoost_eq]
    exact max_le (by norm_num) (min_le_left _ _)
  · intro n m hnm
    have hm1 : (1 : ℝ) ≤ (m : ℝ) := by exact_mod_cast (Nat.succ_le_of_lt (Nat.lt_of_le_of_lt (Nat.zero_le n) hnm))
    obtain ⟨hm, hmlt⟩ := calculateRarityBoost_of_one_le (m : ℝ) hm1
    rcases Nat.eq_zero_or_pos n with h0 | hpos
    · subst h0
      rw [Nat.cast_zero, calculateRarityBoost_zero]
      exact hmlt
    · have hn1 : (1 : ℝ) ≤ (n : ℝ) := by exact_mod_cast hpos
      obtain ⟨hn, _⟩ := calculateRarityBoost_of_one_le (n : ℝ) hn1
      rw [hm, hn]
      have hlogn : 0 < Real.log ((n : ℝ) + 2) := Real.log_pos (by linarith)
      have hlt : Real.log ((n : ℝ) + 2) < Real.log ((m : ℝ) + 2) := by
        apply Real.log_lt_log (by linarith)
        have : (n : ℝ) < (m : ℝ) := by exact_mod_cast hnm
        linarith
      exact div_lt_div_of_pos_left (by norm_num) hlogn hlt

/-- Witness of claim C16 at a show count of 3. -/
theorem calculateRarityBoost_spec_witness :
    0 < calculateRarityBoost Real.log 3 ∧ calculateRarityBoost Real.log 3 ≤ 100 :=
  have h := calculateRarityBoost_spec 3 (by norm_num)
  ⟨h.2.1, h.2.2.1⟩


/-! ## Discovery controller: mood and combined rankings -/

/-- An entry is kept exactly when it was scored with a number of at least
30. -/
theorem mem_keepAboveThreshold {K : Type} [LinearOrderedField K]
    (scored : List (Film × Option K)) (entry : Film × K) :
    entry ∈ keepAboveThreshold scored ↔ (entry.1, some entry.2) ∈ scored ∧ 30 ≤ entry.2 := by
  unfold keepAboveThreshold
  rw [List.mem_filterMap]
  constructor
  · rintro ⟨⟨film, score⟩, hmem, h⟩
    cases score with
    | none => simp at h
    | some value =>
      dsimp only at h
      split_ifs at h with hge
      · cases h
        exact ⟨hmem, hge⟩
  · rintro ⟨hmem, hge⟩
    exact ⟨(entry.1, some entry.2), hmem, by simp [hge]⟩

/-- The films kept by the threshold are the films whose score passes it. -/
theorem keepAboveThreshold_films {K : Type} [LinearOrderedField K] (items : List Film)
    (score : Film → Option K) :
    (keepAboveThreshold (items.map (fun film => (film, score film)))).map Prod.fst
      = items.filter (fun film => passesThreshold (score film)) := by
  induction items with
  | nil => rfl
  | cons film rest ih =>
    unfold keepAboveThreshold at ih ⊢
    rw [List.map_cons, List.filterMap_cons, List.filter_cons]
    cases hs : score film with
    | none => simpa [passesThreshold] using ih
    | some value =>
      by_cases hge : 30 ≤ value
      · simpa [passesThreshold, hge] using ih
      · simpa [passesThreshold, hge] using ih

/-- The ranking pipeline of the mood and combined endpoints: filter at 30,
then sort by descending score. -/
theorem ranking_spec {K : Type} [LinearOrderedField K] (items : List Film)
    (score : Film → Option K) :
    ((sortByScore (keepAboveThreshold (items.map (fun film => (film, score film))))).map
        Prod.fst).Perm (items.filter (fun film => passesThreshold (score film))) ∧
    (sortByScore (keepAboveThreshold (items.map (fun film => (film, score film))))).Pairwise
        (fun a b => b.2 ≤ a.2) ∧
    (∀ entry ∈ sortByScore (keepAboveThreshold (items.map (fun film => (film, score film)))),
        entry.1 ∈ items ∧ score entry.1 = some entry.2 ∧ 30 ≤ entry.2) := by
  refine ⟨?_, ?_, ?_⟩
  · rw [← keepAboveThreshold_films]
    exact (List.perm_insertionSort _ _).map _
  · haveI : IsTotal (Film × K) (fun a b => b.2 ≤ a.2) := ⟨fun a b => le_total b.2 a.2⟩
    haveI : IsTrans (Film × K) (fun a b => b.2 ≤ a.2) := ⟨fun a b c hab hbc => le_trans hbc hab⟩
    exact List.sorted_insertionSort _ _
  · intro entry he
    have hk := (mem_keepAboveThreshold _ entry).mp ((List.mem_insertionSort _).mp he)
    obtain ⟨film, hfilm, heq⟩ := List.mem_map.mp hk.1
    have h1 : film = entry.1 := congrArg Prod.fst heq
    have h2 : score film = some entry.2 := congrArg Prod.snd heq
    subst h1
    exact ⟨hfilm, h2, hk.2⟩

/-- Converting the moods to a plain object beforehand does not change the
mood score. -/
theorem calculateMoodScore_filmWithMoods {K : Type} [LinearOrderedField K] (log : K → K)
    (film : Film) (selectedMoods : Option (List String)) :
    calculateMoodScore log (filmWithMoods film) selectedMoods
      = calculateMoodScore log film selectedMoods := rfl

/-! ## Base canon score: formula, override, auteur importance -/

/-- The historical importance is the formula of the specification. -/
theorem calculateHistoricalImportance_eq_spec (film : Film) :
    calculateHistoricalImportance film = specHistoricalImportance film := by
  unfold calculateHistoricalImportance specHistoricalImportance specTierBase specAgeBonus
  cases film.festivalWins <;> cases film.year <;>
    simp only [Option.getD_some, Option.getD_none, List.length_nil] <;>
    split_ifs <;> omega

/-- The method `includes` holds exactly when the needle is a contiguous part
of the haystack. -/
theorem stringIncludes_iff (haystack needle : String) :
    stringIncludes haystack needle = true ↔ List.IsInfix needle.toList haystack.toList := by
  unfold stringIncludes
  rw [List.any_eq_true]
  constructor
  · rintro ⟨rest, hrest, hpre⟩
    exact List.infix_iff_prefix_suffix.mpr
      ⟨rest, List.isPrefixOf_iff_prefix.mp hpre, (List.mem_tails _ _).mp hrest⟩
  · intro h
    obtain ⟨rest, hpre, hsuf⟩ := List.infix_iff_prefix_suffix.mp h
    exact ⟨rest, (List.mem_tails _ _).mpr hsuf, List.isPrefixOf_iff_prefix.mpr hpre⟩

theorem any_stringIncludes_iff (names : List String) (director : String) :
    names.any (fun name => stringIncludes director name) = true
      ↔ ∃ name ∈ names, List.IsInfix name.toList director.toList := by
  rw [List.any_eq_true]
  constructor
  · rintro ⟨name, hmem, h⟩
    exact ⟨name, hmem, (stringIncludes_iff _ _).mp h⟩
  · rintro ⟨name, hmem, h⟩
    exact ⟨name, hmem, (stringIncludes_iff _ _).mpr h⟩

/-- Claim C19: `calculateAuteurImportance` is 25 when the directors are absent
or empty; otherwise it is 100 if the name of the first director contains an
entry of `MASTER_AUTEURS` as a substring, else 75 if it contains an entry of
`ESTABLISHED_AUTEURS`, else 50. A name containing a master entry gives 100
whatever else it contains, and two films with the same first director have
the same value whatever directors follow. -/
theorem calculateAuteurImportance_spec (film : Film) :
    calculateAuteurImportance film = specAuteurImportance film ∧
    ((film.directors = none ∨ film.directors = some []) → calculateAuteurImportance film = 25) ∧
    (∀ first rest, film.directors = some (first :: rest) →
      (∃ master ∈ MASTER_AUTEURS, List.IsInfix master.toList first.toList) →
      calculateAuteurImportance film = 100) ∧
    (∀ first rest rest' (other : Film), film.directors = some (first :: rest) →
      other.directors = some (first :: rest') →
      calculateAuteurImportance other = calculateAuteurImportance film) := by
  have hspec : ∀ f : Film, calculateAuteurImportance f = specAuteurImportance f := by
    intro f
    unfold calculateAuteurImportance specAuteurImportance
    cases f.directors with
    | none => rfl
    | some l =>
      cases l with
      | nil => rfl
      | cons first rest =>
        simp only [any_stringIncludes_iff]
  refine ⟨hspec film, ?_, ?_, ?_⟩
  · rintro (h | h) <;> simp [calculateAuteurImportance, h]
  · intro first rest h hm
    rw [hspec]
    unfold specAuteurImportance
    rw [h]
    exact if_pos hm
  · intro first rest rest' other h ho
    unfold calculateAuteurImportance
    rw [h, ho]

/-- Witness of claim C19 on a film with a master auteur listed first. -/
theorem calculateAuteurImportance_spec_witness :
    calculateAuteurImportance masterAuteurFilm = 100 :=
  (calculateAuteurImportance_spec masterAuteurFilm).2.2.1 "Andrei Tarkovsky" ["David Lynch"] rfl
    (by decide)

theorem storedOr_of_ne_zero (v : ℚ) (computed : Int) (hv : v ≠ 0) :
    storedOr (some v) computed = v := by
  unfold storedOr
  simp [hv]

theorem storedOr_of_absent_or_zero (stored : Option ℚ) (computed : Int)
    (h : stored = none ∨ stored = some 0) : storedOr stored computed = (computed : ℚ) := by
  rcases h with h | h <;> rw [h] <;> simp [storedOr]

/-- Claim C18 as amended: when the record carries a formal innovation `v` that
is not zero, `calculateBaseCanonScore` uses `v` as the formal-innovation term
and the score does not depend on the derived tags and genres, the only
inputs of the heuristic that no other term reads; when it carries a cultural
influence `v` that is not zero, `v` is the cultural-influence term. A field
that is absent or zero (the default of the schema) is not pre-populated: the
term is the heuristic. -/
theorem calculateBaseCanonScore_prepopulated (film : Film) :
    (∀ v : ℚ, film.formalInnovation = some v → v ≠ 0 →
      calculateBaseCanonScore film = (calculateCriticalConsensus film).map (fun cc =>
        mathRound (min (0.35 * cc + 0.25 * (calculateHistoricalImportance film : ℚ)
          + 0.20 * (calculateAuteurImportance film : ℚ) + 0.10 * v
          + 0.10 * storedOr film.culturalInfluence (calculateCulturalInfluence film)) 100)) ∧
      ∀ tags genres, calculateBaseCanonScore { film with derivedTags := tags, genres := genres }
        = calculateBaseCanonScore film) ∧
    (∀ v : ℚ, film.culturalInfluence = some v → v ≠ 0 →
      calculateBaseCanonScore film = (calculateCriticalConsensus film).map (fun cc =>
        mathRound (min (0.35 * cc + 0.25 * (calculateHistoricalImportance film : ℚ)
          + 0.20 * (calculateAuteurImportance film : ℚ)
          + 0.10 * storedOr film.formalInnovation (calculateFormalInnovation film)
          + 0.10 * v) 100))) ∧
    ((film.formalInnovation = none ∨ film.formalInnovation = some 0) →
      calculateBaseCanonScore film = (calculateCriticalConsensus film).map (fun cc =>
        mathRound (min (0.35 * cc + 0.25 * (calculateHistoricalImportance film : ℚ)
          + 0.20 * (calculateAuteurImportance film : ℚ)
          + 0.10 * (calculateFormalInnovation film : ℚ)
          + 0.10 * storedOr film.culturalInfluence (calculateCulturalInfluence film)) 100))) ∧
    ((film.culturalInfluence = none ∨ film.culturalInfluence = some 0) →
      calculateBaseCanonScore film = (calculateCriticalConsensus film).map (fun cc =>
        mathRound (min (0.35 * cc + 0.25 * (calculateHistoricalImportance film : ℚ)
          + 0.20 * (calculateAuteurImportance film : ℚ)
          + 0.10 * storedOr film.formalInnovation (calculateFormalInnovation film)
          + 0.10 * (calculateCulturalInfluence film : ℚ)) 100))) := by
  have hform : ∀ f : Film, calculateBaseCanonScore f = (calculateCriticalConsensus f).map
      (fun cc => mathRound (min (0.35 * cc + 0.25 * (calculateHistoricalImportance f : ℚ)
          + 0.20 * (calculateAuteurImportance f : ℚ)
          + 0.10 * storedOr f.formalInnovation (calculateFormalInnovation f)
          + 0.10 * storedOr f.culturalInfluence (calculateCulturalInfluence f)) 100)) := by
    intro f
    unfold calculateBaseCanonScore
    cases calculateCriticalConsensus f <;> rfl
  refine ⟨?_, ?_, ?_, ?_⟩
  · intro v hv hv0
    constructor
    · rw [hform, hv, storedOr_of_ne_zero v _ hv0]
    · intro tags genres
      rw [hform, hform]
      simp only [hv, storedOr_of_ne_zero v _ hv0]
      rfl
  · intro v hv hv0
    rw [hform, hv, storedOr_of_ne_zero v _ hv0]
  · intro h
    rw [hform, storedOr_of_absent_or_zero _ _ h]
  · intro h
    rw [hform, storedOr_of_absent_or_zero _ _ h]

/-- Witness of the amended claim C18 on a film with a stored formal innovation
of 40. -/
theorem calculateBaseCanonScore_prepopulated_witness :
    ∀ tags genres,
      calculateBaseCanonScore { formulaWitnessFilm with derivedTags := tags, genres := genres }
        = calculateBaseCanonScore formulaWitnessFilm :=
  ((calculateBaseCanonScore_prepopulated formulaWitnessFilm).1 40 rfl (by norm_num)).2

/-- Claim C18 fails as stated: the film carries the formal innovation 0, a
value of `0..100`, yet the term used is the heuristic value 60; the score is
65, and it becomes 59 when the derived tags that feed the heuristic are
removed. -/
theorem calculateBaseCanonScore_zero_innovation :
    zeroInnovationFilm.formalInnovation = some 0 ∧
    calculateFormalInnovation zeroInnovationFilm = 60 ∧
    storedOr zeroInnovationFilm.formalInnovation (calculateFormalInnovation zeroInnovationFilm)
      = 60 ∧
    calculateBaseCanonScore zeroInnovationFilm = some 65 ∧
    calculateBaseCanonScore { zeroInnovationFilm with derivedTags := some [] } = some 59 := by
  have hfi : calculateFormalInnovation zeroInnovationFilm = 60 := by decide
  refine ⟨rfl, hfi, ?_, ?_, ?_⟩
  · rw [hfi]
    simp [storedOr, zeroInnovationFilm]
  · have hh : calculateHistoricalImportance zeroInnovationFilm = 85 := by decide
    have ha : calculateAuteurImportance zeroInnovationFilm = 25 := by decide
    unfold calculateBaseCanonScore
    rw [hh, ha, hfi]
    simp [calculateCriticalConsensus, zeroInnovationFilm, storedOr, mathRound]
    norm_num
  · have hh : calculateHistoricalImportance
        { zeroInnovationFilm with derivedTags := some [] } = 85 := by decide
    have ha : calculateAuteurImportance
        { zeroInnovationFilm with derivedTags := some [] } = 25 := by decide
    have hf : calculateFormalInnovation
        { zeroInnovationFilm with derivedTags := some [] } = 0 := by decide
    unfold calculateBaseCanonScore
    rw [hh, ha, hf]
    simp [calculateCriticalConsensus, zeroInnovationFilm, storedOr, mathRound]
    norm_num


/-! ## Discovery engine: mood score -/

theorem setWeight_of_not_mem (m : MoodMap) (k : String) (v : ℚ) (h : k ∉ m.map Prod.fst) :
    setWeight m k v = m ++ [(k, v)] := by
  induction m with
  | nil => rfl
  | cons e rest ih =>
    obtain ⟨k₀, v₀⟩ := e
    rw [List.map_cons, List.mem_cons, not_or] at h
    unfold setWeight
    rw [if_neg (fun hh => h.1 hh.symm), ih h.2]
    rfl

theorem foldl_setWeight_of_nodup (entries : List (String × ℚ)) (acc : MoodMap)
    (h : ((acc ++ entries).map Prod.fst).Nodup) :
    entries.foldl (fun object entry => setWeight object entry.1 entry.2) acc
      = acc ++ entries := by
  induction entries generalizing acc with
  | nil => simp
  | cons e rest ih =>
    rw [List.foldl_cons]
    have hnot : e.1 ∉ acc.map Prod.fst := by
      rw [List.map_append, List.map_cons] at h
      have := (List.nodup_append.mp h).2.2
      intro hmem
      exact this hmem (List.mem_cons_self _ _)
    rw [setWeight_of_not_mem acc e.1 e.2 hnot]
    have h' : (((acc ++ [(e.1, e.2)]) ++ rest).map Prod.fst).Nodup := by
      simpa using h
    rw [ih _ h']
    simp

/-- On the entries of a `Map`, whose keys are distinct, `Object.fromEntries`
builds the object with the same entries. -/
theorem objectFromEntries_of_nodup (entries : List (String × ℚ))
    (h : (entries.map Prod.fst).Nodup) : objectFromEntries entries = entries := by
  unfold objectFromEntries
  rw [foldl_setWeight_of_nodup entries [] (by simpa using h)]
  rfl

theorem plainMoods_eq_entries (film : Film)
    (h : ((moodEntriesOf film).map Prod.fst).Nodup) : plainMoods film = moodEntriesOf film := by
  unfold plainMoods moodEntriesOf at *
  cases hm : film.moods with
  | none => rfl
  | some moods =>
    cases moods with
    | map entries =>
      rw [hm] at h
      exact objectFromEntries_of_nodup entries h
    | object entries => rfl

/-- The mood score is the formula of the specification whenever the stored
depth score is not zero. -/
theorem calculateMoodScore_eq_spec {K : Type} [LinearOrderedField K] (log : K → K)
    (film : Film) (selectedMoods : Option (List String))
    (hkeys : ((moodEntriesOf film).map Prod.fst).Nodup) (hdepth : film.depthScore ≠ some 0) :
    calculateMoodScore log film selectedMoods = specMoodScore log film selectedMoods := by
  unfold calculateMoodScore specMoodScore
  rw [plainMoods_eq_entries film hkeys]
  have hd : depthOrDefault film = film.depthScore.getD 50 := by
    unfold depthOrDefault
    cases hds : film.depthScore with
    | none => rfl
    | some d =>
      have : d ≠ 0 := fun h0 => hdepth (by rw [hds, h0])
      simp [this]
  simp only [hd]
  congr 1
  funext mm
  ring

/-- A `Map` and a plain object with the same entries give the same mood
score. -/
theorem calculateMoodScore_map_object {K : Type} [LinearOrderedField K] (log : K → K)
    (film : Film) (entries : List (String × ℚ)) (selectedMoods : Option (List String))
    (hkeys : (entries.map Prod.fst).Nodup) :
    calculateMoodScore log { film with moods := some (FilmMoods.map entries) } selectedMoods
      = calculateMoodScore log { film with moods := some (FilmMoods.object entries) }
          selectedMoods := by
  unfold calculateMoodScore plainMoods depthOrDefault
  simp only [objectFromEntries_of_nodup entries hkeys]

/-- Claim C20, evaluated with the real logarithm at a film whose stored depth
score is 0 (base canon score 50, show count 0, moods `{contemplative: 0.9}`)
and the selected mood `contemplative`: the formula of the claim, with the
film's own depth score, gives `45 + 15 + 0 + 10 = 70`, while
`film.depthScore || 50` replaces the zero by 50 and the function returns
75. -/
theorem calculateMoodScore_zero_depth :
    zeroDepthFilm.depthScore = some 0 ∧
    specMoodScore Real.log zeroDepthFilm (some ["contemplative"]) = some 70 ∧
    calculateMoodScore Real.log zeroDepthFilm (some ["contemplative"]) = some 75 := by
  have hmm : getMoodMatch (some [("contemplative", (0.9 : ℚ))]) (some ["contemplative"])
      = some 0.9 := by
    simp [getMoodMatch, addMoodWeight, readMood, List.lookup]
  refine ⟨rfl, ?_, ?_⟩
  · unfold specMoodScore
    simp only [moodEntriesOf, zeroDepthFilm, hmm, Option.map_some', Option.getD_some,
      Rat.cast_zero, calculateRarityBoost_zero]
    norm_num
  · unfold calculateMoodScore
    simp only [plainMoods, depthOrDefault, zeroDepthFilm, hmm, Option.map_some',
      Option.getD_some, Rat.cast_zero, calculateRarityBoost_zero, if_true]
    norm_num

/-! ## Arthouse scoring: missing fields and intermediate clamping -/

/-- Claim C23: for every film record, removing `vote_average` or `vote_count`
gives the score of the record with that field set to `0`, and removing
`genres` or `derivedTags` gives the score of the record with the empty list;
removing `popularity` gives the score of the record with a popularity of
`100`, where the popularity term is `0`, and not that of the record with
popularity `0`: the record that has only a popularity of `0` scores `25`,
and `0` once the field is removed. -/
theorem calculateArthouseScore_missing_fields :
    (∀ movie : Film,
      calculateArthouseScore { movie with vote_average := none }
        = calculateArthouseScore { movie with vote_average := some 0 } ∧
      calculateArthouseScore { movie with vote_count := none }
        = calculateArthouseScore { movie with vote_count := some 0 } ∧
      calculateArthouseScore { movie with genres := none }
        = calculateArthouseScore { movie with genres := some [] } ∧
      calculateArthouseScore { movie with derivedTags := none }
        = calculateArthouseScore { movie with derivedTags := some [] } ∧
      calculateArthouseScore { movie with popularity := none }
        = calculateArthouseScore { movie with popularity := some 100 }) ∧
    calculateArthouseScore { zeroPopularityFilm with popularity := some 0 } = JSValue.num 25 ∧
    calculateArthouseScore { zeroPopularityFilm with popularity := none } = JSValue.num 0 := by
  refine ⟨fun movie => ⟨rfl, rfl, rfl, rfl, ?_⟩, ?_, ?_⟩
  · simp [calculateArthouseScore]
    norm_num
  · simp [calculateArthouseScore, zeroPopularityFilm]
    norm_num
    decide
  · simp [calculateArthouseScore, zeroPopularityFilm]
    norm_num
    decide

/-- Claim C27, as the code has it: on a film that has a popularity and no
inherited property name the total is `clamp(P + V + clamp(rawGenreSum, -10,
20) + min(rawTagSum, 20) + C, 0, 100)`, and it equals
`clamp(P + V + rawGenreSum + rawTagSum + C, 0, 100)` when the genre sum lies
in `[-10, 20]` and the tag sum is at most `20`. -/
theorem calculateArthouseScore_clamping (movie : Film) (popularity : ℚ)
    (hp : movie.popularity = some popularity) (h : OwnKeysOnly movie) :
    calculateArthouseScore movie
      = JSValue.num (max 0 (min 100
          (popularityPoints popularity + specVotePattern movie
            + max (-10) (min 20 (rawGenreSum movie)) + min 20 (rawTagSum movie)
            + specCountry movie))) ∧
    (-10 ≤ rawGenreSum movie → rawGenreSum movie ≤ 20 → rawTagSum movie ≤ 20 →
      (unclampedArthouseScore movie).map JSValue.num = some (calculateArthouseScore movie)) := by
  have hpop : specPopularity movie = popularityPoints popularity := by
    unfold specPopularity popularityPoints
    rw [hp]
  have hcode : calculateArthouseScore movie
      = JSValue.num (max 0 (min 100
          (popularityPoints popularity + specVotePattern movie
            + max (-10) (min 20 (rawGenreSum movie)) + min 20 (rawTagSum movie)
            + specCountry movie))) := by
    rw [calculateArthouseScore_of_own_keys movie h]
    unfold specArthouseScore
    rw [hpop]
    rfl
  refine ⟨hcode, fun h1 h2 h3 => ?_⟩
  have hg : max (-10) (min 20 (rawGenreSum movie)) = rawGenreSum movie := by omega
  have ht : min 20 (rawTagSum movie) = rawTagSum movie := by omega
  rw [hcode, hg, ht]
  unfold unclampedArthouseScore
  rw [hp]
  rfl

/-- Witness of claim C27 on the French example of the specification, whose
popularity is 8 and whose genre sum and tag sum are both 10. -/
theorem calculateArthouseScore_clamping_witness :
    OwnKeysOnly frenchExample ∧ rawGenreSum frenchExample = 10 ∧ rawTagSum frenchExample = 10 ∧
    (unclampedArthouseScore frenchExample).map JSValue.num
      = some (calculateArthouseScore frenchExample) :=
  ⟨by decide, by decide, by decide,
    (calculateArthouseScore_clamping frenchExample 8 rfl (by decide)).2
      (by decide) (by decide) (by decide)⟩

/-- Counterexample to claim C27 as written: for the film of popularity 150
with the three genres Drama, Documentary and History the genre sum is 26;
the code adds the capped 20 and returns 20, while the formula with the
unclamped sum gives 26. -/
theorem calculateArthouseScore_genre_cap :
    rawGenreSum threeGenreFilm = 26 ∧
    calculateArthouseScore threeGenreFilm = JSValue.num 20 ∧
    unclampedArthouseScore threeGenreFilm = some 26 := by
  refine ⟨by decide, ?_, ?_⟩
  · simp [calculateArthouseScore, threeGenreFilm]
    norm_num
    decide
  · simp [unclampedArthouseScore, threeGenreFilm, popularityPoints, specVotePattern,
      rawGenreSum, rawTagSum, specCountry]
    norm_num
    decide

/-! ## Base canon score: range of the sub-scores -/

/-- Claim C24: for every film whose vote average lies in `[0, 10]` (or is
missing, which the code reads as `0`) and whose vote count is present and
non-negative, whatever its tier, year, directors, genres, derived tags and
festival wins, each of the five sub-scores of the base canon score is a
number between 0 and 100. -/
theorem subscores_range (film : Film)
    (hva : ∀ a, film.vote_average = some a → 0 ≤ a ∧ a ≤ 10)
    (hvc : ∃ c, film.vote_count = some c ∧ 0 ≤ c) :
    (∃ cc, calculateCriticalConsensus film = some cc ∧ 0 ≤ cc ∧ cc ≤ 100) ∧
    (0 ≤ calculateHistoricalImportance film ∧ calculateHistoricalImportance film ≤ 100) ∧
    (0 ≤ calculateAuteurImportance film ∧ calculateAuteurImportance film ≤ 100) ∧
    (0 ≤ calculateFormalInnovation film ∧ calculateFormalInnovation film ≤ 100) ∧
    (0 ≤ calculateCulturalInfluence film ∧ calculateCulturalInfluence film ≤ 100) := by
  obtain ⟨c, hc, hc0⟩ := hvc
  exact ⟨calculateCriticalConsensus_bounds film c hva hc hc0,
    calculateHistoricalImportance_bounds film, calculateAuteurImportance_bounds film,
    calculateFormalInnovation_bounds film, calculateCulturalInfluence_bounds film⟩

/-- Witness of claim C24 on a film with all the fields read. -/
theorem subscores_range_witness :
    (∃ cc, calculateCriticalConsensus formulaWitnessFilm = some cc ∧ 0 ≤ cc ∧ cc ≤ 100) ∧
    (0 ≤ calculateHistoricalImportance formulaWitnessFilm ∧
      calculateHistoricalImportance formulaWitnessFilm ≤ 100) ∧
    (0 ≤ calculateAuteurImportance formulaWitnessFilm ∧
      calculateAuteurImportance formulaWitnessFilm ≤ 100) ∧
    (0 ≤ calculateFormalInnovation formulaWitnessFilm ∧
      calculateFormalInnovation formulaWitnessFilm ≤ 100) ∧
    (0 ≤ calculateCulturalInfluence formulaWitnessFilm ∧
      calculateCulturalInfluence formulaWitnessFilm ≤ 100) :=
  subscores_range formulaWitnessFilm
    (by intro a h; simp [formulaWitnessFilm] at h; subst h; norm_num)
    ⟨5000, rfl, by norm_num⟩

/-! ## Tagging service: number of tags -/

/-- Claim C25, evaluated at an input whose only text is the genre `Horror`:
no keyword matches, the fallback pushes the single tag `psychological`, and
the function returns one tag, not the three to five of its docstring; an
input in which one tag matches also returns that tag alone. -/
theorem generateTags_fewer_than_three :
    generateTags horrorData = ["psychological"] ∧
    (generateTags horrorData).length < 3 ∧
    generateTags { synopsis := some "A slow film", genres := some ["Drama"] } = ["slow"] := by
  decide

/-! ## Discovery engine: decade order and noise margin -/

/-- A fold with `max` is at least its start value. -/
theorem le_foldl_max (values : List ℚ) (a : ℚ) : a ≤ values.foldl max a := by
  induction values generalizing a with
  | nil => exact le_refl a
  | cons b rest ih => exact le_trans (le_max_left a b) (ih (max a b))

/-- The divisor of the decade influence is at least its guard value. -/
theorem one_le_maxInDecade (decadeFilms : List Film) : 1 ≤ maxInDecade decadeFilms :=
  le_foldl_max _ 1

/-- The movement bonus is 100 for a film with a movement and 50 otherwise. -/
theorem movementBonus_of_hasMovements (film : Film) :
    movementBonus film = if hasMovements film then 100 else 50 := by
  unfold movementBonus hasMovements
  cases film.movements with
  | none => rfl
  | some movements =>
    cases movements with
    | nil => rfl
    | cons first rest => simp

/-- The decade score is the base canon score (absent as 0) times a positive
factor, plus a tenth of the movement bonus. -/
theorem calculateDecadeScore_linear (film : Film) (decadeFilms : List Film) :
    calculateDecadeScore film decadeFilms
      = (0.70 + 20 / maxInDecade decadeFilms) * film.baseCanonScore.getD 0
        + 0.10 * movementBonus film := by
  have hm : maxInDecade decadeFilms ≠ 0 :=
    ne_of_gt (lt_of_lt_of_le one_pos (one_le_maxInDecade decadeFilms))
  unfold calculateDecadeScore influenceWithinDecade
  field_simp
  ring

/-- Claim C30: for every decade set and every two films that both have a
movement or both have none, the decade score of the first is at least that of
the second if and only if its base canon score (absent as 0) is, and is
strictly greater if and only if its base canon score is; this holds whatever
the sign of the scores and whether or not the two films belong to the set. -/
theorem calculateDecadeScore_order (a b : Film) (decadeFilms : List Film)
    (hmov : hasMovements a = hasMovements b) :
    (calculateDecadeScore b decadeFilms ≤ calculateDecadeScore a decadeFilms ↔
      b.baseCanonScore.getD 0 ≤ a.baseCanonScore.getD 0) ∧
    (calculateDecadeScore b decadeFilms < calculateDecadeScore a decadeFilms ↔
      b.baseCanonScore.getD 0 < a.baseCanonScore.getD 0) := by
  have hm : 0 < maxInDecade decadeFilms :=
    lt_of_lt_of_le one_pos (one_le_maxInDecade decadeFilms)
  have hc : (0 : ℚ) < 0.70 + 20 / maxInDecade decadeFilms := by
    have : 0 < 20 / maxInDecade decadeFilms := div_pos (by norm_num) hm
    norm_num
    linarith
  have hb : movementBonus a = movementBonus b := by
    rw [movementBonus_of_hasMovements, movementBonus_of_hasMovements, hmov]
  rw [calculateDecadeScore_linear a, calculateDecadeScore_linear b, hb]
  constructor
  · rw [add_le_add_iff_right]
    exact mul_le_mul_left hc
  · rw [add_lt_add_iff_right]
    exact mul_lt_mul_left hc

/-- Witness of claim C30 on a decade set of two films without movements,
of base canon scores 90 and 10. -/
theorem calculateDecadeScore_order_witness :
    hasMovements acclaimedFilm = hasMovements minorFilm ∧
    calculateDecadeScore minorFilm [acclaimedFilm, minorFilm]
      < calculateDecadeScore acclaimedFilm [acclaimedFilm, minorFilm] :=
  ⟨by decide,
    (calculateDecadeScore_order acclaimedFilm minorFilm [acclaimedFilm, minorFilm]
      (by decide)).2.mpr (by simp [acclaimedFilm, minorFilm]; norm_num)⟩

/-- Claim C29: for a seeded generator whose first output lies in `[0, 1)`
and films that have a year and a show count of at least 0 (the data model:
the year is required and the show count is a counter that starts at 0), the
explore score differs from its seed-free part
`D(f) = 0.60 * baseCanonScore + 0.20 * recencyBoost(year) + 0.10 *
rarityBoost(showCount)` by at most `0.3`, for every seed; and when
`D(a) - D(b) > 0.6` the explore score of `a` is greater than that of `b`,
whatever the two seeds. -/
theorem calculateExploreScore_noise_margin {K : Type} [LinearOrderedField K]
    (seedrandom : String → K)
    (hrange : ∀ seed, 0 ≤ seedrandom seed ∧ seedrandom seed < 1) (log : K → K)
    (a b : Film) (yearA yearB : Int)
    (ha : a.year = some yearA ∧ 0 ≤ a.showCount.getD 0)
    (hb : b.year = some yearB ∧ 0 ≤ b.showCount.getD 0) :
    (∀ seed, ∃ score, calculateExploreScore seedrandom log a seed = some score ∧
      |score - exploreBase log a yearA| ≤ 0.3) ∧
    (exploreBase log a yearA - exploreBase log b yearB > 0.6 →
      ∀ seed seed', ∃ scoreA scoreB,
        calculateExploreScore seedrandom log a seed = some scoreA ∧
        calculateExploreScore seedrandom log b seed' = some scoreB ∧ scoreB < scoreA) := by
  have hscore : ∀ (film : Film) (year : Int) (seed : String), film.year = some year →
      calculateExploreScore seedrandom log film seed
        = some (exploreBase log film year
            + 0.10 * getRotationNoise seedrandom (seed ++ film._id)) := by
    intro film year seed hy
    unfold calculateExploreScore exploreBase
    rw [hy]
  have hnoise : ∀ seed, -3 ≤ getRotationNoise seedrandom seed ∧
      getRotationNoise seedrandom seed < 3 := by
    intro seed
    unfold getRotationNoise
    have h := hrange seed
    constructor <;> linarith [h.1, h.2]
  constructor
  · intro seed
    refine ⟨_, hscore a yearA seed ha.1, ?_⟩
    have h := hnoise (seed ++ a._id)
    rw [abs_le]
    constructor
    · norm_num
      linarith [h.1]
    · norm_num
      linarith [h.2]
  · intro hgap seed seed'
    refine ⟨_, _, hscore a yearA seed ha.1, hscore b yearB seed' hb.1, ?_⟩
    have h1 := hnoise (seed ++ a._id)
    have h2 := hnoise (seed' ++ b._id)
    have hgap' : exploreBase log b yearB + 0.6 < exploreBase log a yearA := by
      linarith [hgap]
    norm_num at hgap' ⊢
    linarith [h1.1, h2.2]

/-- Witness of claim C29 on two films of 2020 whose seed-free parts differ
by 48, for a generator that always draws one half. -/
theorem calculateExploreScore_noise_margin_witness :
    exploreBase (fun x : ℚ => x) acclaimedFilm 2020
        - exploreBase (fun x : ℚ => x) minorFilm 2020 > 0.6 ∧
    (∀ seed, ∃ score : ℚ,
      calculateExploreScore constantGenerator (fun x => x) acclaimedFilm seed = some score ∧
      |score - exploreBase (fun x => x) acclaimedFilm 2020| ≤ 0.3) ∧
    (∀ seed seed', ∃ scoreA scoreB : ℚ,
      calculateExploreScore constantGenerator (fun x => x) acclaimedFilm seed = some scoreA ∧
      calculateExploreScore constantGenerator (fun x => x) minorFilm seed' = some scoreB ∧
      scoreB < scoreA) :=
  have h := calculateExploreScore_noise_margin constantGenerator
    (fun _ => by unfold constantGenerator; norm_num) (fun x => x)
    acclaimedFilm minorFilm 2020 2020 ⟨rfl, by simp [acclaimedFilm]⟩ ⟨rfl, by simp [minorFilm]⟩
  have hgap : exploreBase (fun x : ℚ => x) acclaimedFilm 2020
      - exploreBase (fun x : ℚ => x) minorFilm 2020 > 0.6 := by
    simp [exploreBase, acclaimedFilm, minorFilm]
    norm_num
  ⟨hgap, h.1, h.2 hgap⟩

/-! ## Discovery controller: period authenticity and the mood threshold -/

/-- The combined score with the period authenticity at 100. -/
theorem calculateCombinedScore_of_periodAuth {K : Type} [LinearOrderedField K] (log : K → K)
    (film : Film) (selectedMoods : Option (List String)) (decade : Int)
    (h : periodAuth film decade = 100) :
    calculateCombinedScore log film selectedMoods decade
      = (getMoodMatch (some (plainMoods film)) selectedMoods).map (fun moodMatch =>
          0.40 * (100 * ((moodMatch : ℚ) : K)) + 0.40 * ((film.baseCanonScore.getD 0 : ℚ) : K)
            + 10 + 0.10 * calculateRarityBoost log ((film.showCount.getD 0 : ℚ) : K)) := by
  unfold calculateCombinedScore
  dsimp only
  rw [h]
  congr 1
  funext moodMatch
  push_cast
  ring

/-- Claim C28: when every stored film that has a decade has a year with
`decade = floor(year / 10) * 10`, the query of `getCombinedFilms` for a decade
is answered, and every film it fetches has a period authenticity of 100 for
that decade, so that its combined score is `0.40 * (100 * moodMatch) + 0.40 *
baseCanonScore + 10 + 0.10 * rarityBoost(showCount)`; every entry of the list
the handler replies with is such a film and carries that score. -/
theorem getCombinedFilms_periodAuth {K : Type} [LinearOrderedField K] (log : K → K)
    (parseInt : Option QueryValue → Option Int) (stored : List Film) (decadeNum : Int)
    (hstored : ∀ film ∈ stored, ∀ d, film.decade = some d →
      ∃ year, film.year = some year ∧ d = ⌊(year : ℚ) / 10⌋ * 10) :
    (∃ fetched, Movie.find stored (Fetch.byDecade (some decadeNum)) = some fetched ∧
      ∀ film ∈ fetched, film ∈ stored ∧ periodAuth film decadeNum = 100 ∧
        ∀ selectedMoods, calculateCombinedScore log film selectedMoods decadeNum
          = (getMoodMatch (some (plainMoods film)) selectedMoods).map (fun moodMatch =>
              0.40 * (100 * ((moodMatch : ℚ) : K))
                + 0.40 * ((film.baseCanonScore.getD 0 : ℚ) : K)
                + 10 + 0.10 * calculateRarityBoost log ((film.showCount.getD 0 : ℚ) : K))) ∧
    (∀ decade moods films selectedMoods, parseInt decade = some decadeNum →
      (getCombinedFilms log parseInt stored decade moods).reply
        = Reply.json films selectedMoods →
      ∀ entry ∈ films, periodAuth entry.1 decadeNum = 100 ∧
        (getMoodMatch (some (plainMoods entry.1)) (some selectedMoods)).map (fun moodMatch =>
            0.40 * (100 * ((moodMatch : ℚ) : K))
              + 0.40 * ((entry.1.baseCanonScore.getD 0 : ℚ) : K)
              + 10 + 0.10 * calculateRarityBoost log ((entry.1.showCount.getD 0 : ℚ) : K))
          = some entry.2) := by
  have hauth : ∀ film ∈ stored.filter (fun film => film.decade = some decadeNum),
      film ∈ stored ∧ periodAuth film decadeNum = 100 := by
    intro film hfilm
    rw [List.mem_filter] at hfilm
    obtain ⟨hmem, hdec⟩ := hfilm
    have hdec' : film.decade = some decadeNum := by simpa using hdec
    obtain ⟨year, hyear, hd⟩ := hstored film hmem decadeNum hdec'
    refine ⟨hmem, ?_⟩
    unfold periodAuth
    rw [hyear]
    simp [← hd]
  constructor
  · refine ⟨_, rfl, fun film hfilm => ?_⟩
    obtain ⟨hmem, hp⟩ := hauth film hfilm
    exact ⟨hmem, hp, fun selectedMoods =>
      calculateCombinedScore_of_periodAuth log film selectedMoods decadeNum hp⟩
  · intro decade moods films selectedMoods hparse hreply entry hentry
    unfold getCombinedFilms at hreply
    by_cases hfalsy : isFalsy decade = true ∨ isFalsy moods = true
    · rw [if_pos hfalsy] at hreply
      cases hreply
    · rw [if_neg hfalsy] at hreply
      dsimp only at hreply
      rw [hparse] at hreply
      cases hsel : selectedMoodsOf moods with
      | none => rw [hsel] at hreply; cases hreply
      | some selected =>
        rw [hsel] at hreply
        simp only [Movie.find] at hreply
        cases hreply
        have hspec := (ranking_spec (stored.filter (fun film => film.decade = some decadeNum))
          (fun film => calculateCombinedScore log film (some selectedMoods) decadeNum)).2.2
          entry hentry
        obtain ⟨hfetched, hscore, _⟩ := hspec
        obtain ⟨_, hp⟩ := hauth entry.1 hfetched
        refine ⟨hp, ?_⟩
        rw [← calculateCombinedScore_of_periodAuth log entry.1 (some selectedMoods) decadeNum hp]
        exact hscore

/-- Witness of claim C28 on a collection of three films, for the 1960s. -/
theorem getCombinedFilms_periodAuth_witness :
    ∃ fetched, Movie.find storedDecades (Fetch.byDecade (some 1960)) = some fetched ∧
      ∀ film ∈ fetched, film ∈ storedDecades ∧ periodAuth film 1960 = 100 ∧
        ∀ selectedMoods, calculateCombinedScore (fun x : ℚ => x) film selectedMoods 1960
          = (getMoodMatch (some (plainMoods film)) selectedMoods).map (fun moodMatch =>
              0.40 * (100 * moodMatch) + 0.40 * (film.baseCanonScore.getD 0)
                + 10 + 0.10 * calculateRarityBoost (fun x : ℚ => x) (film.showCount.getD 0)) :=
  (getCombinedFilms_periodAuth (fun x : ℚ => x) parseDecade storedDecades 1960
    (by
      intro film hfilm d hd
      simp only [storedDecades, List.mem_cons, List.mem_singleton, List.not_mem_nil,
        or_false] at hfilm
      rcases hfilm with h | h | h <;> subst h <;> simp at hd <;> subst hd
      · exact ⟨1966, rfl, by norm_num⟩
      · exact ⟨1960, rfl, by norm_num⟩
      · exact ⟨1975, rfl, by norm_num⟩)).1

/-- Claim C26, evaluated at a film of base canon score 100 whose only mood
is `slow`, for the selected mood `bleak`: the mood match is 0, below 30%, and
the mood score is `0 + 30 + 5 + 0.10 * rarityBoost(0)`, at least 35 whatever
the logarithm, so that the threshold `_moodScore >= 30` keeps the film. -/
theorem calculateMoodScore_without_match {K : Type} [LinearOrderedField K] (log : K → K) :
    getMoodMatch (some (plainMoods unmatchedMoodFilm)) (some ["bleak"]) = some 0 ∧
    ∃ score, calculateMoodScore log unmatchedMoodFilm (some ["bleak"]) = some score ∧
      35 ≤ score ∧
      (filmWithMoods unmatchedMoodFilm, score)
        ∈ moodRanking log [unmatchedMoodFilm] ["bleak"] := by
  have hmatch : getMoodMatch (some (plainMoods unmatchedMoodFilm)) (some ["bleak"]) = some 0 := by
    simp [getMoodMatch, plainMoods, unmatchedMoodFilm, addMoodWeight, readMood,
      OBJECT_PROTOTYPE_KEYS, List.lookup]
  have hrarity : (0 : K) ≤ calculateRarityBoost log (((unmatchedMoodFilm.showCount.getD 0 : ℚ)) : K) := by
    rw [calculateRarityBoost_eq]
    exact le_max_left _ _
  have hscore : calculateMoodScore log unmatchedMoodFilm (some ["bleak"])
      = some (35 + 0.10 * calculateRarityBoost log
          (((unmatchedMoodFilm.showCount.getD 0 : ℚ)) : K)) := by
    unfold calculateMoodScore
    dsimp only
    rw [hmatch]
    simp [unmatchedMoodFilm, depthOrDefault]
    norm_num
  refine ⟨hmatch, _, hscore, ?_, ?_⟩
  · linarith
  · unfold moodRanking sortByScore
    dsimp only
    rw [List.mem_insertionSort, mem_keepAboveThreshold]
    refine ⟨?_, by dsimp only; linarith⟩
    simp only [List.map_cons, List.map_nil, List.mem_singleton]
    rw [calculateMoodScore_filmWithMoods, hscore]

/-! ## Discovery engine: sort options -/

/-- The sort returns a permutation of its input. -/
theorem arraySort_perm {α K : Type} [LinearOrderedField K] (compareFn : α → α → Option K)
    (items : List α) : (arraySort compareFn items).Perm items :=
  List.perm_insertionSort _ _

/-- Between two items whose keys are numbers, a comparator that returns the
difference of the keys keeps the first in front exactly when its key is not
below the key of the second. -/
theorem notAfter_subNumbers {K : Type} [LinearOrderedField K] (ka kb : K) :
    notAfter (subNumbers (some kb) (some ka)) = true ↔ kb ≤ ka := by
  simp [notAfter, subNumbers]

/-- Inserting an item into a list ordered by non-increasing key keeps it
ordered. -/
theorem orderedInsert_keyNotBelow {α K : Type} [LinearOrderedField K] (key : α → Option K)
    (compareFn : α → α → Option K)
    (hcmp : ∀ a b, compareFn a b = subNumbers (key b) (key a))
    (a : α) (ka : K) (ha : key a = some ka) (l : List α)
    (hkeys : ∀ x ∈ l, ∃ kx, key x = some kx)
    (hl : l.Pairwise (keyNotBelow key)) :
    (l.orderedInsert (fun a b => notAfter (compareFn a b) = true) a).Pairwise
      (keyNotBelow key) := by
  induction l with
  | nil => simp
  | cons b rest ih =>
    obtain ⟨kb, hb⟩ := hkeys b (List.mem_cons_self b rest)
    have hrest : ∀ x ∈ rest, ∃ kx, key x = some kx :=
      fun x hx => hkeys x (List.mem_cons_of_mem b hx)
    rw [List.pairwise_cons] at hl
    have hab : notAfter (compareFn a b) = true ↔ kb ≤ ka := by
      rw [hcmp, ha, hb]
      exact notAfter_subNumbers ka kb
    rw [List.orderedInsert]
    split_ifs with h
    · rw [List.pairwise_cons]
      refine ⟨fun x hx => ?_, List.pairwise_cons.mpr hl⟩
      rcases List.mem_cons.mp hx with hxb | hxr
      · subst hxb
        exact ⟨ka, kb, ha, hb, hab.mp h⟩
      · obtain ⟨kb', kx, hb', hx', hle⟩ := hl.1 x hxr
        rw [hb] at hb'
        cases hb'
        exact ⟨ka, kx, ha, hx', le_trans hle (hab.mp h)⟩
    · rw [List.pairwise_cons]
      refine ⟨fun x hx => ?_, ih hrest hl.2⟩
      rcases (List.mem_orderedInsert _).mp hx with hxa | hxr
      · subst hxa
        have hlt : ¬ kb ≤ ka := fun hle => h (hab.mpr hle)
        exact ⟨kb, ka, hb, ha, le_of_lt (lt_of_not_le hlt)⟩
      · exact hl.1 x hxr

/-- When the comparator returns the difference of two keys and every item has
a number as its key, the sort orders the items by non-increasing key. -/
theorem arraySort_sorted {α K : Type} [LinearOrderedField K] (key : α → Option K)
    (compareFn : α → α → Option K)
    (hcmp : ∀ a b, compareFn a b = subNumbers (key b) (key a))
    (items : List α) (hkeys : ∀ x ∈ items, ∃ kx, key x = some kx) :
    (arraySort compareFn items).Pairwise (keyNotBelow key) := by
  unfold arraySort
  induction items with
  | nil => simp
  | cons a rest ih =>
    obtain ⟨ka, ha⟩ := hkeys a (List.mem_cons_self a rest)
    have hrest : ∀ x ∈ rest, ∃ kx, key x = some kx :=
      fun x hx => hkeys x (List.mem_cons_of_mem a hx)
    rw [List.insertionSort]
    apply orderedInsert_keyNotBelow key compareFn hcmp a ka ha
    · intro x hx
      exact hrest x ((List.mem_insertionSort _).mp hx)
    · exact ih hrest

/-- Claim C21: for every list of films that have a year (a required field of
the data model) and a show count of at least 0 (a counter that starts at 0),
every sort keyword, every generator, logarithm and date seed,
`applySortOption` returns a permutation of the list in which the keys are
numbers and never increase, the key being `baseCanonScore` (absent as 0) for
`influence`, `calculateRarityBoost(showCount)` for `gems`,
`calculateRecencyBoost(year) + 5 * |festivalWins|` for `new`, and the explore
score for `curated` and for every other keyword. -/
theorem applySortOption_spec {K : Type} [LinearOrderedField K] (seedrandom : String → K)
    (log : K → K) (today : String) (films : List Film) (sortBy : String)
    (hdata : ∀ film ∈ films,
      (∃ year, film.year = some year) ∧ 0 ≤ film.showCount.getD 0) :
    (applySortOption seedrandom log today films sortBy).Perm films ∧
    (applySortOption seedrandom log today films sortBy).Pairwise
      (keyNotBelow (specSortKey seedrandom log today sortBy)) := by
  unfold applySortOption SORT_OPTIONS.INFLUENCE SORT_OPTIONS.HIDDEN_GEMS SORT_OPTIONS.NEW_NOTABLE
  by_cases h1 : sortBy = "influence"
  · rw [if_pos h1]
    refine ⟨arraySort_perm _ _, arraySort_sorted _ _ (fun a b => ?_) films (fun x _ => ?_)⟩
    · simp [specSortKey, h1, subNumbers]
    · simp [specSortKey, h1]
  · rw [if_neg h1]
    by_cases h2 : sortBy = "gems"
    · rw [if_pos h2]
      refine ⟨arraySort_perm _ _, arraySort_sorted _ _ (fun a b => ?_) films (fun x _ => ?_)⟩
      · simp [specSortKey, h2, subNumbers]
      · simp [specSortKey, h2]
    · rw [if_neg h2]
      by_cases h3 : sortBy = "new"
      · rw [if_pos h3]
        refine ⟨arraySort_perm _ _, arraySort_sorted _ _ (fun a b => ?_) films (fun x hx => ?_)⟩
        · simp only [specSortKey, h3]
          cases a.year <;> cases b.year <;> simp [subNumbers, mul_comm]
        · obtain ⟨year, hy⟩ := (hdata x hx).1
          simp [specSortKey, h3, hy]
      · rw [if_neg h3]
        refine ⟨arraySort_perm _ _, arraySort_sorted _ _ (fun a b => ?_) films (fun x hx => ?_)⟩
        · simp only [specSortKey, if_neg h1, if_neg h2, if_neg h3, calculateExploreScore]
          cases a.year <;> cases b.year <;> rfl
        · obtain ⟨year, hy⟩ := (hdata x hx).1
          simp [specSortKey, h1, h2, h3, hy]

/-- Witness of claim C21 on three films, for the keyword `new`. -/
theorem applySortOption_spec_witness :
    (applySortOption constantGenerator (fun x => x) "2025-06-01" sortCandidates "new").Perm
      sortCandidates ∧
    (applySortOption constantGenerator (fun x => x) "2025-06-01" sortCandidates "new").Pairwise
      (keyNotBelow (specSortKey constantGenerator (fun x => x) "2025-06-01" "new")) :=
  applySortOption_spec constantGenerator (fun x => x) "2025-06-01" sortCandidates "new"
    (by
      intro film hfilm
      simp only [sortCandidates, List.mem_cons, List.mem_singleton, List.not_mem_nil,
        or_false] at hfilm
      rcases hfilm with h | h | h <;> subst h
      · exact ⟨⟨2010, rfl⟩, by simp⟩
      · exact ⟨⟨2022, rfl⟩, by simp⟩
      · exact ⟨⟨2018, rfl⟩, by simp⟩)

/-! ## Discovery controller: parameter checks -/

/-- The test `!value` holds for a missing parameter and for the empty string
only. -/
theorem isFalsy_iff (value : Option QueryValue) :
    isFalsy value = true ↔ value = none ∨ value = some (QueryValue.str "") := by
  cases value with
  | none => simp [isFalsy]
  | some v =>
    cases v with
    | str s => simp [isFalsy]
    | arr items => simp [isFalsy]
    | obj => simp [isFalsy]

/-- Past its parameter check, `getMoodFilms` replies with status 200 or 500. -/
theorem getMoodFilms_status {K : Type} [LinearOrderedField K] (log : K → K)
    (stored : List Film) (moods : Option QueryValue) (h : ¬ isFalsy moods = true) :
    (getMoodFilms log stored moods).reply.status = 200 ∨
    (getMoodFilms log stored moods).reply.status = 500 := by
  unfold getMoodFilms
  rw [if_neg h]
  cases selectedMoodsOf moods with
  | none => exact Or.inr rfl
  | some selectedMoods => exact Or.inl rfl

/-- Past its parameter check, `getCombinedFilms` replies with status 200 or
500. -/
theorem getCombinedFilms_status {K : Type} [LinearOrderedField K] (log : K → K)
    (parseInt : Option QueryValue → Option Int) (stored : List Film)
    (decade moods : Option QueryValue) (h : ¬ (isFalsy decade = true ∨ isFalsy moods = true)) :
    (getCombinedFilms log parseInt stored decade moods).reply.status = 200 ∨
    (getCombinedFilms log parseInt stored decade moods).reply.status = 500 := by
  unfold getCombinedFilms
  rw [if_neg h]
  dsimp only
  cases selectedMoodsOf moods with
  | none => exact Or.inr rfl
  | some selectedMoods =>
    cases parseInt decade with
    | none => exact Or.inr rfl
    | some decadeNum => exact Or.inl rfl

/-- Claim C22 as amended: `getMoodFilms` replies with status 400 exactly when
the parameter `moods` is missing or is the empty string, and `getCombinedFilms`
exactly when `decade` or `moods` is; the reply is then the message of the
endpoint, whatever the collection holds, and no call of `Movie.find` has been
issued. -/
theorem parameter_check {K : Type} [LinearOrderedField K] (log : K → K)
    (parseInt : Option QueryValue → Option Int) (stored : List Film)
    (decade moods : Option QueryValue) :
    ((getMoodFilms log stored moods).reply.status = 400 ↔
      (moods = none ∨ moods = some (QueryValue.str ""))) ∧
    ((moods = none ∨ moods = some (QueryValue.str "")) →
      getMoodFilms log stored moods
        = { reply := Reply.badRequest "Moods parameter required", fetches := [] }) ∧
    ((getCombinedFilms log parseInt stored decade moods).reply.status = 400 ↔
      ((decade = none ∨ decade = some (QueryValue.str "")) ∨
        (moods = none ∨ moods = some (QueryValue.str "")))) ∧
    (((decade = none ∨ decade = some (QueryValue.str "")) ∨
        (moods = none ∨ moods = some (QueryValue.str ""))) →
      getCombinedFilms log parseInt stored decade moods
        = { reply := Reply.badRequest "Both decade and moods parameters required",
            fetches := [] }) := by
  have hmood : (moods = none ∨ moods = some (QueryValue.str "")) →
      getMoodFilms log stored moods
        = { reply := Reply.badRequest "Moods parameter required", fetches := [] } := by
    intro h
    unfold getMoodFilms
    rw [if_pos ((isFalsy_iff moods).mpr h)]
  have hcombined : ((decade = none ∨ decade = some (QueryValue.str "")) ∨
        (moods = none ∨ moods = some (QueryValue.str ""))) →
      getCombinedFilms log parseInt stored decade moods
        = { reply := Reply.badRequest "Both decade and moods parameters required",
            fetches := [] } := by
    intro h
    unfold getCombinedFilms
    rw [if_pos (h.imp (isFalsy_iff decade).mpr (isFalsy_iff moods).mpr)]
  refine ⟨⟨fun h => ?_, fun h => by rw [hmood h]; rfl⟩, hmood,
    ⟨fun h => ?_, fun h => by rw [hcombined h]; rfl⟩, hcombined⟩
  · by_contra hne
    have hnf : ¬ isFalsy moods = true := fun hf => hne ((isFalsy_iff moods).mp hf)
    rcases getMoodFilms_status log stored moods hnf with h' | h' <;> rw [h'] at h <;> cases h
  · by_contra hne
    have hnf : ¬ (isFalsy decade = true ∨ isFalsy moods = true) :=
      fun hf => hne (hf.imp (isFalsy_iff decade).mp (isFalsy_iff moods).mp)
    rcases getCombinedFilms_status log parseInt stored decade moods hnf with h' | h' <;>
      rw [h'] at h <;> cases h

/-- Witness of the amended claim C22: without the parameter `moods` both
handlers reply with their message and issue no query; with a decade and a
mood neither replies with status 400. -/
theorem parameter_check_witness :
    getMoodFilms (fun x : ℚ => x) storedDecades none
      = { reply := Reply.badRequest "Moods parameter required", fetches := [] } ∧
    getCombinedFilms (fun x : ℚ => x) parseDecade storedDecades (some (QueryValue.str "1960")) none
      = { reply := Reply.badRequest "Both decade and moods parameters required",
          fetches := [] } ∧
    ¬ (getMoodFilms (fun x : ℚ => x) storedDecades (some (QueryValue.str "slow"))).reply.status
      = 400 ∧
    ¬ (getCombinedFilms (fun x : ℚ => x) parseDecade storedDecades
      (some (QueryValue.str "1960")) (some (QueryValue.str "slow"))).reply.status = 400 :=
  ⟨(parameter_check (fun x : ℚ => x) parseDecade storedDecades (some (QueryValue.str "1960"))
      none).2.1 (Or.inl rfl),
    (parameter_check (fun x : ℚ => x) parseDecade storedDecades (some (QueryValue.str "1960"))
      none).2.2.2 (Or.inr (Or.inl rfl)),
    fun h => by
      have h' := (parameter_check (fun x : ℚ => x) parseDecade storedDecades none
        (some (QueryValue.str "slow"))).1.mp h
      simp at h',
    fun h => by
      have h' := (parameter_check (fun x : ℚ => x) parseDecade storedDecades
        (some (QueryValue.str "1960")) (some (QueryValue.str "slow"))).2.2.1.mp h
      simp at h'⟩

/-- Counterexample to claim C22 as written: the requests `?moods=` and
`?decade=1960&moods=` carry every required parameter, with the empty string
as the value of `moods`, and both handlers reply with status 400. -/
theorem parameter_check_empty_string :
    (getMoodFilms (fun x : ℚ => x) storedDecades (some (QueryValue.str ""))).reply.status
      = 400 ∧
    (getCombinedFilms (fun x : ℚ => x) parseDecade storedDecades
      (some (QueryValue.str "1960")) (some (QueryValue.str ""))).reply.status = 400 := by
  constructor <;> rfl

/-! ## Double-precision arithmetic: the rounding -/

/-- A rational less than one half away from an integer rounds to it. -/
theorem roundHalfEven_of_near (q : ℚ) (n : Int) (h1 : (n : ℚ) - 1 / 2 < q)
    (h2 : q < (n : ℚ) + 1 / 2) : roundHalfEven q = n := by
  unfold roundHalfEven
  dsimp only
  have hfl : (⌊q⌋ : ℚ) ≤ q := Int.floor_le q
  have hfu : q < (⌊q⌋ : ℚ) + 1 := Int.lt_floor_add_one q
  have hcases : ⌊q⌋ = n ∨ ⌊q⌋ = n - 1 := by
    have h3 : ⌊q⌋ < n + 1 := by
      have : (⌊q⌋ : ℚ) < ((n + 1 : ℤ) : ℚ) := by push_cast; linarith
      exact_mod_cast this
    have h4 : n - 2 < ⌊q⌋ := by
      have : ((n - 2 : ℤ) : ℚ) < (⌊q⌋ : ℚ) := by push_cast; linarith
      exact_mod_cast this
    omega
  rcases hcases with h | h
  · have hq : (⌊q⌋ : ℚ) = n := by exact_mod_cast h
    rw [if_pos (by rw [hq]; linarith)]
    exact h
  · have hq : (⌊q⌋ : ℚ) = n - 1 := by rw [h]; push_cast; ring
    rw [if_neg (by rw [hq]; linarith), if_pos (by rw [hq]; linarith)]
    omega

/-- A rational halfway between two integers rounds to the even one. -/
theorem roundHalfEven_of_tie (q : ℚ) (n : Int) (h : q = (n : ℚ) + 1 / 2) :
    roundHalfEven q = if n % 2 = 0 then n else n + 1 := by
  have hfloor : ⌊q⌋ = n := by
    rw [Int.floor_eq_iff]
    constructor <;> rw [h] <;> linarith
  unfold roundHalfEven
  dsimp only
  have hq : (⌊q⌋ : ℚ) = n := by exact_mod_cast hfloor
  rw [if_neg (by rw [hq, h]; norm_num), if_neg (by rw [hq, h]; norm_num), hfloor]

/-- The double nearest to a number of binary exponent `e + 52` is its
quotient by `2 ^ e`, rounded to an integer, times `2 ^ e`. -/
theorem binary64_of_exponent (x : ℚ) (e : Int) (hlo : (2 : ℚ) ^ (e + 52) ≤ |x|)
    (hhi : |x| < (2 : ℚ) ^ (e + 53)) :
    binary64 x = (roundHalfEven (x / (2 : ℚ) ^ e) : ℚ) * (2 : ℚ) ^ e := by
  have hpos : 0 < |x| := lt_of_lt_of_le (zpow_pos (by norm_num) _) hlo
  have hx : x ≠ 0 := abs_pos.mp hpos
  have h1 : e + 52 ≤ Int.log 2 |x| := by
    have := (Int.zpow_le_iff_le_log (b := 2) (by norm_num) hpos (x := e + 52)).mp
      (by exact_mod_cast hlo)
    exact this
  have h2 : Int.log 2 |x| < e + 53 := by
    have := (Int.lt_zpow_iff_log_lt (b := 2) (by norm_num) hpos (x := e + 53)).mp
      (by exact_mod_cast hhi)
    exact this
  have hlog : Int.log 2 |x| - 52 = e := by omega
  unfold binary64
  rw [if_neg hx]
  dsimp only
  rw [hlog]

/-- Zero is a double. -/
theorem binary64_zero : binary64 0 = 0 := by
  unfold binary64
  rw [if_pos rfl]



/-- Rounding to the nearest integer moves a number by at most one half. -/
theorem roundHalfEven_error (q : ℚ) : |(roundHalfEven q : ℚ) - q| ≤ 1 / 2 := by
  have hfl : (⌊q⌋ : ℚ) ≤ q := Int.floor_le q
  have hfu : q < (⌊q⌋ : ℚ) + 1 := Int.lt_floor_add_one q
  unfold roundHalfEven
  dsimp only
  rw [abs_le]
  split_ifs with h1 h2 h3
  · constructor <;> linarith
  · push_cast
    constructor <;> linarith
  · constructor <;> linarith
  · push_cast
    constructor <;> linarith

/-- The rounding to doubles has the relative accuracy `2 ^ (-53)`. -/
theorem binary64_error : RoundsToNearest binary64 := by
  intro x
  by_cases hx : x = 0
  · subst hx
    simp [binary64_zero]
  · have hpos : 0 < |x| := abs_pos.mpr hx
    have hlog : (2 : ℚ) ^ Int.log 2 |x| ≤ |x| := by
      have := Int.zpow_log_le_self (b := 2) (by norm_num) hpos
      exact_mod_cast this
    have hp : (0 : ℚ) < 2 ^ (Int.log 2 |x| - 52) := zpow_pos (by norm_num) _
    have herr := roundHalfEven_error (x / 2 ^ (Int.log 2 |x| - 52))
    unfold binary64
    rw [if_neg hx]
    dsimp only
    have hrew : (roundHalfEven (x / 2 ^ (Int.log 2 |x| - 52)) : ℚ) * 2 ^ (Int.log 2 |x| - 52) - x
        = ((roundHalfEven (x / 2 ^ (Int.log 2 |x| - 52)) : ℚ) - x / 2 ^ (Int.log 2 |x| - 52))
          * 2 ^ (Int.log 2 |x| - 52) := by
      field_simp
    rw [hrew, abs_mul, abs_of_pos hp]
    have hsplit : (2 : ℚ) ^ (Int.log 2 |x| - 52) = 2 ^ Int.log 2 |x| / 2 ^ 52 := by
      rw [zpow_sub₀ (by norm_num)]
      norm_num
    calc |(roundHalfEven (x / 2 ^ (Int.log 2 |x| - 52)) : ℚ) - x / 2 ^ (Int.log 2 |x| - 52)|
          * 2 ^ (Int.log 2 |x| - 52)
        ≤ 1 / 2 * 2 ^ (Int.log 2 |x| - 52) := mul_le_mul_of_nonneg_right herr hp.le
      _ = unitRoundoff * 2 ^ Int.log 2 |x| := by
        rw [hsplit]
        unfold unitRoundoff
        ring
      _ ≤ unitRoundoff * |x| := by
        apply mul_le_mul_of_nonneg_left hlog
        unfold unitRoundoff
        positivity

/-- The error of a rounded product of two approximations. -/
theorem rounded_mul_close (rnd : ℚ → ℚ) (hr : RoundsToNearest rnd) (a a' b b' A B ε δ : ℚ)
    (ha : |a| ≤ A) (hb : |b| ≤ B) (ha' : |a' - a| ≤ ε) (hb' : |b' - b| ≤ δ) :
    |rnd (a' * b') - a * b|
      ≤ unitRoundoff * ((A + ε) * (B + δ)) + ((A + ε) * δ + B * ε) := by
  have hu : 0 ≤ unitRoundoff := by unfold unitRoundoff; positivity
  have hA : |a'| ≤ A + ε := by
    calc |a'| = |a + (a' - a)| := by ring_nf
      _ ≤ |a| + |a' - a| := abs_add _ _
      _ ≤ A + ε := add_le_add ha ha'
  have hB : |b'| ≤ B + δ := by
    calc |b'| = |b + (b' - b)| := by ring_nf
      _ ≤ |b| + |b' - b| := abs_add _ _
      _ ≤ B + δ := add_le_add hb hb'
  have hB0 : 0 ≤ B := le_trans (abs_nonneg _) hb
  have hAe : 0 ≤ A + ε := le_trans (abs_nonneg _) hA
  have hδ : 0 ≤ δ := le_trans (abs_nonneg _) hb'
  have h1 : |rnd (a' * b') - a' * b'| ≤ unitRoundoff * ((A + ε) * (B + δ)) := by
    refine le_trans (hr _) (mul_le_mul_of_nonneg_left ?_ hu)
    rw [abs_mul]
    exact mul_le_mul hA hB (abs_nonneg _) hAe
  have h2 : |a' * b' - a * b| ≤ (A + ε) * δ + B * ε := by
    calc |a' * b' - a * b| = |a' * (b' - b) + b * (a' - a)| := by ring_nf
      _ ≤ |a' * (b' - b)| + |b * (a' - a)| := abs_add _ _
      _ = |a'| * |b' - b| + |b| * |a' - a| := by rw [abs_mul, abs_mul]
      _ ≤ (A + ε) * δ + B * ε :=
        add_le_add (mul_le_mul hA hb' (abs_nonneg _) hAe)
          (mul_le_mul hb ha' (abs_nonneg _) hB0)
  calc |rnd (a' * b') - a * b| = |(rnd (a' * b') - a' * b') + (a' * b' - a * b)| := by ring_nf
    _ ≤ |rnd (a' * b') - a' * b'| + |a' * b' - a * b| := abs_add _ _
    _ ≤ _ := add_le_add h1 h2

/-- The error of a rounded sum of two approximations. -/
theorem rounded_add_close (rnd : ℚ → ℚ) (hr : RoundsToNearest rnd) (a a' b b' A B ε δ : ℚ)
    (ha : |a| ≤ A) (hb : |b| ≤ B) (ha' : |a' - a| ≤ ε) (hb' : |b' - b| ≤ δ) :
    |rnd (a' + b') - (a + b)| ≤ unitRoundoff * (A + ε + (B + δ)) + (ε + δ) := by
  have hu : 0 ≤ unitRoundoff := by unfold unitRoundoff; positivity
  have hA : |a'| ≤ A + ε := by
    calc |a'| = |a + (a' - a)| := by ring_nf
      _ ≤ |a| + |a' - a| := abs_add _ _
      _ ≤ A + ε := add_le_add ha ha'
  have hB : |b'| ≤ B + δ := by
    calc |b'| = |b + (b' - b)| := by ring_nf
      _ ≤ |b| + |b' - b| := abs_add _ _
      _ ≤ B + δ := add_le_add hb hb'
  have h1 : |rnd (a' + b') - (a' + b')| ≤ unitRoundoff * (A + ε + (B + δ)) :=
    le_trans (hr _) (mul_le_mul_of_nonneg_left (le_trans (abs_add _ _) (add_le_add hA hB)) hu)
  have h2 : |a' + b' - (a + b)| ≤ ε + δ := by
    calc |a' + b' - (a + b)| = |(a' - a) + (b' - b)| := by ring_nf
      _ ≤ |a' - a| + |b' - b| := abs_add _ _
      _ ≤ ε + δ := add_le_add ha' hb'
  calc |rnd (a' + b') - (a + b)| = |(rnd (a' + b') - (a' + b')) + (a' + b' - (a + b))| := by
        ring_nf
    _ ≤ |rnd (a' + b') - (a' + b')| + |a' + b' - (a + b)| := abs_add _ _
    _ ≤ _ := add_le_add h1 h2


/-- The weight of the vote count, computed with a rounding, is within the
relative accuracy of the exact one. -/
theorem countWeight_close (rnd : ℚ → ℚ) (hr : RoundsToNearest rnd) (q : ℚ) (hq : 0 ≤ q) :
    |min (rnd q) 1 - min q 1| ≤ unitRoundoff := by
  have hu : 0 < unitRoundoff := by unfold unitRoundoff; positivity
  have hu1 : unitRoundoff < 1 := by unfold unitRoundoff; norm_num
  have herr := hr q
  rw [abs_of_nonneg hq] at herr
  by_cases h1 : q ≤ 1
  · have hle : |rnd q - q| ≤ unitRoundoff :=
      le_trans herr (by nlinarith)
    calc |min (rnd q) 1 - min q 1| ≤ max |rnd q - q| |(1 : ℚ) - 1| :=
          abs_min_sub_min_le_max _ _ _ _
      _ ≤ unitRoundoff := by
        rw [sub_self, abs_zero]
        exact max_le hle hu.le
  · push_neg at h1
    have hlow : 1 - unitRoundoff < rnd q := by
      have := (abs_le.mp herr).1
      nlinarith
    rw [min_eq_right h1.le, abs_le]
    constructor
    · have : 1 - unitRoundoff ≤ min (rnd q) 1 := le_min hlow.le (by linarith)
      linarith
    · have : min (rnd q) 1 ≤ 1 := min_le_right _ _
      linarith

/-- The critical consensus computed with a rounding is within `800 * 2^(-53)`
of the exact one, for a vote average in `[0, 10]` and a vote count of at
least 0. -/
theorem specCriticalConsensusRounded_close (rnd : ℚ → ℚ) (hr : RoundsToNearest rnd)
    (voteAverage voteCount : ℚ) (h0 : 0 ≤ voteAverage) (h10 : voteAverage ≤ 10)
    (hc : 0 ≤ voteCount) :
    |specCriticalConsensusRounded rnd voteAverage voteCount
        - specCriticalConsensus voteAverage voteCount| ≤ 800 * unitRoundoff ∧
    |specCriticalConsensus voteAverage voteCount| ≤ 100 := by
  have hq : (0 : ℚ) ≤ voteCount / 5000 := by positivity
  have hw0 : 0 ≤ min (voteCount / 5000) 1 := le_min hq (by norm_num)
  have hw1 : min (voteCount / 5000) 1 ≤ 1 := min_le_right _ _
  have hcw := countWeight_close rnd hr (voteCount / 5000) hq
  have hva : |voteAverage| ≤ 10 := by rw [abs_of_nonneg h0]; exact h10
  -- the vote score
  have hvs := rounded_mul_close rnd hr voteAverage voteAverage 10 10 10 10 0 0 hva
    (by norm_num) (by simp) (by simp)
  have hvs' : |rnd (voteAverage * 10) - voteAverage * 10| ≤ 100 * unitRoundoff :=
    le_trans hvs (by unfold unitRoundoff; norm_num)
  have hvsb : |voteAverage * 10| ≤ 100 := by
    rw [abs_of_nonneg (by positivity)]
    linarith
  -- 0.3 * countWeight
  have hl3 : |rnd 0.3 - 0.3| ≤ 1 * unitRoundoff :=
    le_trans (hr _) (by unfold unitRoundoff; norm_num [abs_of_pos])
  have hp := rounded_mul_close rnd hr 0.3 (rnd 0.3) (min (voteCount / 5000) 1)
    (min (rnd (voteCount / 5000)) 1) 0.3 1 (1 * unitRoundoff) unitRoundoff
    (by norm_num [abs_of_pos]) (by rw [abs_of_nonneg hw0]; exact hw1) hl3 hcw
  have hp' : |rnd (rnd 0.3 * min (rnd (voteCount / 5000)) 1)
      - 0.3 * min (voteCount / 5000) 1| ≤ 2 * unitRoundoff :=
    le_trans hp (by unfold unitRoundoff; norm_num)
  have hpb : |0.3 * min (voteCount / 5000) 1| ≤ 0.3 := by
    rw [abs_of_nonneg (by positivity)]
    nlinarith
  -- 0.7 + 0.3 * countWeight
  have hl7 : |rnd 0.7 - 0.7| ≤ 1 * unitRoundoff :=
    le_trans (hr _) (by unfold unitRoundoff; norm_num [abs_of_pos])
  have ht := rounded_add_close rnd hr 0.7 (rnd 0.7) (0.3 * min (voteCount / 5000) 1)
    (rnd (rnd 0.3 * min (rnd (voteCount / 5000)) 1)) 0.7 0.3 (1 * unitRoundoff)
    (2 * unitRoundoff) (by norm_num [abs_of_pos]) hpb hl7 hp'
  have ht' : |rnd (rnd 0.7 + rnd (rnd 0.3 * min (rnd (voteCount / 5000)) 1))
      - (0.7 + 0.3 * min (voteCount / 5000) 1)| ≤ 5 * unitRoundoff :=
    le_trans ht (by unfold unitRoundoff; norm_num)
  have htb : |0.7 + 0.3 * min (voteCount / 5000) 1| ≤ 1 := by
    rw [abs_of_nonneg (by positivity)]
    nlinarith
  -- the product
  have hcc := rounded_mul_close rnd hr (voteAverage * 10) (rnd (voteAverage * 10))
    (0.7 + 0.3 * min (voteCount / 5000) 1)
    (rnd (rnd 0.7 + rnd (rnd 0.3 * min (rnd (voteCount / 5000)) 1))) 100 1
    (100 * unitRoundoff) (5 * unitRoundoff) hvsb htb hvs' ht'
  constructor
  · unfold specCriticalConsensusRounded specCriticalConsensus
    exact le_trans hcc (by unfold unitRoundoff; norm_num)
  · unfold specCriticalConsensus
    rw [abs_mul]
    calc |voteAverage * 10| * |0.7 + 0.3 * min (voteCount / 5000) 1| ≤ 100 * 1 :=
          mul_le_mul hvsb htb (abs_nonneg _) (by norm_num)
      _ = 100 := by norm_num

/-- A weighted term computed with a rounding: the weight is a literal of at
most 1 and the factor is within `δ` of a value of `[-100, 100]`. -/
theorem weightedTerm_close (rnd : ℚ → ℚ) (hr : RoundsToNearest rnd) (w x x' δ : ℚ)
    (hw0 : 0 ≤ w) (hw1 : w ≤ 1) (hx : |x| ≤ 100) (hx' : |x' - x| ≤ δ) (hδ : δ ≤ 1) :
    |rnd (rnd w * x') - w * x| ≤ 302 * unitRoundoff + δ * 2 ∧ |w * x| ≤ w * 100 := by
  have hu : 0 < unitRoundoff := by unfold unitRoundoff; positivity
  have hu1 : unitRoundoff ≤ 1 := by unfold unitRoundoff; norm_num
  have hδ0 : 0 ≤ δ := le_trans (abs_nonneg _) hx'
  have hwabs : |w| ≤ w := by rw [abs_of_nonneg hw0]
  have hl : |rnd w - w| ≤ unitRoundoff * w := by
    have := hr w
    rwa [abs_of_nonneg hw0] at this
  have h := rounded_mul_close rnd hr w (rnd w) x x' w 100 (unitRoundoff * w) δ hwabs hx hl hx'
  constructor
  · refine le_trans h ?_
    have h1 : w + unitRoundoff * w ≤ 2 := by nlinarith
    have h2 : 0 ≤ w + unitRoundoff * w := by positivity
    have h3 : unitRoundoff * ((w + unitRoundoff * w) * (100 + δ))
        ≤ unitRoundoff * (2 * 101) := by
      apply mul_le_mul_of_nonneg_left _ hu.le
      exact mul_le_mul h1 (by linarith) (by linarith) (by norm_num)
    have h4 : (w + unitRoundoff * w) * δ ≤ 2 * δ := mul_le_mul_of_nonneg_right h1 hδ0
    have h5 : 100 * (unitRoundoff * w) ≤ 100 * unitRoundoff := by nlinarith
    nlinarith
  · rw [abs_mul, abs_of_nonneg hw0]
    exact mul_le_mul_of_nonneg_left hx hw0


/-- The weighted sum computed with a rounding is within `3500 * 2^(-53)` of
the exact one, for terms of `[-100, 100]` and a critical consensus within
`800 * 2^(-53)` of the exact one. -/
theorem specWeightedSum_close (rnd : ℚ → ℚ) (hr : RoundsToNearest rnd)
    (cc cc' hi ai fi ci : ℚ) (hcc : |cc| ≤ 100) (hcc' : |cc' - cc| ≤ 800 * unitRoundoff)
    (hhi : |hi| ≤ 100) (hai : |ai| ≤ 100) (hfi : |fi| ≤ 100) (hci : |ci| ≤ 100) :
    |specWeightedSum rnd cc' hi ai fi ci
      - (0.35 * cc + 0.25 * hi + 0.20 * ai + 0.10 * fi + 0.10 * ci)|
      ≤ 3500 * unitRoundoff := by
  have hsmall : 800 * unitRoundoff ≤ 1 := by unfold unitRoundoff; norm_num
  have h1 := weightedTerm_close rnd hr 0.35 cc cc' (800 * unitRoundoff) (by norm_num)
    (by norm_num) hcc hcc' hsmall
  have h2 := weightedTerm_close rnd hr 0.25 hi hi 0 (by norm_num) (by norm_num) hhi
    (by simp) (by norm_num)
  have h3 := weightedTerm_close rnd hr 0.20 ai ai 0 (by norm_num) (by norm_num) hai
    (by simp) (by norm_num)
  have h4 := weightedTerm_close rnd hr 0.10 fi fi 0 (by norm_num) (by norm_num) hfi
    (by simp) (by norm_num)
  have h5 := weightedTerm_close rnd hr 0.10 ci ci 0 (by norm_num) (by norm_num) hci
    (by simp) (by norm_num)
  have s1 := rounded_add_close rnd hr (0.35 * cc) (rnd (rnd 0.35 * cc')) (0.25 * hi)
    (rnd (rnd 0.25 * hi)) (0.35 * 100) (0.25 * 100) (302 * unitRoundoff + 800 * unitRoundoff * 2)
    (302 * unitRoundoff + 0 * 2) h1.2 h2.2 h1.1 h2.1
  have s1' : |rnd (rnd (rnd 0.35 * cc') + rnd (rnd 0.25 * hi)) - (0.35 * cc + 0.25 * hi)|
      ≤ 2265 * unitRoundoff := le_trans s1 (by unfold unitRoundoff; norm_num)
  have b1 : |0.35 * cc + 0.25 * hi| ≤ 60 :=
    le_trans (abs_add _ _) (by linarith [h1.2, h2.2])
  have s2 := rounded_add_close rnd hr (0.35 * cc + 0.25 * hi)
    (rnd (rnd (rnd 0.35 * cc') + rnd (rnd 0.25 * hi))) (0.20 * ai) (rnd (rnd 0.20 * ai))
    60 (0.20 * 100) (2265 * unitRoundoff) (302 * unitRoundoff + 0 * 2) b1 h3.2 s1' h3.1
  have s2' : |rnd (rnd (rnd (rnd 0.35 * cc') + rnd (rnd 0.25 * hi)) + rnd (rnd 0.20 * ai))
      - (0.35 * cc + 0.25 * hi + 0.20 * ai)| ≤ 2648 * unitRoundoff :=
    le_trans s2 (by unfold unitRoundoff; norm_num)
  have b2 : |0.35 * cc + 0.25 * hi + 0.20 * ai| ≤ 80 :=
    le_trans (abs_add _ _) (by linarith [b1, h3.2])
  have s3 := rounded_add_close rnd hr (0.35 * cc + 0.25 * hi + 0.20 * ai)
    (rnd (rnd (rnd (rnd 0.35 * cc') + rnd (rnd 0.25 * hi)) + rnd (rnd 0.20 * ai)))
    (0.10 * fi) (rnd (rnd 0.10 * fi)) 80 (0.10 * 100) (2648 * unitRoundoff)
    (302 * unitRoundoff + 0 * 2) b2 h4.2 s2' h4.1
  have s3' : |rnd (rnd (rnd (rnd (rnd 0.35 * cc') + rnd (rnd 0.25 * hi)) + rnd (rnd 0.20 * ai))
      + rnd (rnd 0.10 * fi)) - (0.35 * cc + 0.25 * hi + 0.20 * ai + 0.10 * fi)|
      ≤ 3041 * unitRoundoff := le_trans s3 (by unfold unitRoundoff; norm_num)
  have b3 : |0.35 * cc + 0.25 * hi + 0.20 * ai + 0.10 * fi| ≤ 90 :=
    le_trans (abs_add _ _) (by linarith [b2, h4.2])
  have s4 := rounded_add_close rnd hr (0.35 * cc + 0.25 * hi + 0.20 * ai + 0.10 * fi)
    (rnd (rnd (rnd (rnd (rnd 0.35 * cc') + rnd (rnd 0.25 * hi)) + rnd (rnd 0.20 * ai))
      + rnd (rnd 0.10 * fi)))
    (0.10 * ci) (rnd (rnd 0.10 * ci)) 90 (0.10 * 100) (3041 * unitRoundoff)
    (302 * unitRoundoff + 0 * 2) b3 h5.2 s3' h5.1
  unfold specWeightedSum
  exact le_trans s4 (by unfold unitRoundoff; norm_num)

/-- Two numbers less than 1 apart round to integers at most 1 apart. -/
theorem mathRound_close (x y : ℚ) (h : |x - y| < 1) : |mathRound x - mathRound y| ≤ 1 := by
  unfold mathRound
  obtain ⟨h1, h2⟩ := abs_lt.mp h
  have hx1 : (⌊x + 1 / 2⌋ : ℚ) ≤ x + 1 / 2 := Int.floor_le _
  have hx2 : x + 1 / 2 < (⌊x + 1 / 2⌋ : ℚ) + 1 := Int.lt_floor_add_one _
  have hy1 : (⌊y + 1 / 2⌋ : ℚ) ≤ y + 1 / 2 := Int.floor_le _
  have hy2 : y + 1 / 2 < (⌊y + 1 / 2⌋ : ℚ) + 1 := Int.lt_floor_add_one _
  have ha : ⌊x + 1 / 2⌋ < ⌊y + 1 / 2⌋ + 2 := by
    have : (⌊x + 1 / 2⌋ : ℚ) < ((⌊y + 1 / 2⌋ + 2 : ℤ) : ℚ) := by push_cast; linarith
    exact_mod_cast this
  have hb : ⌊y + 1 / 2⌋ < ⌊x + 1 / 2⌋ + 2 := by
    have : (⌊y + 1 / 2⌋ : ℚ) < ((⌊x + 1 / 2⌋ + 2 : ℤ) : ℚ) := by push_cast; linarith
    exact_mod_cast this
  rw [abs_le]
  constructor <;> omega

/-! ## Double-precision arithmetic: the scores without rounding -/

/-- Without rounding, the record is the film. -/
theorem rounded_record_id (film : Film) : Rounded.record id film = film := by
  cases film
  simp [Rounded.record]

/-- Rounding the numbers of a record leaves its moods, and every field that
is not a number, as they are. -/
theorem rounded_record_fields (rnd : ℚ → ℚ) (film : Film) :
    plainMoods (Rounded.record rnd film) = plainMoods film ∧
    calculateHistoricalImportance (Rounded.record rnd film)
      = calculateHistoricalImportance film ∧
    calculateAuteurImportance (Rounded.record rnd film) = calculateAuteurImportance film ∧
    calculateFormalInnovation (Rounded.record rnd film) = calculateFormalInnovation film ∧
    (∀ decade, periodAuth (Rounded.record rnd film) decade = periodAuth film decade) :=
  ⟨rfl, rfl, rfl, rfl, fun _ => rfl⟩

/-- Without rounding, the rounded critical consensus is the exact one. -/
theorem rounded_calculateCriticalConsensus_id (film : Film) :
    Rounded.calculateCriticalConsensus id film = calculateCriticalConsensus film := by
  unfold Rounded.calculateCriticalConsensus
  rw [rounded_record_id]
  rfl

/-- Without rounding, the rounded base canon score is the exact one. -/
theorem rounded_calculateBaseCanonScore_id (film : Film) :
    Rounded.calculateBaseCanonScore id film = calculateBaseCanonScore film := by
  unfold Rounded.calculateBaseCanonScore
  rw [rounded_calculateCriticalConsensus_id, rounded_record_id]
  rfl

/-- Without rounding, the rounded mood match is the exact one. -/
theorem rounded_getMoodMatch_id (filmMoods : Option MoodMap)
    (selectedMoods : Option (List String)) :
    Rounded.getMoodMatch id filmMoods selectedMoods = getMoodMatch filmMoods selectedMoods := rfl

/-- Without rounding, the rounded rarity boost is the exact one. -/
theorem rounded_calculateRarityBoost_id (log : ℚ → ℚ) (showCount : ℚ) :
    Rounded.calculateRarityBoost id log showCount = calculateRarityBoost log showCount := rfl

/-- Without rounding, the rounded mood score is the exact one. -/
theorem rounded_calculateMoodScore_id (log : ℚ → ℚ) (film : Film)
    (selectedMoods : Option (List String)) :
    Rounded.calculateMoodScore id log film selectedMoods
      = calculateMoodScore log film selectedMoods := by
  unfold Rounded.calculateMoodScore calculateMoodScore
  simp only [id, Rat.cast_id, rounded_getMoodMatch_id, rounded_calculateRarityBoost_id,
    rounded_record_id]

/-- Without rounding, the rounded combined score is the exact one. -/
theorem rounded_calculateCombinedScore_id (log : ℚ → ℚ) (film : Film)
    (selectedMoods : Option (List String)) (decade : Int) :
    Rounded.calculateCombinedScore id log film selectedMoods decade
      = calculateCombinedScore log film selectedMoods decade := by
  unfold Rounded.calculateCombinedScore calculateCombinedScore
  simp only [id, Rat.cast_id, rounded_getMoodMatch_id, rounded_calculateRarityBoost_id,
    rounded_record_id]

/-- Converting the moods to a plain object beforehand does not change the
rounded mood score. -/
theorem rounded_calculateMoodScore_filmWithMoods (rnd : ℚ → ℚ) (log : ℚ → ℚ) (film : Film)
    (selectedMoods : Option (List String)) :
    Rounded.calculateMoodScore rnd log (filmWithMoods film) selectedMoods
      = Rounded.calculateMoodScore rnd log film selectedMoods := rfl


/-! ## Base canon score in double precision -/

/-- The rounded critical consensus of a film with a vote average and a vote
count. -/
theorem rounded_calculateCriticalConsensus_eq (rnd : ℚ → ℚ) (film : Film)
    (voteAverage voteCount : ℚ) (ha : film.vote_average = some voteAverage)
    (hc : film.vote_count = some voteCount) :
    Rounded.calculateCriticalConsensus rnd film
      = some (specCriticalConsensusRounded rnd (rnd voteAverage) (rnd voteCount)) := by
  simp only [Rounded.calculateCriticalConsensus, Rounded.record, ha, hc, Option.map_some',
    Option.getD_some]
  rfl

/-- The rounded base canon score of a film with a vote average and a vote
count. -/
theorem rounded_calculateBaseCanonScore_eq (rnd : ℚ → ℚ) (film : Film)
    (voteAverage voteCount : ℚ) (ha : film.vote_average = some voteAverage)
    (hc : film.vote_count = some voteCount) :
    Rounded.calculateBaseCanonScore rnd film = some (mathRound (min
      (specWeightedSum rnd (specCriticalConsensusRounded rnd (rnd voteAverage) (rnd voteCount))
        (specHistoricalImportance film : ℚ) (calculateAuteurImportance film : ℚ)
        (storedOr (film.formalInnovation.map rnd) (calculateFormalInnovation film))
        (storedOr (film.culturalInfluence.map rnd)
          (calculateCulturalInfluence (Rounded.record rnd film)))) 100)) := by
  unfold Rounded.calculateBaseCanonScore
  rw [rounded_calculateCriticalConsensus_eq rnd film voteAverage voteCount ha hc,
    ← calculateHistoricalImportance_eq_spec]
  rfl

/-- Claim C17, with the arithmetic of the source: for every rounding `rnd`
(the rounding to doubles of the source, or none) and every film with a vote
average and a vote count, `calculateBaseCanonScore` is
`round(min(S, 100))`, where `S` is the sum `0.35*CC + 0.25*HI + 0.20*AI +
0.10*FI + 0.10*CI` rounded after each product and each sum from left to
right, `CC = vote_average*10*(0.7 + 0.3*min(vote_count/5000, 1))` is the
value of `calculateCriticalConsensus`, rounded after each operation, `HI` is
the value of `calculateHistoricalImportance`, equal to `min(100, tier base +
age bonus + min(5*|festivalWins|, 10))`, `AI` is `calculateAuteurImportance`
and `FI`, `CI` are the formal-innovation and cultural-influence terms used
for the film; without rounding this is the formula in exact arithmetic; and
when the rounding has the relative accuracy of doubles, the numbers of the
record are doubles, the vote average lies in `[0, 10]`, the vote count is at
least 0 and the stored terms lie in `[0, 100]`, the value returned differs
by at most 1 from the value of the formula in exact arithmetic. -/
theorem calculateBaseCanonScore_formula (rnd : ℚ → ℚ) (film : Film) (voteAverage voteCount : ℚ)
    (ha : film.vote_average = some voteAverage) (hc : film.vote_count = some voteCount) :
    Rounded.calculateCriticalConsensus rnd film
      = some (specCriticalConsensusRounded rnd (rnd voteAverage) (rnd voteCount)) ∧
    calculateHistoricalImportance film = specHistoricalImportance film ∧
    Rounded.calculateBaseCanonScore rnd film = some (mathRound (min
      (specWeightedSum rnd (specCriticalConsensusRounded rnd (rnd voteAverage) (rnd voteCount))
        (specHistoricalImportance film : ℚ) (calculateAuteurImportance film : ℚ)
        (storedOr (film.formalInnovation.map rnd) (calculateFormalInnovation film))
        (storedOr (film.culturalInfluence.map rnd)
          (calculateCulturalInfluence (Rounded.record rnd film)))) 100)) ∧
    specCriticalConsensusRounded id voteAverage voteCount
      = specCriticalConsensus voteAverage voteCount ∧
    (∀ cc hi ai fi ci : ℚ, specWeightedSum id cc hi ai fi ci
      = 0.35 * cc + 0.25 * hi + 0.20 * ai + 0.10 * fi + 0.10 * ci) ∧
    (RoundsToNearest rnd → Rounded.record rnd film = film →
      0 ≤ voteAverage → voteAverage ≤ 10 → 0 ≤ voteCount →
      (∀ v, film.formalInnovation = some v → 0 ≤ v ∧ v ≤ 100) →
      (∀ v, film.culturalInfluence = some v → 0 ≤ v ∧ v ≤ 100) →
      ∃ score : Int, Rounded.calculateBaseCanonScore rnd film = some score ∧
        |score - mathRound (min
          (0.35 * specCriticalConsensus voteAverage voteCount
            + 0.25 * (specHistoricalImportance film : ℚ)
            + 0.20 * (calculateAuteurImportance film : ℚ)
            + 0.10 * storedOr film.formalInnovation (calculateFormalInnovation film)
            + 0.10 * storedOr film.culturalInfluence (calculateCulturalInfluence film)) 100)|
          ≤ 1) := by
  have hcc := rounded_calculateCriticalConsensus_eq rnd film voteAverage voteCount ha hc
  have hbase := rounded_calculateBaseCanonScore_eq rnd film voteAverage voteCount ha hc
  refine ⟨hcc, calculateHistoricalImportance_eq_spec film, hbase, ?_,
    fun cc hi ai fi ci => rfl, ?_⟩
  · unfold specCriticalConsensusRounded specCriticalConsensus
    simp only [id]
  · intro hr hrec h0 h10 hvc hfi hci
    refine ⟨_, hbase, ?_⟩
    have hva' : rnd voteAverage = voteAverage := by
      have h := congrArg Film.vote_average hrec
      simp only [Rounded.record, ha, Option.map_some', Option.some.injEq] at h
      exact h
    have hvc' : rnd voteCount = voteCount := by
      have h := congrArg Film.vote_count hrec
      simp only [Rounded.record, hc, Option.map_some', Option.some.injEq] at h
      exact h
    have hfi' : film.formalInnovation.map rnd = film.formalInnovation :=
      congrArg Film.formalInnovation hrec
    have hci' : film.culturalInfluence.map rnd = film.culturalInfluence :=
      congrArg Film.culturalInfluence hrec
    rw [hva', hvc', hfi', hci', hrec]
    obtain ⟨hclose, hbound⟩ :=
      specCriticalConsensusRounded_close rnd hr voteAverage voteCount h0 h10 hvc
    have hh := calculateHistoricalImportance_bounds film
    rw [calculateHistoricalImportance_eq_spec] at hh
    have haa := calculateAuteurImportance_bounds film
    have hf := storedOr_bounds film.formalInnovation _ hfi (calculateFormalInnovation_bounds film)
    have hcu := storedOr_bounds film.culturalInfluence _ hci
      (calculateCulturalInfluence_bounds film)
    have hhq : |(specHistoricalImportance film : ℚ)| ≤ 100 := by
      rw [abs_of_nonneg (by exact_mod_cast hh.1)]
      exact_mod_cast hh.2
    have haq : |(calculateAuteurImportance film : ℚ)| ≤ 100 := by
      rw [abs_of_nonneg (by exact_mod_cast haa.1)]
      exact_mod_cast haa.2
    have hfq : |storedOr film.formalInnovation (calculateFormalInnovation film)| ≤ 100 := by
      rw [abs_of_nonneg hf.1]
      exact hf.2
    have hcq : |storedOr film.culturalInfluence (calculateCulturalInfluence film)| ≤ 100 := by
      rw [abs_of_nonneg hcu.1]
      exact hcu.2
    have hsum := specWeightedSum_close rnd hr (specCriticalConsensus voteAverage voteCount)
      (specCriticalConsensusRounded rnd voteAverage voteCount) _ _ _ _ hbound hclose hhq haq
      hfq hcq
    have hsmall : 3500 * unitRoundoff < 1 := by unfold unitRoundoff; norm_num
    have hu : 0 ≤ 3500 * unitRoundoff := by unfold unitRoundoff; positivity
    apply mathRound_close
    refine lt_of_le_of_lt (abs_min_sub_min_le_max _ _ _ _) ?_
    rw [sub_self, abs_zero]
    exact lt_of_le_of_lt (max_le hsum hu) hsmall

/-- Counterexample to claim C17 as written: for the film of tier 1 and year
1966 with a vote average of 6, 2500 votes, one director outside the auteur
lists and stored innovation and influence of 4 and 40, all of them doubles,
the weighted sum is `17.85 + 21.25 + 10 + 0.4 + 4 = 53.5` and the formula
gives 54; in doubles the product `0.35 * 51` is `17.849999999999998`, the sum
is `53.49999999999999` and the source returns 53. -/
theorem calculateBaseCanonScore_rounding :
    Rounded.calculateBaseCanonScore binary64 roundingFilm = some 53 ∧
    0.35 * specCriticalConsensus 6 2500 + 0.25 * (specHistoricalImportance roundingFilm : ℚ)
      + 0.20 * (calculateAuteurImportance roundingFilm : ℚ) + 0.10 * 4 + 0.10 * 40
      = (53.5 : ℚ) ∧
    mathRound (min (53.5 : ℚ) 100) = 54 ∧
    calculateBaseCanonScore roundingFilm = some 54 := by
  have hh : calculateHistoricalImportance roundingFilm = 85 := by decide
  have hs : specHistoricalImportance roundingFilm = 85 := by decide
  have ha : calculateAuteurImportance roundingFilm = 50 := by decide
  refine ⟨?_, ?_, ?_, ?_⟩
  · have h1 : binary64 (6) = 6 := by
      rw [binary64_of_exponent (6) (-50) (by norm_num [abs_of_pos])
        (by norm_num [abs_of_pos]), roundHalfEven_of_near _ 6755399441055744 (by norm_num) (by norm_num)]
      norm_num
    have h2 : binary64 (2500) = 2500 := by
      rw [binary64_of_exponent (2500) (-41) (by norm_num [abs_of_pos])
        (by norm_num [abs_of_pos]), roundHalfEven_of_near _ 5497558138880000 (by norm_num) (by norm_num)]
      norm_num
    have h3 : binary64 (4) = 4 := by
      rw [binary64_of_exponent (4) (-50) (by norm_num [abs_of_pos])
        (by norm_num [abs_of_pos]), roundHalfEven_of_near _ 4503599627370496 (by norm_num) (by norm_num)]
      norm_num
    have h4 : binary64 (40) = 40 := by
      rw [binary64_of_exponent (40) (-47) (by norm_num [abs_of_pos])
        (by norm_num [abs_of_pos]), roundHalfEven_of_near _ 5629499534213120 (by norm_num) (by norm_num)]
      norm_num
    have h5 : binary64 (60) = 60 := by
      rw [binary64_of_exponent (60) (-47) (by norm_num [abs_of_pos])
        (by norm_num [abs_of_pos]), roundHalfEven_of_near _ 8444249301319680 (by norm_num) (by norm_num)]
      norm_num
    have h6 : binary64 (1 / 2) = 1 / 2 := by
      rw [binary64_of_exponent (1 / 2) (-53) (by norm_num [abs_of_pos])
        (by norm_num [abs_of_pos]), roundHalfEven_of_near _ 4503599627370496 (by norm_num) (by norm_num)]
      norm_num
    have h7 : binary64 (7 / 10) = 3152519739159347 / 4503599627370496 := by
      rw [binary64_of_exponent (7 / 10) (-53) (by norm_num [abs_of_pos])
        (by norm_num [abs_of_pos]), roundHalfEven_of_near _ 6305039478318694 (by norm_num) (by norm_num)]
      norm_num
    have h8 : binary64 (3 / 10) = 5404319552844595 / 18014398509481984 := by
      rw [binary64_of_exponent (3 / 10) (-54) (by norm_num [abs_of_pos])
        (by norm_num [abs_of_pos]), roundHalfEven_of_near _ 5404319552844595 (by norm_num) (by norm_num)]
      norm_num
    have h9 : binary64 (5404319552844595 / 36028797018963968) = 5404319552844595 / 36028797018963968 := by
      rw [binary64_of_exponent (5404319552844595 / 36028797018963968) (-55) (by norm_num [abs_of_pos])
        (by norm_num [abs_of_pos]), roundHalfEven_of_near _ 5404319552844595 (by norm_num) (by norm_num)]
      norm_num
    have h10 : binary64 (30624477466119371 / 36028797018963968) = 7656119366529843 / 9007199254740992 := by
      rw [binary64_of_exponent (30624477466119371 / 36028797018963968) (-53) (by norm_num [abs_of_pos])
        (by norm_num [abs_of_pos]), roundHalfEven_of_near _ 7656119366529843 (by norm_num) (by norm_num)]
      norm_num
    have h11 : binary64 (114841790497947645 / 2251799813685248) = 51 := by
      rw [binary64_of_exponent (114841790497947645 / 2251799813685248) (-47) (by norm_num [abs_of_pos])
        (by norm_num [abs_of_pos]), roundHalfEven_of_near _ 7177611906121728 (by norm_num) (by norm_num)]
      norm_num
    have h12 : binary64 (7 / 20) = 3152519739159347 / 9007199254740992 := by
      rw [binary64_of_exponent (7 / 20) (-54) (by norm_num [abs_of_pos])
        (by norm_num [abs_of_pos]), roundHalfEven_of_near _ 6305039478318694 (by norm_num) (by norm_num)]
      norm_num
    have h13 : binary64 (160778506697126697 / 9007199254740992) = 5024328334285209 / 281474976710656 := by
      rw [binary64_of_exponent (160778506697126697 / 9007199254740992) (-48) (by norm_num [abs_of_pos])
        (by norm_num [abs_of_pos]), roundHalfEven_of_near _ 5024328334285209 (by norm_num) (by norm_num)]
      norm_num
    have h14 : binary64 (1 / 4) = 1 / 4 := by
      rw [binary64_of_exponent (1 / 4) (-54) (by norm_num [abs_of_pos])
        (by norm_num [abs_of_pos]), roundHalfEven_of_near _ 4503599627370496 (by norm_num) (by norm_num)]
      norm_num
    have h15 : binary64 (85 / 4) = 85 / 4 := by
      rw [binary64_of_exponent (85 / 4) (-48) (by norm_num [abs_of_pos])
        (by norm_num [abs_of_pos]), roundHalfEven_of_near _ 5981343255101440 (by norm_num) (by norm_num)]
      norm_num
    have h16 : binary64 (11005671589386649 / 281474976710656) = 1375708948673331 / 35184372088832 := by
      rw [binary64_of_exponent (11005671589386649 / 281474976710656) (-47) (by norm_num [abs_of_pos])
        (by norm_num [abs_of_pos]), roundHalfEven_of_tie _ 5502835794693324 (by norm_num)]
      norm_num
    have h17 : binary64 (1 / 5) = 3602879701896397 / 18014398509481984 := by
      rw [binary64_of_exponent (1 / 5) (-55) (by norm_num [abs_of_pos])
        (by norm_num [abs_of_pos]), roundHalfEven_of_near _ 7205759403792794 (by norm_num) (by norm_num)]
      norm_num
    have h18 : binary64 (90071992547409925 / 9007199254740992) = 10 := by
      rw [binary64_of_exponent (90071992547409925 / 9007199254740992) (-49) (by norm_num [abs_of_pos])
        (by norm_num [abs_of_pos]), roundHalfEven_of_near _ 5629499534213120 (by norm_num) (by norm_num)]
      norm_num
    have h19 : binary64 (1727552669561651 / 35184372088832) = 1727552669561651 / 35184372088832 := by
      rw [binary64_of_exponent (1727552669561651 / 35184372088832) (-47) (by norm_num [abs_of_pos])
        (by norm_num [abs_of_pos]), roundHalfEven_of_near _ 6910210678246604 (by norm_num) (by norm_num)]
      norm_num
    have h20 : binary64 (1 / 10) = 3602879701896397 / 36028797018963968 := by
      rw [binary64_of_exponent (1 / 10) (-56) (by norm_num [abs_of_pos])
        (by norm_num [abs_of_pos]), roundHalfEven_of_near _ 7205759403792794 (by norm_num) (by norm_num)]
      norm_num
    have h21 : binary64 (3602879701896397 / 9007199254740992) = 3602879701896397 / 9007199254740992 := by
      rw [binary64_of_exponent (3602879701896397 / 9007199254740992) (-54) (by norm_num [abs_of_pos])
        (by norm_num [abs_of_pos]), roundHalfEven_of_near _ 7205759403792794 (by norm_num) (by norm_num)]
      norm_num
    have h22 : binary64 (445856363109679053 / 9007199254740992) = 6966505673588735 / 140737488355328 := by
      rw [binary64_of_exponent (445856363109679053 / 9007199254740992) (-47) (by norm_num [abs_of_pos])
        (by norm_num [abs_of_pos]), roundHalfEven_of_near _ 6966505673588735 (by norm_num) (by norm_num)]
      norm_num
    have h23 : binary64 (18014398509481985 / 4503599627370496) = 4 := by
      rw [binary64_of_exponent (18014398509481985 / 4503599627370496) (-50) (by norm_num [abs_of_pos])
        (by norm_num [abs_of_pos]), roundHalfEven_of_near _ 4503599627370496 (by norm_num) (by norm_num)]
      norm_num
    have h24 : binary64 (7529455627010047 / 140737488355328) = 7529455627010047 / 140737488355328 := by
      rw [binary64_of_exponent (7529455627010047 / 140737488355328) (-47) (by norm_num [abs_of_pos])
        (by norm_num [abs_of_pos]), roundHalfEven_of_near _ 7529455627010047 (by norm_num) (by norm_num)]
      norm_num
    have hf := rounded_calculateBaseCanonScore_eq binary64 roundingFilm 6 2500 rfl rfl
    rw [hf, hs, ha]
    norm_num [roundingFilm, storedOr, mathRound, specWeightedSum, specCriticalConsensusRounded,
      h1, h2, h3, h4, h5, h6, h7, h8, h9, h10, h11, h12, h13, h14, h15, h16, h17, h18, h19, h20, h21, h22, h23, h24]
  · rw [hs, ha]
    norm_num [specCriticalConsensus]
  · norm_num [mathRound]
  · simp only [calculateBaseCanonScore, calculateCriticalConsensus, hh, ha]
    norm_num [roundingFilm, storedOr, mathRound]


/-- Witness of claim C17 on a tier-1 film of 1966 whose numbers are doubles,
with the rounding to doubles. -/
theorem calculateBaseCanonScore_formula_witness :
    ∃ score : Int, Rounded.calculateBaseCanonScore binary64 formulaWitnessFilm = some score ∧
      |score - mathRound (min
        (0.35 * specCriticalConsensus 8 5000
          + 0.25 * (specHistoricalImportance formulaWitnessFilm : ℚ)
          + 0.20 * (calculateAuteurImportance formulaWitnessFilm : ℚ)
          + 0.10 * storedOr formulaWitnessFilm.formalInnovation
              (calculateFormalInnovation formulaWitnessFilm)
          + 0.10 * storedOr formulaWitnessFilm.culturalInfluence
              (calculateCulturalInfluence formulaWitnessFilm)) 100)| ≤ 1 :=
  (calculateBaseCanonScore_formula binary64 formulaWitnessFilm 8 5000 rfl rfl).2.2.2.2.2
    binary64_error
    (by
      have h8 : binary64 8 = 8 := by
        rw [binary64_of_exponent 8 (-49) (by norm_num [abs_of_pos]) (by norm_num [abs_of_pos]),
          roundHalfEven_of_near _ 4503599627370496 (by norm_num) (by norm_num)]
        norm_num
      have h5000 : binary64 5000 = 5000 := by
        rw [binary64_of_exponent 5000 (-40) (by norm_num [abs_of_pos])
          (by norm_num [abs_of_pos]),
          roundHalfEven_of_near _ 5497558138880000 (by norm_num) (by norm_num)]
        norm_num
      have h40 : binary64 40 = 40 := by
        rw [binary64_of_exponent 40 (-47) (by norm_num [abs_of_pos]) (by norm_num [abs_of_pos]),
          roundHalfEven_of_near _ 5629499534213120 (by norm_num) (by norm_num)]
        norm_num
      have h50 : binary64 50 = 50 := by
        rw [binary64_of_exponent 50 (-47) (by norm_num [abs_of_pos]) (by norm_num [abs_of_pos]),
          roundHalfEven_of_near _ 7036874417766400 (by norm_num) (by norm_num)]
        norm_num
      simp [Rounded.record, formulaWitnessFilm, h8, h5000, h40, h50])
    (by norm_num) (by norm_num) (by norm_num)
    (by intro v h; simp [formulaWitnessFilm] at h; subst h; norm_num)
    (by intro v h; simp [formulaWitnessFilm] at h; subst h; norm_num)


/-! ## Discovery controller: rankings in double precision -/

/-- Claim C14: whatever the rounding of the arithmetic (that of the source
to doubles, or none) and the logarithm, in the mood context, and in the
combined context, the list that is paginated holds exactly the candidate
films whose score is at least 30 (a `NaN` score is not), each once; it is
ordered by non-increasing score; every entry carries the score of its film,
which is at least 30, and so does every entry of a page cut out of the list;
the reported total, the length of the list, is the number of candidates
scoring at least 30. -/
theorem discovery_ranking (rnd : ℚ → ℚ) (log : ℚ → ℚ) (films : List Film)
    (selectedMoods : List String) (decadeNum : Int) :
    (((Rounded.moodRanking rnd log films selectedMoods).map Prod.fst).Perm
        ((films.filter (fun film =>
          passesThreshold (Rounded.calculateMoodScore rnd log film (some selectedMoods)))).map
            filmWithMoods) ∧
      (Rounded.moodRanking rnd log films selectedMoods).Pairwise (fun a b => b.2 ≤ a.2) ∧
      (∀ entry ∈ Rounded.moodRanking rnd log films selectedMoods,
        Rounded.calculateMoodScore rnd log entry.1 (some selectedMoods) = some entry.2 ∧
          30 ≤ entry.2) ∧
      (∀ page, List.Sublist page (Rounded.moodRanking rnd log films selectedMoods) →
        ∀ entry ∈ page, 30 ≤ entry.2) ∧
      (Rounded.moodRanking rnd log films selectedMoods).length
        = (films.filter (fun film =>
            passesThreshold
              (Rounded.calculateMoodScore rnd log film (some selectedMoods)))).length) ∧
    (((Rounded.combinedRanking rnd log films selectedMoods decadeNum).map Prod.fst).Perm
        (films.filter (fun film =>
          passesThreshold
            (Rounded.calculateCombinedScore rnd log film (some selectedMoods) decadeNum))) ∧
      (Rounded.combinedRanking rnd log films selectedMoods decadeNum).Pairwise
        (fun a b => b.2 ≤ a.2) ∧
      (∀ entry ∈ Rounded.combinedRanking rnd log films selectedMoods decadeNum,
        Rounded.calculateCombinedScore rnd log entry.1 (some selectedMoods) decadeNum
          = some entry.2 ∧ 30 ≤ entry.2) ∧
      (∀ page, List.Sublist page (Rounded.combinedRanking rnd log films selectedMoods decadeNum) →
        ∀ entry ∈ page, 30 ≤ entry.2) ∧
      (Rounded.combinedRanking rnd log films selectedMoods decadeNum).length
        = (films.filter (fun film =>
            passesThreshold
              (Rounded.calculateCombinedScore rnd log film (some selectedMoods)
                decadeNum))).length) := by
  constructor
  · have hmap : Rounded.moodRanking rnd log films selectedMoods
        = sortByScore (keepAboveThreshold ((films.map filmWithMoods).map (fun film =>
            (film, Rounded.calculateMoodScore rnd log film (some selectedMoods))))) := by
      unfold Rounded.moodRanking
      rw [List.map_map]
      rfl
    obtain ⟨hperm, hsorted, hmem⟩ := ranking_spec (films.map filmWithMoods)
      (fun film => Rounded.calculateMoodScore rnd log film (some selectedMoods))
    rw [← hmap] at hperm hsorted hmem
    have hfilter : (films.map filmWithMoods).filter (fun film =>
        passesThreshold (Rounded.calculateMoodScore rnd log film (some selectedMoods)))
        = (films.filter (fun film =>
          passesThreshold (Rounded.calculateMoodScore rnd log film (some selectedMoods)))).map
            filmWithMoods := by
      rw [List.filter_map]
      rfl
    rw [hfilter] at hperm
    refine ⟨hperm, hsorted, fun e he => (hmem e he).2, fun page hp e he =>
      (hmem e (hp.subset he)).2.2, ?_⟩
    have := hperm.length_eq
    simpa using this
  · obtain ⟨hperm, hsorted, hmem⟩ := ranking_spec films
      (fun film => Rounded.calculateCombinedScore rnd log film (some selectedMoods) decadeNum)
    refine ⟨hperm, hsorted, fun e he => (hmem e he).2, fun page hp e he =>
      (hmem e (hp.subset he)).2.2, ?_⟩
    have := hperm.length_eq
    simpa using this

/-- Witness of claim C14 on two candidate films, with the rounding to doubles
and a toy logarithm. -/
theorem discovery_ranking_witness :
    (Rounded.moodRanking binary64 (fun x => x / 2) rankingCandidates ["slow"]).length
      = (rankingCandidates.filter (fun film => passesThreshold
          (Rounded.calculateMoodScore binary64 (fun x => x / 2) film (some ["slow"])))).length :=
  (discovery_ranking binary64 (fun x => x / 2) rankingCandidates ["slow"] 1960).1.2.2.2.2

/-- At the threshold the rounding decides: for the film without moods of
base canon score 62, depth 14 and show count 0 the mood score is
`0.30*62 + 0.10*14 + 0.10*100 = 30` in exact arithmetic, and the film is
kept; in doubles the score is `29.999999999999996` and the film is dropped,
for every logarithm with `100 / log 2` rounded to at least 100. -/
theorem moodRanking_at_threshold (log : ℚ → ℚ) (hlog : 100 ≤ binary64 (100 / log 2)) :
    Rounded.calculateMoodScore binary64 log thresholdFilm (some ["slow"])
      = some (8444249301319679 / 281474976710656) ∧
    (8444249301319679 / 281474976710656 : ℚ) < 30 ∧
    Rounded.moodRanking binary64 log [thresholdFilm] ["slow"] = [] ∧
    (100 ≤ 100 / log 2 →
      calculateMoodScore log thresholdFilm (some ["slow"]) = some 30 ∧
      moodRanking log [thresholdFilm] ["slow"] = [(filmWithMoods thresholdFilm, 30)]) := by
  have htwo : binary64 2 = 2 := by
    rw [binary64_of_exponent 2 (-51) (by norm_num [abs_of_pos]) (by norm_num [abs_of_pos]),
      roundHalfEven_of_near _ 4503599627370496 (by norm_num) (by norm_num)]
    norm_num
  have hrarity : Rounded.calculateRarityBoost binary64 log 0 = 100 := by
    unfold Rounded.calculateRarityBoost
    dsimp only
    rw [zero_add, htwo, min_eq_left hlog]
    norm_num
  have h1 : binary64 (62) = 62 := by
    rw [binary64_of_exponent (62) (-47) (by norm_num [abs_of_pos])
      (by norm_num [abs_of_pos]), roundHalfEven_of_near _ 8725724278030336 (by norm_num) (by norm_num)]
    norm_num
  have h2 : binary64 (14) = 14 := by
    rw [binary64_of_exponent (14) (-49) (by norm_num [abs_of_pos])
      (by norm_num [abs_of_pos]), roundHalfEven_of_near _ 7881299347898368 (by norm_num) (by norm_num)]
    norm_num
  have h3 : binary64 (1 / 2) = 1 / 2 := by
    rw [binary64_of_exponent (1 / 2) (-53) (by norm_num [abs_of_pos])
      (by norm_num [abs_of_pos]), roundHalfEven_of_near _ 4503599627370496 (by norm_num) (by norm_num)]
    norm_num
  have h4 : binary64 (3 / 10) = 5404319552844595 / 18014398509481984 := by
    rw [binary64_of_exponent (3 / 10) (-54) (by norm_num [abs_of_pos])
      (by norm_num [abs_of_pos]), roundHalfEven_of_near _ 5404319552844595 (by norm_num) (by norm_num)]
    norm_num
  have h5 : binary64 (167533906138182445 / 9007199254740992) = 5235434566818201 / 281474976710656 := by
    rw [binary64_of_exponent (167533906138182445 / 9007199254740992) (-48) (by norm_num [abs_of_pos])
      (by norm_num [abs_of_pos]), roundHalfEven_of_near _ 5235434566818201 (by norm_num) (by norm_num)]
    norm_num
  have h6 : binary64 (5235434566818201 / 281474976710656) = 5235434566818201 / 281474976710656 := by
    rw [binary64_of_exponent (5235434566818201 / 281474976710656) (-48) (by norm_num [abs_of_pos])
      (by norm_num [abs_of_pos]), roundHalfEven_of_near _ 5235434566818201 (by norm_num) (by norm_num)]
    norm_num
  have h7 : binary64 (1 / 10) = 3602879701896397 / 36028797018963968 := by
    rw [binary64_of_exponent (1 / 10) (-56) (by norm_num [abs_of_pos])
      (by norm_num [abs_of_pos]), roundHalfEven_of_near _ 7205759403792794 (by norm_num) (by norm_num)]
    norm_num
  have h8 : binary64 (25220157913274779 / 18014398509481984) = 6305039478318695 / 4503599627370496 := by
    rw [binary64_of_exponent (25220157913274779 / 18014398509481984) (-52) (by norm_num [abs_of_pos])
      (by norm_num [abs_of_pos]), roundHalfEven_of_near _ 6305039478318695 (by norm_num) (by norm_num)]
    norm_num
  have h9 : binary64 (90071992547409911 / 4503599627370496) = 5629499534213119 / 281474976710656 := by
    rw [binary64_of_exponent (90071992547409911 / 4503599627370496) (-48) (by norm_num [abs_of_pos])
      (by norm_num [abs_of_pos]), roundHalfEven_of_near _ 5629499534213119 (by norm_num) (by norm_num)]
    norm_num
  have h10 : binary64 (90071992547409925 / 9007199254740992) = 10 := by
    rw [binary64_of_exponent (90071992547409925 / 9007199254740992) (-49) (by norm_num [abs_of_pos])
      (by norm_num [abs_of_pos]), roundHalfEven_of_near _ 5629499534213120 (by norm_num) (by norm_num)]
    norm_num
  have h11 : binary64 (8444249301319679 / 281474976710656) = 8444249301319679 / 281474976710656 := by
    rw [binary64_of_exponent (8444249301319679 / 281474976710656) (-48) (by norm_num [abs_of_pos])
      (by norm_num [abs_of_pos]), roundHalfEven_of_near _ 8444249301319679 (by norm_num) (by norm_num)]
    norm_num
  have hscore : Rounded.calculateMoodScore binary64 log thresholdFilm (some ["slow"])
      = some (8444249301319679 / 281474976710656) := by
    simp only [Rounded.calculateMoodScore, Rounded.getMoodMatch, Rounded.record, plainMoods,
      thresholdFilm, depthOrDefault, Option.getD_some, Option.map_some', binary64_zero, hrarity]
    norm_num [binary64_zero, h1, h2, h3, h4, h5, h6, h7, h8, h9, h10, h11]
  refine ⟨hscore, by norm_num, ?_, ?_⟩
  · unfold Rounded.moodRanking
    dsimp only
    rw [List.map_cons, List.map_nil, rounded_calculateMoodScore_filmWithMoods, hscore]
    unfold keepAboveThreshold sortByScore
    norm_num
  · intro hexact
    have hexactRarity : calculateRarityBoost log (0 : ℚ) = 100 := by
      rw [calculateRarityBoost_eq, zero_add, min_eq_left hexact]
      norm_num
    have hexactScore : calculateMoodScore log thresholdFilm (some ["slow"]) = some 30 := by
      simp only [calculateMoodScore, getMoodMatch, plainMoods, thresholdFilm, depthOrDefault,
        Option.getD_some, Rat.cast_id, hexactRarity]
      norm_num
    refine ⟨hexactScore, ?_⟩
    unfold moodRanking
    dsimp only
    rw [List.map_cons, List.map_nil, calculateMoodScore_filmWithMoods, hexactScore]
    unfold keepAboveThreshold sortByScore
    norm_num

end ArtofCinema
